import Mathlib

/-!
Trivia Stealth Game: shallow embedding of `src/TRIVIA_STEALTH/main.cpp`.

The simulation core of the game (level loading, the trivia deck, the player
update, the pursuer update and the state switch of the main loop) is embedded
as pure functions over an explicit `World` record that gathers the global
variables of the program.

Modelling conventions:

* `int` values are `Int` (grid coordinates never leave a small range, so no
  wrap-around is involved); indices into vectors are `Nat`.
* `float` values are exact rationals (`ℚ`): rounding is not modelled.  The
  constants `0.12f`, `0.06f`, `0.28f` are the rationals `3/25`, `3/50`, `7/25`.
  A timer that the code decreases by `-=` once per tick is decreased exactly
  here, while a 32-bit float rounds at every subtraction; the value stored
  after many ticks, and so the tick at which it crosses 0, can differ from the
  code's by the accumulated rounding.  The theorems below speak of the stored
  timer values of one update or of invariants over them, not of the tick at
  which a sum of elapsed times reaches a bound.
* `rand()` is an explicit list of samples consumed from the front;
  `std::shuffle(first, last, rng)` is an explicit list `order` of source
  positions: slot `k` of the shuffled vector receives the element that was at
  position `order[k]`.
* the raylib calls `GetFrameTime`, `IsKeyDown`, `IsKeyPressed` are fields of an
  `Input` record sampled once per tick.
* a sentinel `-1` for "no index" is `Option.none`.
-/

namespace TriviaStealth

/-! ## Constants, enums, structs -/

/-- Number of columns of the grid (`const int COLS = 20`). -/
def COLS : Int := 20

/-- Number of rows of the grid (`const int ROWS = 15`). -/
def ROWS : Int := 15

/-- The `enum GameState` of the program. -/
inductive GameState where
  | MENU | PLAYING | QUIZ | FROZEN | GAME_OVER | VICTORY | HELP
  deriving DecidableEq, Repr

/-- The `enum TileType` of the program. -/
inductive TileType where
  | TILE_EMPTY | TILE_WALL | TILE_EXIT
  deriving DecidableEq, Repr

/-- The `struct GridPos`. -/
structure GridPos where
  x : Int
  y : Int
  deriving DecidableEq, Repr

/-- The `struct Question`; `options[0..2]` are the three fields `option0..2`. -/
structure Question where
  text : String
  option0 : String
  option1 : String
  option2 : String
  correctIndex : Int
  deriving DecidableEq, Repr

/-- The `struct Player`. -/
structure Player where
  pos : GridPos
  moveTimer : ℚ
  invisibleTimer : ℚ
  freezeTimer : ℚ
  stamina : ℚ
  deriving DecidableEq

/-- The `struct Enemy`. -/
structure Enemy where
  pos : GridPos
  moveTimer : ℚ
  speed : ℚ
  deriving DecidableEq

/-- The grid `vector<vector<int>> gameGrid`, rows first. -/
abbrev Grid := List (List TileType)

/-- The global data of the program. -/
structure World where
  gameGrid : Grid
  player : Player
  enemies : List Enemy
  nuggets : List GridPos
  diamonds : List GridPos
  currentState : GameState
  currentQuestion : Question
  questionIndices : List Nat
  deriving DecidableEq

/-- What one iteration of the main loop reads from outside the program. -/
structure Input where
  /-- Value of `GetFrameTime()` -/
  frameTime : ℚ
  /-- Value of `IsKeyDown(KEY_LEFT_SHIFT)` -/
  shift : Bool
  /-- Value of `IsKeyDown(KEY_UP)` -/
  up : Bool
  /-- Value of `IsKeyDown(KEY_DOWN)` -/
  down : Bool
  /-- Value of `IsKeyDown(KEY_LEFT)` -/
  left : Bool
  /-- Value of `IsKeyDown(KEY_RIGHT)` -/
  right : Bool
  /-- Value of `IsKeyPressed(KEY_ENTER)` -/
  enter : Bool
  /-- Value of `IsKeyPressed(KEY_H)` -/
  keyH : Bool
  /-- Value of `IsKeyPressed(KEY_ESCAPE)` -/
  escape : Bool
  /-- Value of `IsKeyPressed(KEY_ONE) || IsKeyPressed(KEY_KP_1)` -/
  one : Bool
  /-- Value of `IsKeyPressed(KEY_TWO) || IsKeyPressed(KEY_KP_2)` -/
  two : Bool
  /-- Value of `IsKeyPressed(KEY_THREE) || IsKeyPressed(KEY_KP_3)` -/
  three : Bool
  /-- outcome of `std::shuffle` on `questionIndices`, should it run this tick -/
  deckOrder : List Nat
  /-- value of the `rand()` call of `ShuffleQuestions`, should it run in the player update -/
  randSample : Nat
  /-- successive values of `rand()` available to `LoadLevel`, should it run this tick -/
  rands : List Nat
  /-- outcome of `std::shuffle` on the direction indices of the `k`-th pursuer -/
  enemyOrder : Nat → List Nat

/-! ## Level layout and question bank -/

/-- The level design `LEVEL_LAYOUT`. -/
def LEVEL_LAYOUT : List String := [
  "11111111111111111111",
  "19000001000000010001",
  "10111101011111010101",
  "10100000000000000101",
  "10101111101111110101",
  "10001000000000010001",
  "11101010111101010111",
  "10000010000001000001",
  "10111111111111110101",
  "10001000000000000001",
  "10101011111101111101",
  "10100000010000000101",
  "10111111010111110101",
  "10000001000000000021",
  "11111111111111111111"
]

/-- The global `questionBank`. -/
def questionBank : List Question := [
  ⟨"Who is the best Computer programing Professor?", "Jaudat Mamoon", "David Malan", "Andrew Ng", 0⟩,
  ⟨"Which planet has the most rings?", "Saturn", "Jupiter", "Mars", 0⟩,
  ⟨"What is the largest organ on the human body?", "Liver", "Skin", "Heart", 1⟩,
  ⟨"Who painted the Mona Lisa?", "Van Gogh", "Picasso", "Da Vinci", 2⟩,
  ⟨"Which country gave the Statue of Liberty to the USA?", "France", "England", "Spain", 0⟩,
  ⟨"What color is a polar bear's skin?", "White", "Pink", "Black", 2⟩,
  ⟨"In 'The Matrix', which pill does Neo take?", "Red", "Blue", "Green", 0⟩,
  ⟨"A group of Crows is called a...", "Pack", "Murder", "School", 1⟩,
  ⟨"Which is the only mammal that can fly?", "Bat", "Flying Squirrel", "Ostrich", 0⟩
]

/-! ## Trivia deck: `ShuffleQuestions` and the draw -/

/-- Substring test on character lists: `s.find(pat) != string::npos`. -/
def hasSubstr (pat : List Char) : List Char → Bool
  | [] => pat.isEmpty
  | c :: cs => pat.isPrefixOf (c :: cs) || hasSubstr pat cs

/-- The test `options[0].find("Jaudat Mamoon") != string::npos`. -/
def isSpecial (q : Question) : Bool :=
  hasSubstr "Jaudat Mamoon".toList q.option0.toList

/-- Step 1 of `ShuffleQuestions`: the loop over the bank, from index `i`, with the
indices pushed so far and the `specialIndex` found so far (`none` for `-1`). -/
def scanBank : List Question → Nat → List Nat × Option Nat → List Nat × Option Nat
  | [], _, acc => acc
  | q :: qs, i, acc =>
    scanBank qs (i + 1) (acc.1 ++ [i], if isSpecial q then some i else acc.2)

/-- The vector after `std::shuffle`: slot `k` holds the element formerly at position `order[k]`. -/
def stdShuffle (order : List Nat) (xs : List Nat) : List Nat :=
  order.map (fun k => xs.getD k 0)

/-- The search loop for `currentPos`: first position holding `v` (`none` for `-1`). -/
def findPos (v : Nat) : List Nat → Nat → Option Nat
  | [], _ => none
  | a :: as, i => if a = v then some i else findPos v as (i + 1)

/-- The exchange `std::swap(v[i], v[j])`. -/
def swapAt (v : List Nat) (i j : Nat) : List Nat :=
  (v.set i (v.getD j 0)).set j (v.getD i 0)

/-- The function `ShuffleQuestions`: `order` is the outcome of `std::shuffle`, `r` the value
of `rand()`.  Returns the new `questionIndices`.  When the search loop leaves `currentPos = -1`
the C++ swap is undefined; the model then leaves the vector as shuffled. -/
def ShuffleQuestions (bank : List Question) (order : List Nat) (r : Nat) : List Nat :=
  let filled := scanBank bank 0 ([], none)
  let questionIndices := stdShuffle order filled.1
  match filled.2 with
  | none => questionIndices
  | some specialIndex =>
    match findPos specialIndex questionIndices 0 with
    | none => questionIndices
    | some currentPos =>
      let poolSize := if questionIndices.length < 3 then questionIndices.length else 3
      let randomOffset := r % poolSize
      let targetPos := questionIndices.length - 1 - randomOffset
      swapAt questionIndices currentPos targetPos

/-- The draw inside `UpdatePlayer`: reshuffle when the order is empty, then take
`questionIndices.back()` and `pop_back()`.  Returns the drawn index and the remaining order.
On an order that is still empty after the reshuffle (empty bank; undefined in C++) the model
returns index 0 and the empty order. -/
def Draw (bank : List Question) (order : List Nat) (r : Nat) (qi : List Nat) : Nat × List Nat :=
  let qi1 := if qi.isEmpty then ShuffleQuestions bank order r else qi
  (qi1.getLastD 0, qi1.dropLast)

/-- The indices returned by `n` successive draws (oracle `orc k` serves the `k`-th draw, should it
reshuffle), with the order left after them. -/
def DrawN (bank : List Question) (orc : Nat → List Nat × Nat) :
    Nat → Nat → List Nat → List Nat × List Nat
  | 0, _, qi => ([], qi)
  | n + 1, k, qi =>
    let d := Draw bank (orc k).1 (orc k).2 qi
    let rest := DrawN bank orc n (k + 1) d.2
    (d.1 :: rest.1, rest.2)

/-! ## Grid -/

/-- The tile stored for a layout character; a cell whose character is not `0`, `1`, `2`, `9`
keeps the `TILE_WALL` written by `gameGrid.assign`. -/
def tileOfChar (c : Char) : TileType :=
  if c = '1' then TileType.TILE_WALL
  else if c = '0' then TileType.TILE_EMPTY
  else if c = '2' then TileType.TILE_EXIT
  else if c = '9' then TileType.TILE_EMPTY
  else TileType.TILE_WALL

/-- The grid built by the layout loop of `LoadLevel`. -/
def loadGrid (layout : List String) : Grid :=
  layout.map (fun row => row.toList.map tileOfChar)

/-- Scan of one row for the character `9`: the last one met updates the position. -/
def spawnInRow (y : Int) : List Char → Int → GridPos → GridPos
  | [], _, p => p
  | c :: cs, x, p => spawnInRow y cs (x + 1) (if c = '9' then ⟨x, y⟩ else p)

/-- Scan of the layout for the character `9`, rows in order. -/
def spawnOf : List String → Int → GridPos → GridPos
  | [], _, p => p
  | row :: rows, y, p => spawnOf rows (y + 1) (spawnInRow y row.toList 0 p)

/-- The lookup `gameGrid[y][x]`; outside the vector (undefined in C++) it reads `TILE_WALL`. -/
def tileAt (g : Grid) (x y : Int) : TileType :=
  if x < 0 ∨ y < 0 then TileType.TILE_WALL
  else (g.getD y.toNat []).getD x.toNat TileType.TILE_WALL

/-- The function `IsValidMove`. -/
def IsValidMove (g : Grid) (x y : Int) : Bool :=
  if x < 0 ∨ x ≥ COLS ∨ y < 0 ∨ y ≥ ROWS then false
  else if tileAt g x y = TileType.TILE_WALL then false
  else true

/-- Integer `abs`. -/
def iabs (a : Int) : Int := if a < 0 then -a else a

/-- Manhattan distance `abs(ax - bx) + abs(ay - by)`. -/
def manhattan (a b : GridPos) : Int := iabs (a.x - b.x) + iabs (a.y - b.y)

/-- The test `d.x == nx && d.y == ny`. -/
def samePos (a b : GridPos) : Bool := a.x == b.x && a.y == b.y

/-! ## `LoadLevel` and `ResetGame` -/

/-- The loop `while (diamondCount < 5)` of `LoadLevel`: `rands` are the values `rand()` will
return, `diamondCount` and `diamonds` the loop state.  Returns the final `diamonds` and the unread
samples, or `none` when the samples run out before the loop ends. -/
def spawnDiamonds (g : Grid) (pp : GridPos) :
    List Nat → Nat → List GridPos → Option (List GridPos × List Nat)
  | [], diamondCount, diamonds => if diamondCount < 5 then none else some (diamonds, [])
  | [a], diamondCount, diamonds => if diamondCount < 5 then none else some (diamonds, [a])
  | a :: b :: rest, diamondCount, diamonds =>
    if diamondCount < 5 then
      let nx : Int := (a : Int) % COLS
      let ny : Int := (b : Int) % ROWS
      if tileAt g nx ny = TileType.TILE_EMPTY ∧ ¬ (nx = pp.x ∧ ny = pp.y) then
        let found := diamonds.any (fun d => samePos d ⟨nx, ny⟩)
        if ¬ found then spawnDiamonds g pp rest (diamondCount + 1) (diamonds ++ [⟨nx, ny⟩])
        else spawnDiamonds g pp rest diamondCount diamonds
      else spawnDiamonds g pp rest diamondCount diamonds
    else some (diamonds, a :: b :: rest)

/-- The loop `while (nuggetCount < 3)` of `LoadLevel`. -/
def spawnNuggets (g : Grid) (pp : GridPos) (diamonds : List GridPos) :
    List Nat → Nat → List GridPos → Option (List GridPos × List Nat)
  | [], nuggetCount, nuggets => if nuggetCount < 3 then none else some (nuggets, [])
  | [a], nuggetCount, nuggets => if nuggetCount < 3 then none else some (nuggets, [a])
  | a :: b :: rest, nuggetCount, nuggets =>
    if nuggetCount < 3 then
      let nx : Int := (a : Int) % COLS
      let ny : Int := (b : Int) % ROWS
      if tileAt g nx ny = TileType.TILE_EMPTY ∧ ¬ (nx = pp.x ∧ ny = pp.y) then
        let found := diamonds.any (fun d => samePos d ⟨nx, ny⟩)
          || nuggets.any (fun n => samePos n ⟨nx, ny⟩)
        if ¬ found then spawnNuggets g pp diamonds rest (nuggetCount + 1) (nuggets ++ [⟨nx, ny⟩])
        else spawnNuggets g pp diamonds rest nuggetCount nuggets
      else spawnNuggets g pp diamonds rest nuggetCount nuggets
    else some (nuggets, a :: b :: rest)

/-- The speed `0.28f + float(rand()) / float(RAND_MAX / 0.4f)` for the sample `c`. -/
def enemySpeed (RAND_MAX : Nat) (c : Nat) : ℚ :=
  7 / 25 + (c : ℚ) / ((RAND_MAX : ℚ) / (2 / 5))

/-- The loop `while (enemyCount < 6)` of `LoadLevel`; an accepted cell reads a third sample for
the speed. -/
def spawnEnemies (RAND_MAX : Nat) (g : Grid) (pp : GridPos) :
    List Nat → Nat → List Enemy → Option (List Enemy × List Nat)
  | [], enemyCount, enemies => if enemyCount < 6 then none else some (enemies, [])
  | [a], enemyCount, enemies => if enemyCount < 6 then none else some (enemies, [a])
  | a :: b :: rest, enemyCount, enemies =>
    if enemyCount < 6 then
      let ex : Int := (a : Int) % COLS
      let ey : Int := (b : Int) % ROWS
      if tileAt g ex ey = TileType.TILE_EMPTY ∧ iabs (ex - pp.x) + iabs (ey - pp.y) > 8 then
        match rest with
        | [] => none
        | c :: rest2 =>
          spawnEnemies RAND_MAX g pp rest2 (enemyCount + 1)
            (enemies ++ [⟨⟨ex, ey⟩, 0, enemySpeed RAND_MAX c⟩])
      else spawnEnemies RAND_MAX g pp rest enemyCount enemies
    else some (enemies, a :: b :: rest)

/-- The function `LoadLevel`.  `RAND_MAX` is the constant of `<cstdlib>`, `order` the outcome of
the `std::shuffle` inside `ShuffleQuestions`, `rands` the values of the successive `rand()` calls
(`ShuffleQuestions` reads one exactly when the bank has a special question).  The result is `none`
when `rands` is exhausted before the three spawn loops have ended. -/
def LoadLevel (RAND_MAX : Nat) (bank : List Question) (order : List Nat) (rands : List Nat)
    (w : World) : Option World :=
  let special := (scanBank bank 0 ([], none)).2
  match (if special.isSome then (rands.head?, rands.tail) else (some 0, rands)) with
  | (none, _) => none
  | (some r, rands1) =>
    let questionIndices := ShuffleQuestions bank order r
    let gameGrid := loadGrid LEVEL_LAYOUT
    let pos := spawnOf LEVEL_LAYOUT 0 w.player.pos
    match spawnDiamonds gameGrid pos rands1 0 [] with
    | none => none
    | some (diamonds, rands2) =>
      match spawnNuggets gameGrid pos diamonds rands2 0 [] with
      | none => none
      | some (nuggets, rands3) =>
        match spawnEnemies RAND_MAX gameGrid pos rands3 0 [] with
        | none => none
        | some (enemies, _) =>
          some { w with
            gameGrid := gameGrid
            player := { w.player with pos := pos }
            enemies := enemies
            nuggets := nuggets
            diamonds := diamonds
            questionIndices := questionIndices }

/-- The function `ResetGame`. -/
def ResetGame (RAND_MAX : Nat) (bank : List Question) (order : List Nat) (rands : List Nat)
    (w : World) : Option World :=
  LoadLevel RAND_MAX bank order rands
    { w with
      player := { w.player with invisibleTimer := 0, freezeTimer := 0, stamina := 100, moveTimer := 0 }
      currentState := GameState.PLAYING }

/-! ## `UpdatePlayer` -/

/-- The vertical intent: `if (UP) dy = -1; if (DOWN) dy = 1;`. -/
def inputDy (inp : Input) : Int :=
  let dy : Int := if inp.up then -1 else 0
  if inp.down then 1 else dy

/-- The horizontal intent: `if (LEFT) dx = -1; if (RIGHT) dx = 1;`. -/
def inputDx (inp : Input) : Int :=
  let dx : Int := if inp.left then -1 else 0
  if inp.right then 1 else dx

/-- The two move attempts of `UpdatePlayer` (vertical first, horizontal only if not `moved`). -/
def tryMove (g : Grid) (pos : GridPos) (dx dy : Int) : GridPos :=
  let afterV : GridPos × Bool :=
    if dy ≠ 0 then
      if IsValidMove g pos.x (pos.y + dy) then (⟨pos.x, pos.y + dy⟩, true) else (pos, false)
    else (pos, false)
  if ¬ afterV.2 ∧ dx ≠ 0 then
    if IsValidMove g (afterV.1.x + dx) afterV.1.y then ⟨afterV.1.x + dx, afterV.1.y⟩ else afterV.1
  else afterV.1

/-- The loop that erases the first element lying on `p` and stops. -/
def eraseFirst (p : GridPos) : List GridPos → List GridPos
  | [] => []
  | d :: ds => if samePos p d then ds else d :: eraseFirst p ds

/-- The part of `UpdatePlayer` between the freeze test and the exit test: invisibility timer,
stamina regeneration, sprint, move cooldown, the step and the stamina clamp. -/
def movePlayer (inp : Input) (g : Grid) (p : Player) : Player :=
  let dt := inp.frameTime
  let invisibleTimer := if p.invisibleTimer > 0 then p.invisibleTimer - dt else p.invisibleTimer
  -- stamina regeneration
  let stamina1 := if ¬ inp.shift ∧ p.stamina < 100 then p.stamina + 40 * dt else p.stamina
  -- sprint
  let sprint : Bool := inp.shift ∧ stamina1 > 0
  let moveDelay : ℚ := if sprint then 3 / 50 else 3 / 25
  let stamina2 := if sprint then stamina1 - 60 * dt else stamina1
  let moveTimer1 := p.moveTimer + dt
  let dx := inputDx inp
  let dy := inputDy inp
  let stepNow : Bool := moveTimer1 ≥ moveDelay ∧ (dx ≠ 0 ∨ dy ≠ 0)
  let moveTimer2 := if stepNow then 0 else moveTimer1
  let pos := if stepNow then tryMove g p.pos dx dy else p.pos
  -- clamp
  let stamina3 := if stamina2 < 0 then 0 else stamina2
  let stamina4 := if stamina3 > 100 then 100 else stamina3
  { pos := pos, moveTimer := moveTimer2, invisibleTimer := invisibleTimer,
    freezeTimer := p.freezeTimer, stamina := stamina4 }

/-- The function `UpdatePlayer`.  `questionBank[idx]` outside the bank (undefined in C++) keeps
the current question. -/
def UpdatePlayer (bank : List Question) (inp : Input) (w : World) : World :=
  if w.player.freezeTimer > 0 then
    let freezeTimer := w.player.freezeTimer - inp.frameTime
    { w with
      player := { w.player with freezeTimer := freezeTimer }
      currentState := if freezeTimer ≤ 0 then GameState.PLAYING else w.currentState }
  else
    let player := movePlayer inp w.gameGrid w.player
    -- exit
    let state1 :=
      if tileAt w.gameGrid player.pos.x player.pos.y = TileType.TILE_EXIT then
        if w.diamonds.isEmpty then GameState.VICTORY else w.currentState
      else w.currentState
    let diamonds := eraseFirst player.pos w.diamonds
    if w.nuggets.any (fun n => samePos player.pos n) then
      let d := Draw bank inp.deckOrder inp.randSample w.questionIndices
      { w with
        player := player
        diamonds := diamonds
        nuggets := eraseFirst player.pos w.nuggets
        questionIndices := d.2
        currentQuestion := bank.getD d.1 w.currentQuestion
        currentState := GameState.QUIZ }
    else
      { w with player := player, diamonds := diamonds, currentState := state1 }

/-! ## `UpdateEnemies` -/

/-- The array `moves` of `UpdateEnemies`: up, down, left, right. -/
def moves : List GridPos := [⟨0, -1⟩, ⟨0, 1⟩, ⟨-1, 0⟩, ⟨1, 0⟩]

/-- The neighbour `enemy.pos + moves[i]`. -/
def neighbour (p : GridPos) (i : Nat) : GridPos :=
  ⟨p.x + (moves.getD i ⟨0, 0⟩).x, p.y + (moves.getD i ⟨0, 0⟩).y⟩

/-- The test `nx >= 0 && nx < COLS && ny >= 0 && ny < ROWS && gameGrid[ny][nx] != TILE_WALL`. -/
def walkable (g : Grid) (n : GridPos) : Bool :=
  n.x ≥ 0 ∧ n.x < COLS ∧ n.y ≥ 0 ∧ n.y < ROWS ∧ tileAt g n.x n.y ≠ TileType.TILE_WALL

/-- The loop `for (int i : indices)` of `UpdateEnemies`, with the loop state `bestMove`,
`minDist`.  The first component is the cell taken by the `break` branch (`moved = true`). -/
def scanMoves (g : Grid) (player : Player) (epos : GridPos) :
    List Nat → GridPos → Int → Option GridPos × GridPos × Int
  | [], bestMove, minDist => (none, bestMove, minDist)
  | i :: rest, bestMove, minDist =>
    let n := neighbour epos i
    if walkable g n then
      if player.invisibleTimer > 0 then (some n, bestMove, minDist)
      else
        let dist := iabs (n.x - player.pos.x) + iabs (n.y - player.pos.y)
        if dist < minDist then scanMoves g player epos rest n dist
        else scanMoves g player epos rest bestMove minDist
    else scanMoves g player epos rest bestMove minDist

/-- The new position of a pursuer whose step fires (body of `if (enemy.moveTimer >= currentSpeed)`
after the timer reset); `order` is the outcome of `std::shuffle` on `indices`. -/
def enemyMove (g : Grid) (player : Player) (order : List Nat) (epos : GridPos) : GridPos :=
  let indices : List Nat :=
    if player.invisibleTimer > 0 then stdShuffle order [0, 1, 2, 3] else [0, 1, 2, 3]
  let r := scanMoves g player epos indices epos 9999
  match r.1 with
  | some p => p
  | none => if player.invisibleTimer ≤ 0 then r.2.1 else epos

/-- One iteration of the loop `for (auto& enemy : enemies)`: the updated pursuer and the
updated `currentState`. -/
def updateEnemy (g : Grid) (player : Player) (dt : ℚ) (order : List Nat)
    (st : GameState) (enemy : Enemy) : Enemy × GameState :=
  let moveTimer := enemy.moveTimer + dt
  let currentSpeed := if st = GameState.FROZEN then enemy.speed * (1 / 2) else enemy.speed
  let enemy1 : Enemy :=
    if moveTimer ≥ currentSpeed then
      { pos := enemyMove g player order enemy.pos, moveTimer := 0, speed := enemy.speed }
    else { enemy with moveTimer := moveTimer }
  let st1 :=
    if enemy1.pos.x = player.pos.x ∧ enemy1.pos.y = player.pos.y then
      if player.invisibleTimer ≤ 0 then GameState.GAME_OVER else st
    else st
  (enemy1, st1)

/-- The loop of `UpdateEnemies` from the `k`-th pursuer on. -/
def enemiesLoop (g : Grid) (player : Player) (dt : ℚ) (orders : Nat → List Nat) :
    Nat → GameState → List Enemy → List Enemy × GameState
  | _, st, [] => ([], st)
  | k, st, enemy :: rest =>
    let r := updateEnemy g player dt (orders k) st enemy
    let rs := enemiesLoop g player dt orders (k + 1) r.2 rest
    (r.1 :: rs.1, rs.2)

/-- The function `UpdateEnemies`. -/
def UpdateEnemies (inp : Input) (w : World) : World :=
  let r := enemiesLoop w.gameGrid w.player inp.frameTime inp.enemyOrder 0 w.currentState w.enemies
  { w with enemies := r.1, currentState := r.2 }

/-! ## The state switch of `main` -/

/-- The variable `choice` of `case QUIZ`. -/
def quizChoice (inp : Input) : Int :=
  let c0 : Int := -1
  let c1 : Int := if inp.one then 0 else c0
  let c2 : Int := if inp.two then 1 else c1
  if inp.three then 2 else c2

/-- The block `if (choice != -1) ...` of `case QUIZ`. -/
def answerQuiz (choice : Int) (w : World) : World :=
  if choice ≠ -1 then
    if choice = w.currentQuestion.correctIndex then
      { w with
        player := { w.player with invisibleTimer := 5, stamina := 100 }
        currentState := GameState.PLAYING }
    else
      { w with
        player := { w.player with freezeTimer := 3 }
        currentState := GameState.FROZEN }
  else w

/-- One iteration of the `switch (currentState)` of the main loop. -/
def mainStep (RAND_MAX : Nat) (bank : List Question) (inp : Input) (w : World) : Option World :=
  match w.currentState with
  | GameState.MENU =>
    match (if inp.enter then ResetGame RAND_MAX bank inp.deckOrder inp.rands w else some w) with
    | none => none
    | some w1 => some (if inp.keyH then { w1 with currentState := GameState.HELP } else w1)
  | GameState.HELP =>
    some (if inp.keyH ∨ inp.enter ∨ inp.escape then { w with currentState := GameState.MENU } else w)
  | GameState.PLAYING => some (UpdateEnemies inp (UpdatePlayer bank inp w))
  | GameState.FROZEN => some (UpdateEnemies inp (UpdatePlayer bank inp w))
  | GameState.QUIZ => some (answerQuiz (quizChoice inp) w)
  | GameState.GAME_OVER =>
    some (if inp.enter then { w with currentState := GameState.MENU } else w)
  | GameState.VICTORY =>
    some (if inp.enter then { w with currentState := GameState.MENU } else w)

/-- The state of the program before the main loop starts: zero-initialised globals and
`currentState = MENU`. -/
def initWorld : World :=
  { gameGrid := []
    player := { pos := ⟨0, 0⟩, moveTimer := 0, invisibleTimer := 0, freezeTimer := 0, stamina := 0 }
    enemies := []
    nuggets := []
    diamonds := []
    currentState := GameState.MENU
    currentQuestion := ⟨"", "", "", "", 0⟩
    questionIndices := [] }

/-- The cells occupied by the placed entities: collectibles, bonus-triggers, pursuers. -/
def placedCells (w : World) : List GridPos :=
  w.diamonds ++ w.nuggets ++ w.enemies.map (fun e => e.pos)

/-- A level as `LoadLevel` can produce it: all six pursuers and one collectible on cell (17,13). -/
def crowdedLevel : World :=
  { gameGrid := loadGrid LEVEL_LAYOUT
    player := { pos := ⟨1, 1⟩, moveTimer := 0, invisibleTimer := 0, freezeTimer := 0, stamina := 0 }
    enemies := List.replicate 6 ⟨⟨17, 13⟩, 0, enemySpeed 2147483647 0⟩
    nuggets := [⟨8, 1⟩, ⟨9, 1⟩, ⟨10, 1⟩]
    diamonds := [⟨2, 1⟩, ⟨3, 1⟩, ⟨4, 1⟩, ⟨5, 1⟩, ⟨17, 13⟩]
    currentState := GameState.MENU
    currentQuestion := ⟨"", "", "", "", 0⟩
    questionIndices := [8, 1, 2, 3, 4, 5, 6, 7, 0] }

/-- Samples of `rand()` that lead `LoadLevel` to `crowdedLevel`: one for the deck, five accepted
collectible cells, three accepted bonus-trigger cells, six times the cell (17,13) with speed
sample 0. -/
def crowdedRands : List Nat :=
  [0, 2, 1, 3, 1, 4, 1, 5, 1, 17, 13, 8, 1, 9, 1, 10, 1,
   17, 13, 0, 17, 13, 0, 17, 13, 0, 17, 13, 0, 17, 13, 0, 17, 13, 0]

/-- A 20x15 grid without walls. -/
def openGrid : Grid := List.replicate 15 (List.replicate 20 TileType.TILE_EMPTY)

/-- A player standing on cell `p`, visible and not frozen. -/
def playerAt (p : GridPos) : Player :=
  { pos := p, moveTimer := 0, invisibleTimer := 0, freezeTimer := 0, stamina := 100 }

/-- A grid of walls with the single cell (5,5) empty: a cell none of whose neighbours is
walkable. -/
def pitGrid : Grid :=
  (List.replicate 15 (List.replicate 20 TileType.TILE_WALL)).set 5
    ((List.replicate 20 TileType.TILE_WALL).set 5 TileType.TILE_EMPTY)

/-- A tick of half a second with no key held or pressed; every shuffle leaves its vector as it
is, `rand()` returns 0. -/
def idleInput : Input :=
  { frameTime := 1 / 2
    shift := false, up := false, down := false, left := false, right := false
    enter := false, keyH := false, escape := false
    one := false, two := false, three := false
    deckOrder := [0, 1, 2, 3, 4, 5, 6, 7, 8]
    randSample := 0
    rands := []
    enemyOrder := fun _ => [0, 1, 2, 3] }

/-- A world on the grid without walls: the player visible at (5,2), one pursuer right below at
(5,3) with base speed 1/2, mode `PLAYING`. -/
def chaseWorld : World :=
  { gameGrid := openGrid
    player := playerAt ⟨5, 2⟩
    enemies := [⟨⟨5, 3⟩, 0, 1 / 2⟩]
    nuggets := []
    diamonds := []
    currentState := GameState.PLAYING
    currentQuestion := ⟨"Which planet has the most rings?", "Saturn", "Jupiter", "Mars", 0⟩
    questionIndices := [] }

/-- The state right after `ResetGame` ran on `crowdedRands` from `initWorld`. -/
def crowdedStart : World :=
  { crowdedLevel with
    player := { pos := ⟨1, 1⟩, moveTimer := 0, invisibleTimer := 0, freezeTimer := 0, stamina := 100 }
    currentState := GameState.PLAYING }

/-- The world `chaseWorld` with a quarter of a second of invisibility left. -/
def ghostWorld : World :=
  { chaseWorld with player := { chaseWorld.player with invisibleTimer := 1 / 4 } }

/-- The world `chaseWorld` in mode `FROZEN` with `freeze` seconds of freeze left. -/
def frozenWorld (freeze : ℚ) : World :=
  { chaseWorld with
    player := { chaseWorld.player with freezeTimer := freeze }
    currentState := GameState.FROZEN }

/-- The states reachable by level reset, player updates with elapsed time >= 0, pursuer updates
and quiz answers. -/
inductive PlayReachable (RAND_MAX : Nat) (bank : List Question) : World → Prop where
  | reset (order rands : List Nat) (w w1 : World) :
      ResetGame RAND_MAX bank order rands w = some w1 → PlayReachable RAND_MAX bank w1
  | player (inp : Input) (w : World) :
      PlayReachable RAND_MAX bank w → 0 ≤ inp.frameTime →
      PlayReachable RAND_MAX bank (UpdatePlayer bank inp w)
  | enemies (inp : Input) (w : World) :
      PlayReachable RAND_MAX bank w → PlayReachable RAND_MAX bank (UpdateEnemies inp w)
  | answer (choice : Int) (w : World) :
      PlayReachable RAND_MAX bank w → PlayReachable RAND_MAX bank (answerQuiz choice w)

/-- A tick of half a second with only the up key held. -/
def upInput : Input := { idleInput with up := true }

/-- A tick of half a second with only the right key held. -/
def rightInput : Input := { idleInput with right := true }

/-- The loaded grid with a visible player at (17,13), the cell left of the Exit (18,13), the
given collectibles left, no bonus-trigger and no pursuer, mode `PLAYING`. -/
def exitWorld (diamonds : List GridPos) : World :=
  { gameGrid := loadGrid LEVEL_LAYOUT
    player := playerAt ⟨17, 13⟩
    enemies := []
    nuggets := []
    diamonds := diamonds
    currentState := GameState.PLAYING
    currentQuestion := ⟨"", "", "", "", 0⟩
    questionIndices := [] }

/-- The grid without walls with a visible player at (5,2), bonus-triggers at (9,9) and (5,1), the
draw order `[3, 0]`, no pursuer, mode `PLAYING`. -/
def quizWorld : World :=
  { gameGrid := openGrid
    player := playerAt ⟨5, 2⟩
    enemies := []
    nuggets := [⟨9, 9⟩, ⟨5, 1⟩]
    diamonds := []
    currentState := GameState.PLAYING
    currentQuestion := ⟨"", "", "", "", 0⟩
    questionIndices := [3, 0] }

/-- A player standing on cell `p` with a quarter of a second of invisibility left. -/
def ghostAt (p : GridPos) : Player :=
  { pos := p, moveTimer := 0, invisibleTimer := 1 / 4, freezeTimer := 0, stamina := 100 }

/-- One Playing or Frozen iteration of the main loop: `UpdatePlayer(); UpdateEnemies();`. -/
def tick (bank : List Question) (inp : Input) (w : World) : World :=
  UpdateEnemies inp (UpdatePlayer bank inp w)

/-- Successive iterations of the main loop, one per input sample. -/
def runMain (RAND_MAX : Nat) (bank : List Question) : List Input → World → Option World
  | [], w => some w
  | inp :: rest, w =>
    match mainStep RAND_MAX bank inp w with
    | none => none
    | some w1 => runMain RAND_MAX bank rest w1

/-- A world in mode `QUIZ` on the grid without walls: the player at (5,2), no pursuer, the current
question with correct index 0. -/
def calmQuiz : World :=
  { gameGrid := openGrid
    player := playerAt ⟨5, 2⟩
    enemies := []
    nuggets := []
    diamonds := []
    currentState := GameState.QUIZ
    currentQuestion := ⟨"Which planet has the most rings?", "Saturn", "Jupiter", "Mars", 0⟩
    questionIndices := [] }

/-- The loaded grid with a player at (17,13), left of the Exit, a quarter of a second of
invisibility left, no collectible, no bonus-trigger and no pursuer, mode `PLAYING`. -/
def ghostExit : World := { exitWorld [] with player := ghostAt ⟨17, 13⟩ }

/-- A sample with the enter key pressed; `rand()` has the values `crowdedRands` in store. -/
def resetInput : Input := { idleInput with enter := true, rands := crowdedRands }

/-- The states reachable from a state in mode `MENU` through iterations of the main loop
(reset, Playing and Frozen ticks, quiz answers, the confirm and help keys), for any inputs. -/
inductive MainReachable (RAND_MAX : Nat) (bank : List Question) : World → Prop where
  | menu (w : World) : w.currentState = GameState.MENU → MainReachable RAND_MAX bank w
  | step (inp : Input) (w w1 : World) :
      MainReachable RAND_MAX bank w → mainStep RAND_MAX bank inp w = some w1 →
      MainReachable RAND_MAX bank w1

/-- The four neighbours of a cell, in the order up, down, left, right. -/
def neighbours4 (p : GridPos) : List GridPos :=
  [neighbour p 0, neighbour p 1, neighbour p 2, neighbour p 3]

/-- Reachability from the cell `a` by a path of 4-neighbour steps through in-bounds non-Wall
cells of the grid (cells for which `IsValidMove` is true). -/
inductive Reach (g : Grid) (a : GridPos) : GridPos → Prop where
  | start : IsValidMove g a.x a.y = true → Reach g a a
  | step (b c : GridPos) :
      Reach g a b → c ∈ neighbours4 b → IsValidMove g c.x c.y = true → Reach g a c

/-- Flood fill with a work list and fuel: the cells collected in `seen`. -/
def fill (g : Grid) : Nat → List GridPos → List GridPos → List GridPos
  | 0, _, seen => seen
  | _ + 1, [], seen => seen
  | n + 1, c :: stack, seen =>
    if IsValidMove g c.x c.y && !seen.contains c then
      fill g n (neighbours4 c ++ stack) (c :: seen)
    else fill g n stack seen

/-- The cells of the 20x15 grid, row by row. -/
def allCells : List GridPos :=
  (List.range 15).flatMap (fun (y : Nat) =>
    (List.range 20).map (fun (x : Nat) => (⟨(x : Int), (y : Int)⟩ : GridPos)))

/-- Whether every in-bounds non-Wall cell of the grid is in `region`. -/
def covers (g : Grid) (region : List GridPos) : Bool :=
  allCells.all (fun c => !IsValidMove g c.x c.y || region.contains c)

/-- Whether the player and every pursuer occupy a cell for which `IsValidMove` is true. -/
def onValidCells (w : World) : Bool :=
  IsValidMove w.gameGrid w.player.pos.x w.player.pos.y
    && w.enemies.all (fun e => IsValidMove w.gameGrid e.pos.x e.pos.y)

/-- A tick of half a second with the given values of the three answer keys and no other key. -/
def pressInput (one two three : Bool) : Input :=
  { idleInput with one := one, two := two, three := three }

/-! # Theorems -/

/-! ## Entity spawner -/

/-- The coordinate-wise test `samePos` is equality of cells. -/
theorem samePos_iff (a b : GridPos) : samePos a b = true ↔ a = b := by
  cases a; cases b
  simp [samePos]

/-- The `exists` scan of the spawn loops is membership in the list. -/
theorem any_samePos_iff (l : List GridPos) (p : GridPos) :
    (l.any (fun d => samePos d p)) = true ↔ p ∈ l := by
  simp only [List.any_eq_true, samePos_iff]
  constructor
  · rintro ⟨x, hx, rfl⟩; exact hx
  · intro h; exact ⟨p, h, rfl⟩

/-- Loop invariant of the collectible loop: whenever it ends it has 5 pairwise distinct cells,
each of kind Empty and none the spawn cell. -/
theorem spawnDiamonds_spec (g : Grid) (pp : GridPos) (rands : List Nat) (c : Nat)
    (ds : List GridPos) :
    ∀ res, spawnDiamonds g pp rands c ds = some res →
      ds.length = c → c ≤ 5 → ds.Nodup →
      (∀ d ∈ ds, d ≠ pp ∧ tileAt g d.x d.y = TileType.TILE_EMPTY) →
      res.1.length = 5 ∧ res.1.Nodup ∧
        (∀ d ∈ res.1, d ≠ pp ∧ tileAt g d.x d.y = TileType.TILE_EMPTY) := by
  induction rands, c, ds using spawnDiamonds.induct g pp with
  | case1 c ds h => intro res hr; simp [spawnDiamonds, h] at hr
  | case2 c ds h =>
    intro res hr hl hc hn hd
    simp [spawnDiamonds, h] at hr
    subst hr
    exact ⟨by simp only; omega, hn, hd⟩
  | case3 a c ds h => intro res hr; simp [spawnDiamonds, h] at hr
  | case4 a c ds h =>
    intro res hr hl hc hn hd
    simp [spawnDiamonds, h] at hr
    subst hr
    exact ⟨by simp only; omega, hn, hd⟩
  | case5 a b rest c ds h nx ny ht found hf ih =>
    intro res hr hl hc hn hd
    rw [spawnDiamonds, if_pos h, if_pos ht, if_pos hf] at hr
    have hnot : (⟨nx, ny⟩ : GridPos) ∉ ds := by
      intro hm
      exact hf ((any_samePos_iff ds ⟨nx, ny⟩).2 hm)
    refine ih res hr (by simp [hl]) (by omega) ?_ ?_
    · exact List.Nodup.append hn (List.nodup_singleton _) (by simpa using hnot)
    · intro d hdm
      rcases List.mem_append.1 hdm with h1 | h1
      · exact hd d h1
      · have : d = ⟨nx, ny⟩ := by simpa using h1
        subst this
        refine ⟨?_, ht.1⟩
        intro he
        apply ht.2
        rw [← he]
        exact ⟨rfl, rfl⟩
  | case6 a b rest c ds h nx ny ht found hf ih =>
    intro res hr hl hc hn hd
    rw [spawnDiamonds, if_pos h, if_pos ht, if_neg hf] at hr
    exact ih res hr hl hc hn hd
  | case7 a b rest c ds h nx ny ht ih =>
    intro res hr hl hc hn hd
    rw [spawnDiamonds, if_pos h, if_neg ht] at hr
    exact ih res hr hl hc hn hd
  | case8 a b rest c ds h =>
    intro res hr hl hc hn hd
    simp [spawnDiamonds, h] at hr
    subst hr
    exact ⟨by simp only; omega, hn, hd⟩

/-- Loop invariant of the bonus-trigger loop: whenever it ends it has 3 cells, distinct from one
another and from the collectibles, each of kind Empty and none the spawn cell. -/
theorem spawnNuggets_spec (g : Grid) (pp : GridPos) (diamonds : List GridPos) (rands : List Nat)
    (c : Nat) (ns : List GridPos) :
    ∀ res, spawnNuggets g pp diamonds rands c ns = some res →
      ns.length = c → c ≤ 3 → (diamonds ++ ns).Nodup →
      (∀ d ∈ ns, d ≠ pp ∧ tileAt g d.x d.y = TileType.TILE_EMPTY) →
      res.1.length = 3 ∧ (diamonds ++ res.1).Nodup ∧
        (∀ d ∈ res.1, d ≠ pp ∧ tileAt g d.x d.y = TileType.TILE_EMPTY) := by
  induction rands, c, ns using spawnNuggets.induct g pp diamonds with
  | case1 c ns h => intro res hr; simp [spawnNuggets, h] at hr
  | case2 c ns h =>
    intro res hr hl hc hn hd
    simp [spawnNuggets, h] at hr
    subst hr
    exact ⟨by simp only; omega, hn, hd⟩
  | case3 a c ns h => intro res hr; simp [spawnNuggets, h] at hr
  | case4 a c ns h =>
    intro res hr hl hc hn hd
    simp [spawnNuggets, h] at hr
    subst hr
    exact ⟨by simp only; omega, hn, hd⟩
  | case5 a b rest c ns h nx ny ht found hf ih =>
    intro res hr hl hc hn hd
    rw [spawnNuggets, if_pos h, if_pos ht, if_pos hf] at hr
    have hnot : (⟨nx, ny⟩ : GridPos) ∉ diamonds ++ ns := by
      intro hm
      apply hf
      show (diamonds.any (fun d => samePos d ⟨nx, ny⟩)
        || ns.any (fun n => samePos n ⟨nx, ny⟩)) = true
      rw [Bool.or_eq_true, any_samePos_iff, any_samePos_iff]
      exact List.mem_append.1 hm
    refine ih res hr (by simp [hl]) (by omega) ?_ ?_
    · rw [← List.append_assoc]
      exact List.Nodup.append hn (List.nodup_singleton _) (by simpa using hnot)
    · intro d hdm
      rcases List.mem_append.1 hdm with h1 | h1
      · exact hd d h1
      · have : d = ⟨nx, ny⟩ := by simpa using h1
        subst this
        refine ⟨?_, ht.1⟩
        intro he
        apply ht.2
        rw [← he]
        exact ⟨rfl, rfl⟩
  | case6 a b rest c ns h nx ny ht found hf ih =>
    intro res hr hl hc hn hd
    rw [spawnNuggets, if_pos h, if_pos ht, if_neg hf] at hr
    exact ih res hr hl hc hn hd
  | case7 a b rest c ns h nx ny ht ih =>
    intro res hr hl hc hn hd
    rw [spawnNuggets, if_pos h, if_neg ht] at hr
    exact ih res hr hl hc hn hd
  | case8 a b rest c ns h =>
    intro res hr hl hc hn hd
    simp [spawnNuggets, h] at hr
    subst hr
    exact ⟨by simp only; omega, hn, hd⟩

/-- Loop invariant of the pursuer loop: whenever it ends it has 6 pursuers, each on a cell of kind
Empty at Manhattan distance > 8 from the spawn cell. -/
theorem spawnEnemies_spec (R : Nat) (g : Grid) (pp : GridPos) (rands : List Nat)
    (c : Nat) (es : List Enemy) :
    ∀ res, spawnEnemies R g pp rands c es = some res →
      es.length = c → c ≤ 6 →
      (∀ e ∈ es, manhattan e.pos pp > 8 ∧ tileAt g e.pos.x e.pos.y = TileType.TILE_EMPTY) →
      res.1.length = 6 ∧
        (∀ e ∈ res.1, manhattan e.pos pp > 8 ∧
          tileAt g e.pos.x e.pos.y = TileType.TILE_EMPTY) := by
  induction rands, c, es using spawnEnemies.induct R g pp with
  | case1 c es h => intro res hr; simp [spawnEnemies, h] at hr
  | case2 c es h =>
    intro res hr hl hc hd
    simp [spawnEnemies, h] at hr
    subst hr
    exact ⟨by simp only; omega, hd⟩
  | case3 a c es h => intro res hr; simp [spawnEnemies, h] at hr
  | case4 a c es h =>
    intro res hr hl hc hd
    simp [spawnEnemies, h] at hr
    subst hr
    exact ⟨by simp only; omega, hd⟩
  | case5 a b c es h ex ey ht =>
    intro res hr
    rw [spawnEnemies, if_pos h, if_pos ht] at hr
    simp at hr
  | case6 a b c es h ex ey ht s rest2 ih =>
    intro res hr hl hc hd
    rw [spawnEnemies, if_pos h, if_pos ht] at hr
    refine ih res hr (by simp [hl]) (by omega) ?_
    intro e hem
    rcases List.mem_append.1 hem with h1 | h1
    · exact hd e h1
    · have : e = ⟨⟨ex, ey⟩, 0, enemySpeed R s⟩ := by simpa using h1
      subst this
      exact ⟨ht.2, ht.1⟩
  | case7 a b rest c es h ex ey ht ih =>
    intro res hr hl hc hd
    rw [spawnEnemies, if_pos h, if_neg ht] at hr
    exact ih res hr hl hc hd
  | case8 a b rest c es h =>
    intro res hr hl hc hd
    simp [spawnEnemies, h] at hr
    subst hr
    exact ⟨by simp only; omega, hd⟩

/-- A cell is at distance 0 from itself. -/
theorem manhattan_self (p : GridPos) : manhattan p p = 0 := by
  simp [manhattan, iabs]

/-- What `LoadLevel` guarantees about the entities it places whenever it finishes. -/
theorem LoadLevel_spec (R : Nat) (bank : List Question) (order rands : List Nat) (w w1 : World)
    (h : LoadLevel R bank order rands w = some w1) :
    w1.gameGrid = loadGrid LEVEL_LAYOUT ∧
    w1.player.pos = spawnOf LEVEL_LAYOUT 0 w.player.pos ∧
    w1.player.stamina = w.player.stamina ∧ w1.currentState = w.currentState ∧
    w1.diamonds.length = 5 ∧ w1.nuggets.length = 3 ∧ w1.enemies.length = 6 ∧
    (w1.diamonds ++ w1.nuggets).Nodup ∧
    (∀ d ∈ w1.diamonds ++ w1.nuggets,
      d ≠ w1.player.pos ∧ tileAt w1.gameGrid d.x d.y = TileType.TILE_EMPTY) ∧
    (∀ e ∈ w1.enemies, manhattan e.pos w1.player.pos > 8 ∧
      tileAt w1.gameGrid e.pos.x e.pos.y = TileType.TILE_EMPTY) := by
  unfold LoadLevel at h
  simp only at h
  generalize hg : loadGrid LEVEL_LAYOUT = g at h
  generalize hp : spawnOf LEVEL_LAYOUT 0 w.player.pos = pp at h
  split at h
  · exact absurd h (by simp)
  · rename_i r rands1 _
    split at h
    · exact absurd h (by simp)
    · rename_i ds rands2 hds
      split at h
      · exact absurd h (by simp)
      · rename_i ns rands3 hns
        split at h
        · exact absurd h (by simp)
        · rename_i es rands4 hes
          simp only [Option.some.injEq] at h
          subst h
          have hD := spawnDiamonds_spec _ _ _ _ _ _ hds rfl (by omega) List.nodup_nil
            (by simp)
          have hN := spawnNuggets_spec _ _ _ _ _ _ _ hns rfl (by omega)
            (by simpa using hD.2.1) (by simp)
          have hE := spawnEnemies_spec _ _ _ _ _ _ _ hes rfl (by omega) (by simp)
          refine ⟨rfl, rfl, rfl, rfl, hD.1, hN.1, hE.1, hN.2.1, ?_, hE.2⟩
          intro d hd
          rcases List.mem_append.1 hd with h1 | h1
          · exact hD.2.2 d h1
          · exact hN.2.2 d h1

set_option maxRecDepth 100000 in
/-- On `crowdedRands` the level loader finishes and yields `crowdedLevel`. -/
theorem crowded_eval :
    LoadLevel 2147483647 questionBank [0, 1, 2, 3, 4, 5, 6, 7, 8] crowdedRands initWorld
      = some crowdedLevel := by
  rfl

/-- C1, as stated, fails: on the samples `crowdedRands` `LoadLevel` finishes, yet the 14 cells
of the entities it placed are not pairwise distinct (the six pursuers and a collectible all sit on
cell (17,13)): the pursuer loop never compares a candidate cell with the cells already taken. -/
theorem C1_pursuers_overlap :
    LoadLevel 2147483647 questionBank [0, 1, 2, 3, 4, 5, 6, 7, 8] crowdedRands initWorld
      = some crowdedLevel ∧
    ¬ (placedCells crowdedLevel).Nodup :=
  ⟨crowded_eval, by decide⟩

/-- C1 (amended): whenever `LoadLevel` finishes it has placed 5 collectibles, 3 bonus-triggers and
6 pursuers; the 5 collectibles and 3 bonus-triggers occupy 8 pairwise distinct cells; and none of
the 14 placed entities is on the player's spawn cell.  (Nothing is promised about a pursuer
sharing its cell with another pursuer, a collectible or a bonus-trigger.) -/
theorem C1_spawn_cells (RAND_MAX : Nat) (bank : List Question) (order rands : List Nat)
    (w w1 : World) (h : LoadLevel RAND_MAX bank order rands w = some w1) :
    w1.diamonds.length = 5 ∧ w1.nuggets.length = 3 ∧ w1.enemies.length = 6 ∧
    (w1.diamonds ++ w1.nuggets).Nodup ∧
    (∀ c ∈ placedCells w1, c ≠ w1.player.pos) := by
  obtain ⟨_, _, _, _, hd, hn, he, hnd, hdn, hen⟩ := LoadLevel_spec _ _ _ _ _ _ h
  refine ⟨hd, hn, he, hnd, ?_⟩
  intro c hc
  rcases List.mem_append.1 hc with h1 | h1
  · exact (hdn c h1).1
  · obtain ⟨e, hem, rfl⟩ := List.mem_map.1 h1
    intro heq
    have h8 := (hen e hem).1
    rw [heq, manhattan_self] at h8
    omega

/-- C1 (amended), instance: the level loaded from `crowdedRands`. -/
theorem C1_spawn_cells_witness :
    LoadLevel 2147483647 questionBank [0, 1, 2, 3, 4, 5, 6, 7, 8] crowdedRands initWorld
      = some crowdedLevel ∧
    (crowdedLevel.diamonds.length = 5 ∧ crowdedLevel.nuggets.length = 3 ∧
      crowdedLevel.enemies.length = 6 ∧
      (crowdedLevel.diamonds ++ crowdedLevel.nuggets).Nodup ∧
      (∀ c ∈ placedCells crowdedLevel, c ≠ crowdedLevel.player.pos)) :=
  ⟨crowded_eval, C1_spawn_cells _ _ _ _ _ _ crowded_eval⟩

/-! ## Pursuer controller -/

/-- Loop invariant of the direction loop when the player is visible: the loop never takes the
`break` branch and ends either with the accumulators untouched (no walkable candidate under the
incoming `minDist`) or on the first candidate of minimal distance. -/
theorem scanMoves_visible (g : Grid) (player : Player) (epos : GridPos)
    (hvis : ¬ player.invisibleTimer > 0) (l : List Nat) :
    ∀ (best : GridPos) (md : Int),
      (scanMoves g player epos l best md).1 = none ∧
      (((scanMoves g player epos l best md).2.1 = best ∧
          (scanMoves g player epos l best md).2.2 = md ∧
          ∀ i ∈ l, walkable g (neighbour epos i) = true →
            md ≤ manhattan (neighbour epos i) player.pos) ∨
        (∃ l1 i l2, l = l1 ++ i :: l2 ∧ walkable g (neighbour epos i) = true ∧
          (scanMoves g player epos l best md).2.1 = neighbour epos i ∧
          (scanMoves g player epos l best md).2.2 = manhattan (neighbour epos i) player.pos ∧
          manhattan (neighbour epos i) player.pos < md ∧
          (∀ j ∈ l1, walkable g (neighbour epos j) = true →
            manhattan (neighbour epos i) player.pos < manhattan (neighbour epos j) player.pos) ∧
          (∀ j ∈ l2, walkable g (neighbour epos j) = true →
            manhattan (neighbour epos i) player.pos ≤ manhattan (neighbour epos j) player.pos))) := by
  induction l with
  | nil =>
    intro best md
    exact ⟨rfl, Or.inl ⟨rfl, rfl, by simp⟩⟩
  | cons i rest ih =>
    intro best md
    by_cases hw : walkable g (neighbour epos i) = true
    · by_cases hlt : manhattan (neighbour epos i) player.pos < md
      · have hstep : scanMoves g player epos (i :: rest) best md
            = scanMoves g player epos rest (neighbour epos i)
                (manhattan (neighbour epos i) player.pos) := by
          rw [scanMoves]
          simp only [hw, if_true, if_neg hvis]
          exact if_pos hlt
        rw [hstep]
        obtain ⟨h1, h2⟩ := ih (neighbour epos i) (manhattan (neighbour epos i) player.pos)
        refine ⟨h1, Or.inr ?_⟩
        rcases h2 with ⟨hb, hm, hall⟩ | ⟨l1, k, l2, hl, hwk, hb, hm, hlt2, hl1, hl2⟩
        · exact ⟨[], i, rest, rfl, hw, hb, hm, hlt, by simp, hall⟩
        · refine ⟨i :: l1, k, l2, by simp [hl], hwk, hb, hm, by omega, ?_, hl2⟩
          intro j hj hwj
          rcases List.mem_cons.1 hj with rfl | hj
          · exact hlt2
          · exact hl1 j hj hwj
      · have hstep : scanMoves g player epos (i :: rest) best md
            = scanMoves g player epos rest best md := by
          rw [scanMoves]
          simp only [hw, if_true, if_neg hvis]
          exact if_neg hlt
        rw [hstep]
        obtain ⟨h1, h2⟩ := ih best md
        refine ⟨h1, ?_⟩
        rcases h2 with ⟨hb, hm, hall⟩ | ⟨l1, k, l2, hl, hwk, hb, hm, hlt2, hl1, hl2⟩
        · refine Or.inl ⟨hb, hm, ?_⟩
          intro j hj hwj
          rcases List.mem_cons.1 hj with rfl | hj
          · omega
          · exact hall j hj hwj
        · refine Or.inr ⟨i :: l1, k, l2, by simp [hl], hwk, hb, hm, hlt2, ?_, hl2⟩
          intro j hj hwj
          rcases List.mem_cons.1 hj with rfl | hj
          · omega
          · exact hl1 j hj hwj
    · have hstep : scanMoves g player epos (i :: rest) best md
          = scanMoves g player epos rest best md := by
        rw [scanMoves]
        simp only [hw]
        rfl
      rw [hstep]
      obtain ⟨h1, h2⟩ := ih best md
      refine ⟨h1, ?_⟩
      rcases h2 with ⟨hb, hm, hall⟩ | ⟨l1, k, l2, hl, hwk, hb, hm, hlt2, hl1, hl2⟩
      · refine Or.inl ⟨hb, hm, ?_⟩
        intro j hj hwj
        rcases List.mem_cons.1 hj with rfl | hj
        · exact absurd hwj hw
        · exact hall j hj hwj
      · refine Or.inr ⟨i :: l1, k, l2, by simp [hl], hwk, hb, hm, hlt2, ?_, hl2⟩
        intro j hj hwj
        rcases List.mem_cons.1 hj with rfl | hj
        · exact absurd hwj hw
        · exact hl1 j hj hwj

/-- A walkable cell is within 33 steps of any cell of the 20x15 grid. -/
theorem manhattan_walkable_lt (g : Grid) (n p : GridPos) (hw : walkable g n = true)
    (hp : 0 ≤ p.x ∧ p.x < COLS ∧ 0 ≤ p.y ∧ p.y < ROWS) : manhattan n p < 9999 := by
  simp only [walkable, decide_eq_true_eq, COLS, ROWS] at hw
  simp only [COLS, ROWS] at hp
  unfold manhattan iabs
  split_ifs <;> omega

/-- In pursuit mode the new position of a pursuer is what the direction loop leaves in
`bestMove`. -/
theorem enemyMove_visible (g : Grid) (player : Player) (order : List Nat) (epos : GridPos)
    (hvis : player.invisibleTimer ≤ 0) :
    enemyMove g player order epos
      = (scanMoves g player epos [0, 1, 2, 3] epos 9999).2.1 := by
  have hv : ¬ player.invisibleTimer > 0 := not_lt.2 hvis
  unfold enemyMove
  simp only [if_neg hv]
  rw [(scanMoves_visible g player epos hv [0, 1, 2, 3] epos 9999).1]
  simp [hvis]

/-- The position of a pursuer after an iteration in which its step fires. -/
theorem updateEnemy_fires (g : Grid) (player : Player) (dt : ℚ) (order : List Nat)
    (st : GameState) (enemy : Enemy)
    (hfire : enemy.moveTimer + dt ≥
      (if st = GameState.FROZEN then enemy.speed * (1 / 2) else enemy.speed)) :
    (updateEnemy g player dt order st enemy).1
      = { pos := enemyMove g player order enemy.pos, moveTimer := 0, speed := enemy.speed } := by
  unfold updateEnemy
  simp only [if_pos hfire]

/-- Splitting the fixed direction order `[0, 1, 2, 3]` around one of its elements. -/
theorem split_indices (l1 l2 : List Nat) (i : Nat) (h : [0, 1, 2, 3] = l1 ++ i :: l2) :
    i < 4 ∧ (∀ j, j < i → j ∈ l1) ∧ (∀ j, j < 4 → j ∈ l1 ∨ j = i ∨ j ∈ l2) := by
  rcases l1 with _ | ⟨a, _ | ⟨b, _ | ⟨c, _ | ⟨d, l1⟩⟩⟩⟩ <;>
    simp only [List.nil_append, List.cons_append, List.cons.injEq] at h
  · obtain ⟨rfl, rfl⟩ := h
    refine ⟨by omega, by omega, ?_⟩
    intro j hj
    simp only [List.mem_cons, List.mem_nil_iff, List.mem_singleton]
    omega
  · obtain ⟨rfl, rfl, rfl⟩ := h
    refine ⟨by omega, ?_, ?_⟩
    · intro j hj
      simp only [List.mem_cons, List.mem_nil_iff, List.mem_singleton]
      omega
    · intro j hj
      simp only [List.mem_cons, List.mem_nil_iff, List.mem_singleton]
      omega
  · obtain ⟨rfl, rfl, rfl, rfl⟩ := h
    refine ⟨by omega, ?_, ?_⟩
    · intro j hj
      simp only [List.mem_cons, List.mem_nil_iff, List.mem_singleton]
      omega
    · intro j hj
      simp only [List.mem_cons, List.mem_nil_iff, List.mem_singleton]
      omega
  · obtain ⟨rfl, rfl, rfl, rfl, rfl⟩ := h
    refine ⟨by omega, ?_, ?_⟩
    · intro j hj
      simp only [List.mem_cons, List.mem_nil_iff, List.mem_singleton]
      omega
    · intro j hj
      simp only [List.mem_cons, List.mem_nil_iff, List.mem_singleton]
      omega
  · obtain ⟨_, _, _, _, h5⟩ := h
    cases l1 <;> simp at h5

/-- In pursuit mode, with the player on the grid and a walkable neighbour, the pursuer goes to
the first neighbour (order up, down, left, right) of minimal Manhattan distance. -/
theorem enemyMove_greedy (g : Grid) (player : Player) (order : List Nat) (epos : GridPos)
    (hvis : player.invisibleTimer ≤ 0)
    (hp : 0 ≤ player.pos.x ∧ player.pos.x < COLS ∧ 0 ≤ player.pos.y ∧ player.pos.y < ROWS)
    (hex : ∃ i, i < 4 ∧ walkable g (neighbour epos i) = true) :
    ∃ i, i < 4 ∧ enemyMove g player order epos = neighbour epos i ∧
      walkable g (neighbour epos i) = true ∧
      (∀ j, j < 4 → walkable g (neighbour epos j) = true →
        manhattan (neighbour epos i) player.pos ≤ manhattan (neighbour epos j) player.pos) ∧
      (∀ j, j < i → walkable g (neighbour epos j) = true →
        manhattan (neighbour epos i) player.pos < manhattan (neighbour epos j) player.pos) := by
  have hv : ¬ player.invisibleTimer > 0 := not_lt.2 hvis
  rw [enemyMove_visible g player order epos hvis]
  rcases (scanMoves_visible g player epos hv [0, 1, 2, 3] epos 9999).2 with
    ⟨_, _, hall⟩ | ⟨l1, i, l2, hl, hwi, hb, _, _, hl1, hl2⟩
  · obtain ⟨k, hk, hwk⟩ := hex
    have hmem : k ∈ [0, 1, 2, 3] := by
      simp only [List.mem_cons, List.mem_nil_iff, List.mem_singleton]; omega
    have h1 := hall k hmem hwk
    have h2 := manhattan_walkable_lt g _ player.pos hwk hp
    omega
  · obtain ⟨hi, hlow, hcov⟩ := split_indices l1 l2 i hl
    refine ⟨i, hi, hb, hwi, ?_, ?_⟩
    · intro j hj hwj
      rcases hcov j hj with h | h | h
      · exact le_of_lt (hl1 j h hwj)
      · rw [h]
      · exact hl2 j h hwj
    · intro j hj hwj
      exact hl1 j (hlow j hj) hwj

/-- C2: in pursuit mode (invisibility-remaining <= 0), for every grid, every player cell of the
20x15 grid and every pursuer whose step fires with at least one walkable neighbour, the pursuer
moves to a walkable neighbour of minimal Manhattan distance to the player, the earliest such in
the order up, down, left, right (strictly closer than every walkable neighbour before it); in
particular a pursuer at (5,5) with the player at (5,2) and four walkable neighbours moves up to
(5,4). -/
theorem C2_pursuit_greedy :
    (∀ (g : Grid) (player : Player) (dt : ℚ) (order : List Nat) (st : GameState) (enemy : Enemy),
      player.invisibleTimer ≤ 0 →
      (0 ≤ player.pos.x ∧ player.pos.x < COLS ∧ 0 ≤ player.pos.y ∧ player.pos.y < ROWS) →
      enemy.moveTimer + dt ≥
        (if st = GameState.FROZEN then enemy.speed * (1 / 2) else enemy.speed) →
      (∃ i, i < 4 ∧ walkable g (neighbour enemy.pos i) = true) →
      ∃ i, i < 4 ∧
        (updateEnemy g player dt order st enemy).1.pos = neighbour enemy.pos i ∧
        walkable g (neighbour enemy.pos i) = true ∧
        (∀ j, j < 4 → walkable g (neighbour enemy.pos j) = true →
          manhattan (neighbour enemy.pos i) player.pos
            ≤ manhattan (neighbour enemy.pos j) player.pos) ∧
        (∀ j, j < i → walkable g (neighbour enemy.pos j) = true →
          manhattan (neighbour enemy.pos i) player.pos
            < manhattan (neighbour enemy.pos j) player.pos)) ∧
    (∀ (g : Grid) (player : Player) (dt : ℚ) (order : List Nat) (st : GameState) (enemy : Enemy),
      player.invisibleTimer ≤ 0 → player.pos = ⟨5, 2⟩ → enemy.pos = ⟨5, 5⟩ →
      enemy.moveTimer + dt ≥
        (if st = GameState.FROZEN then enemy.speed * (1 / 2) else enemy.speed) →
      (∀ i, i < 4 → walkable g (neighbour ⟨5, 5⟩ i) = true) →
      (updateEnemy g player dt order st enemy).1.pos = ⟨5, 4⟩) := by
  constructor
  · intro g player dt order st enemy hvis hp hfire hex
    rw [updateEnemy_fires g player dt order st enemy hfire]
    exact enemyMove_greedy g player order enemy.pos hvis hp hex
  · intro g player dt order st enemy hvis hpp hep hfire hall
    rw [updateEnemy_fires g player dt order st enemy hfire]
    have hp : 0 ≤ player.pos.x ∧ player.pos.x < COLS ∧ 0 ≤ player.pos.y ∧ player.pos.y < ROWS := by
      rw [hpp]; decide
    obtain ⟨i, hi, hmove, _, hmin, _⟩ :=
      enemyMove_greedy g player order enemy.pos hvis hp ⟨0, by omega, by rw [hep]; exact hall 0 (by omega)⟩
    show enemyMove g player order enemy.pos = ⟨5, 4⟩
    rw [hmove, hep]
    have h0 := hmin 0 (by omega) (by rw [hep]; exact hall 0 (by omega))
    rw [hep, hpp] at h0
    have hi4 : i = 0 ∨ i = 1 ∨ i = 2 ∨ i = 3 := by omega
    rcases hi4 with rfl | rfl | rfl | rfl
    · rfl
    · exact absurd h0 (by decide)
    · exact absurd h0 (by decide)
    · exact absurd h0 (by decide)

/-- C2, instance: on the grid without walls a pursuer at (5,5) with base speed 1/2 whose cooldown
has elapsed, the player standing visible at (5,2). -/
theorem C2_pursuit_greedy_witness :
    (updateEnemy openGrid (playerAt ⟨5, 2⟩) (1 / 2) [0, 1, 2, 3] GameState.PLAYING
      ⟨⟨5, 5⟩, 0, 1 / 2⟩).1.pos = ⟨5, 4⟩ :=
  C2_pursuit_greedy.2 openGrid (playerAt ⟨5, 2⟩) (1 / 2) [0, 1, 2, 3] GameState.PLAYING
    ⟨⟨5, 5⟩, 0, 1 / 2⟩ (le_refl _) rfl rfl (by rw [if_neg (by decide)]; norm_num)
    (by intro i hi; have h4 : i = 0 ∨ i = 1 ∨ i = 2 ∨ i = 3 := by omega
        rcases h4 with rfl | rfl | rfl | rfl <;> decide)

/-- C3, as stated, fails: in the loaded level, with the player visible at (1,1), the pursuer at
(8,1) is at distance 7 and its two walkable neighbours (8,2) and (9,1) are at distance 8, so no
walkable neighbour is strictly closer than its current cell; yet when its step fires it moves to
(8,2). -/
theorem C3_moves_without_improvement :
    (playerAt ⟨1, 1⟩).invisibleTimer ≤ 0 ∧
    (∀ i, i < 4 → walkable (loadGrid LEVEL_LAYOUT) (neighbour ⟨8, 1⟩ i) = true →
      ¬ manhattan (neighbour ⟨8, 1⟩ i) (playerAt ⟨1, 1⟩).pos
          < manhattan ⟨8, 1⟩ (playerAt ⟨1, 1⟩).pos) ∧
    (0 : ℚ) + 1 / 2 ≥ (if GameState.PLAYING = GameState.FROZEN then 1 / 2 * (1 / 2) else 1 / 2) ∧
    (updateEnemy (loadGrid LEVEL_LAYOUT) (playerAt ⟨1, 1⟩) (1 / 2) [0, 1, 2, 3]
      GameState.PLAYING ⟨⟨8, 1⟩, 0, 1 / 2⟩).1.pos = ⟨8, 2⟩ ∧
    (⟨8, 2⟩ : GridPos) ≠ ⟨8, 1⟩ := by
  have hfire : (0 : ℚ) + 1 / 2 ≥
      (if GameState.PLAYING = GameState.FROZEN then 1 / 2 * (1 / 2) else 1 / 2) := by
    rw [if_neg (by decide)]; norm_num
  refine ⟨le_refl _, ?_, hfire, ?_, by decide⟩
  · intro i hi
    have h4 : i = 0 ∨ i = 1 ∨ i = 2 ∨ i = 3 := by omega
    rcases h4 with rfl | rfl | rfl | rfl <;> decide
  · rw [updateEnemy_fires _ _ _ _ _ _ hfire]
    decide

/-- The tests `enemy.pos.x == player.pos.x && enemy.pos.y == player.pos.y` is equality of cells. -/
theorem pos_eq_iff (a b : GridPos) : (a.x = b.x ∧ a.y = b.y) ↔ a = b := by
  cases a; cases b; simp

/-- One iteration of the pursuer loop: how `currentState` changes. -/
theorem updateEnemy_state (g : Grid) (player : Player) (dt : ℚ) (order : List Nat)
    (st : GameState) (enemy : Enemy) :
    (updateEnemy g player dt order st enemy).2 =
      if (updateEnemy g player dt order st enemy).1.pos = player.pos
          ∧ player.invisibleTimer ≤ 0 then GameState.GAME_OVER else st := by
  unfold updateEnemy
  simp only [pos_eq_iff]
  split_ifs <;> first | rfl | simp_all

/-- The pursuer loop: `currentState` ends as `GAME_OVER` when the player is visible and some
updated pursuer is on the player's cell, and is unchanged otherwise. -/
theorem enemiesLoop_state (g : Grid) (player : Player) (dt : ℚ) (orders : Nat → List Nat)
    (es : List Enemy) :
    ∀ (k : Nat) (st : GameState),
      (enemiesLoop g player dt orders k st es).2 =
        if (∃ e ∈ (enemiesLoop g player dt orders k st es).1, e.pos = player.pos)
            ∧ player.invisibleTimer ≤ 0 then GameState.GAME_OVER else st := by
  induction es with
  | nil => intro k st; simp [enemiesLoop]
  | cons e rest ih =>
    intro k st
    simp only [enemiesLoop, List.mem_cons, exists_eq_or_imp]
    rw [ih (k + 1) (updateEnemy g player dt (orders k) st e).2, updateEnemy_state]
    by_cases hv : player.invisibleTimer ≤ 0
    · by_cases h1 : (updateEnemy g player dt (orders k) st e).1.pos = player.pos
      · simp [hv, h1]
      · simp [hv, h1]
    · simp [hv]

/-- C4: for every state entering the pursuer update (whatever its mode): the player is not
touched; if after the update some pursuer occupies the player's cell and
invisibility-remaining <= 0, the mode after the update is GameOver; if invisibility-remaining > 0,
or no pursuer occupies the player's cell, the mode is the one the update started with. -/
theorem C4_collision_game_over (inp : Input) (w : World) :
    (UpdateEnemies inp w).player = w.player ∧
    ((∃ e ∈ (UpdateEnemies inp w).enemies, e.pos = w.player.pos) →
      w.player.invisibleTimer ≤ 0 →
      (UpdateEnemies inp w).currentState = GameState.GAME_OVER) ∧
    ((w.player.invisibleTimer > 0 ∨
        ∀ e ∈ (UpdateEnemies inp w).enemies, e.pos ≠ w.player.pos) →
      (UpdateEnemies inp w).currentState = w.currentState) := by
  have h := enemiesLoop_state w.gameGrid w.player inp.frameTime inp.enemyOrder w.enemies 0
    w.currentState
  refine ⟨rfl, ?_, ?_⟩
  · intro hex hv
    show (enemiesLoop _ _ _ _ 0 _ _).2 = _
    rw [h, if_pos ⟨hex, hv⟩]
  · intro hor
    show (enemiesLoop _ _ _ _ 0 _ _).2 = _
    rw [h, if_neg]
    rintro ⟨⟨e, he, hp⟩, hv⟩
    rcases hor with h1 | h1
    · exact absurd h1 (not_lt.2 hv)
    · exact h1 e he hp

/-- The pursuer of `chaseWorld` steps onto the player's cell on an idle tick. -/
theorem chase_enemies :
    (UpdateEnemies idleInput chaseWorld).enemies = [⟨⟨5, 2⟩, 0, 1 / 2⟩] := by
  have hfire : (0 : ℚ) + 1 / 2 ≥
      (if GameState.PLAYING = GameState.FROZEN then 1 / 2 * (1 / 2) else 1 / 2) := by
    rw [if_neg (by decide)]; norm_num
  show [(updateEnemy openGrid (playerAt ⟨5, 2⟩) (1 / 2) [0, 1, 2, 3] GameState.PLAYING
    ⟨⟨5, 3⟩, 0, 1 / 2⟩).1] = _
  rw [updateEnemy_fires _ _ _ _ _ _ hfire]
  have hm : enemyMove openGrid (playerAt ⟨5, 2⟩) [0, 1, 2, 3] ⟨5, 3⟩ = ⟨5, 2⟩ := by decide
  rw [hm]

/-- C4, instance: in `chaseWorld` the pursuer reaches the visible player on an idle tick, and the
mode becomes GameOver. -/
theorem C4_collision_game_over_witness :
    (UpdateEnemies idleInput chaseWorld).currentState = GameState.GAME_OVER :=
  (C4_collision_game_over idleInput chaseWorld).2.1
    ⟨⟨⟨5, 2⟩, 0, 1 / 2⟩, by rw [chase_enemies]; exact List.mem_singleton.2 rfl, rfl⟩
    (le_refl _)

/-! ## Quiz -/

/-- C5: in Quiz mode the main loop applies the answer block to the choice read from the keys:
key 3 gives choice 2, else key 2 gives choice 1, else key 1 gives choice 0, and no key gives no
choice (-1).  With no key pressed the iteration leaves the state unchanged; with a key pressed
the choice is one of 0, 1, 2 and, if it equals the current question's correct index, the
iteration gives mode Playing with invisibility-remaining 5 and stamina 100 (nothing else
changed), otherwise mode Frozen with freeze-remaining 3 (nothing else changed); in every case
the player position, pursuers, collectibles, bonus-triggers and draw order are unchanged.  The
same holds of the answer block for every choice in 0, 1, 2 and for no choice. -/
theorem C5_quiz_answer :
    (∀ (RAND_MAX : Nat) (bank : List Question) (inp : Input) (w : World),
      w.currentState = GameState.QUIZ →
      mainStep RAND_MAX bank inp w = some (answerQuiz (quizChoice inp) w) ∧
      (quizChoice inp = -1 ∨ quizChoice inp = 0 ∨ quizChoice inp = 1 ∨ quizChoice inp = 2)) ∧
    (∀ (choice : Int) (w : World), (choice = 0 ∨ choice = 1 ∨ choice = 2) →
      (choice = w.currentQuestion.correctIndex →
        answerQuiz choice w =
          { w with
            player := { w.player with invisibleTimer := 5, stamina := 100 }
            currentState := GameState.PLAYING }) ∧
      (choice ≠ w.currentQuestion.correctIndex →
        answerQuiz choice w =
          { w with
            player := { w.player with freezeTimer := 3 }
            currentState := GameState.FROZEN })) ∧
    (∀ (w : World), answerQuiz (-1) w = w) ∧
    (∀ (choice : Int) (w : World),
      (answerQuiz choice w).player.pos = w.player.pos ∧
      (answerQuiz choice w).enemies = w.enemies ∧
      (answerQuiz choice w).diamonds = w.diamonds ∧
      (answerQuiz choice w).nuggets = w.nuggets ∧
      (answerQuiz choice w).questionIndices = w.questionIndices) ∧
    (∀ (inp : Input),
      (inp.three = true → quizChoice inp = 2) ∧
      (inp.three = false → inp.two = true → quizChoice inp = 1) ∧
      (inp.three = false → inp.two = false → inp.one = true → quizChoice inp = 0) ∧
      (inp.three = false → inp.two = false → inp.one = false → quizChoice inp = -1)) ∧
    (∀ (RAND_MAX : Nat) (bank : List Question) (inp : Input) (w : World),
      w.currentState = GameState.QUIZ →
      (inp.one = false ∧ inp.two = false ∧ inp.three = false →
        mainStep RAND_MAX bank inp w = some w) ∧
      (inp.one = true ∨ inp.two = true ∨ inp.three = true →
        (quizChoice inp = 0 ∨ quizChoice inp = 1 ∨ quizChoice inp = 2) ∧
        (quizChoice inp = w.currentQuestion.correctIndex →
          mainStep RAND_MAX bank inp w = some
            { w with
              player := { w.player with invisibleTimer := 5, stamina := 100 }
              currentState := GameState.PLAYING }) ∧
        (quizChoice inp ≠ w.currentQuestion.correctIndex →
          mainStep RAND_MAX bank inp w = some
            { w with
              player := { w.player with freezeTimer := 3 }
              currentState := GameState.FROZEN })) ∧
      (∃ w1, mainStep RAND_MAX bank inp w = some w1 ∧
        w1.player.pos = w.player.pos ∧ w1.enemies = w.enemies ∧ w1.diamonds = w.diamonds ∧
        w1.nuggets = w.nuggets ∧ w1.questionIndices = w.questionIndices)) := by
  have hstep : ∀ (RAND_MAX : Nat) (bank : List Question) (inp : Input) (w : World),
      w.currentState = GameState.QUIZ →
      mainStep RAND_MAX bank inp w = some (answerQuiz (quizChoice inp) w) := by
    intro R bank inp w hq
    unfold mainStep
    rw [hq]
  have hkeys : ∀ (inp : Input),
      (inp.three = true → quizChoice inp = 2) ∧
      (inp.three = false → inp.two = true → quizChoice inp = 1) ∧
      (inp.three = false → inp.two = false → inp.one = true → quizChoice inp = 0) ∧
      (inp.three = false → inp.two = false → inp.one = false → quizChoice inp = -1) := by
    intro inp
    unfold quizChoice
    refine ⟨?_, ?_, ?_, ?_⟩
    · intro h3
      simp [h3]
    · intro h3 h2
      simp [h3, h2]
    · intro h3 h2 h1
      simp [h3, h2, h1]
    · intro h3 h2 h1
      simp [h3, h2, h1]
  have hframe : ∀ (choice : Int) (w : World),
      (answerQuiz choice w).player.pos = w.player.pos ∧
      (answerQuiz choice w).enemies = w.enemies ∧
      (answerQuiz choice w).diamonds = w.diamonds ∧
      (answerQuiz choice w).nuggets = w.nuggets ∧
      (answerQuiz choice w).questionIndices = w.questionIndices := by
    intro choice w
    unfold answerQuiz
    split_ifs <;> simp
  have hnone : ∀ (w : World), answerQuiz (-1) w = w := by
    intro w
    unfold answerQuiz
    simp
  have hans : ∀ (choice : Int) (w : World), (choice = 0 ∨ choice = 1 ∨ choice = 2) →
      (choice = w.currentQuestion.correctIndex →
        answerQuiz choice w =
          { w with
            player := { w.player with invisibleTimer := 5, stamina := 100 }
            currentState := GameState.PLAYING }) ∧
      (choice ≠ w.currentQuestion.correctIndex →
        answerQuiz choice w =
          { w with
            player := { w.player with freezeTimer := 3 }
            currentState := GameState.FROZEN }) := by
    intro choice w hc
    have hne : choice ≠ -1 := by omega
    constructor
    · intro heq
      unfold answerQuiz
      rw [if_pos hne, if_pos heq]
    · intro hneq
      unfold answerQuiz
      rw [if_pos hne, if_neg hneq]
  have hpressed : ∀ (inp : Input), (inp.one = true ∨ inp.two = true ∨ inp.three = true) →
      (quizChoice inp = 0 ∨ quizChoice inp = 1 ∨ quizChoice inp = 2) := by
    intro inp hk
    obtain ⟨k3, k2, k1, _⟩ := hkeys inp
    cases h3 : inp.three with
    | true => exact Or.inr (Or.inr (k3 h3))
    | false =>
      cases h2 : inp.two with
      | true => exact Or.inr (Or.inl (k2 h3 h2))
      | false =>
        cases h1 : inp.one with
        | true => exact Or.inl (k1 h3 h2 h1)
        | false =>
          rw [h1, h2, h3] at hk
          exact absurd hk (by decide)
  refine ⟨?_, hans, hnone, hframe, hkeys, ?_⟩
  · intro R bank inp w hq
    refine ⟨hstep R bank inp w hq, ?_⟩
    unfold quizChoice
    simp only
    split_ifs <;> simp
  · intro R bank inp w hq
    refine ⟨?_, ?_, ?_⟩
    · rintro ⟨h1, h2, h3⟩
      rw [hstep R bank inp w hq, (hkeys inp).2.2.2 h3 h2 h1, hnone]
    · intro hk
      refine ⟨hpressed inp hk, ?_, ?_⟩
      · intro heq
        rw [hstep R bank inp w hq, ((hans _ w (hpressed inp hk)).1 heq)]
      · intro hneq
        rw [hstep R bank inp w hq, ((hans _ w (hpressed inp hk)).2 hneq)]
    · exact ⟨_, hstep R bank inp w hq, hframe _ w⟩

/-- C5, instance: in `calmQuiz` (mode Quiz, correct index 0) an iteration of the main loop with
key 1 pressed gives Playing with invisibility 5 and stamina 100, and one with key 2 pressed gives
Frozen with freeze 3. -/
theorem C5_quiz_answer_witness :
    mainStep 2147483647 questionBank (pressInput true false false) calmQuiz = some
      { calmQuiz with
        player := { calmQuiz.player with invisibleTimer := 5, stamina := 100 }
        currentState := GameState.PLAYING } ∧
    mainStep 2147483647 questionBank (pressInput false true false) calmQuiz = some
      { calmQuiz with
        player := { calmQuiz.player with freezeTimer := 3 }
        currentState := GameState.FROZEN } :=
  ⟨((C5_quiz_answer.2.2.2.2.2 2147483647 questionBank (pressInput true false false) calmQuiz
      rfl).2.1 (Or.inl rfl)).2.1 (by decide),
   ((C5_quiz_answer.2.2.2.2.2 2147483647 questionBank (pressInput false true false) calmQuiz
      rfl).2.1 (Or.inr (Or.inl rfl))).2.2 (by decide)⟩

/-! ## Trivia deck -/

/-- The fill loop pushes the indices `i, i+1, ...` of the remaining bank entries. -/
theorem scanBank_fst (bank : List Question) :
    ∀ (i : Nat) (acc : List Nat × Option Nat),
      (scanBank bank i acc).1 = acc.1 ++ List.range' i bank.length := by
  induction bank with
  | nil => intro i acc; simp [scanBank]
  | cons q qs ih =>
    intro i acc
    rw [scanBank, ih]
    simp [List.range'_succ]

/-- The fill loop over a bank without a marked entry keeps `specialIndex`. -/
theorem scanBank_snd_none (bank : List Question) (hno : ∀ q ∈ bank, isSpecial q = false) :
    ∀ (i : Nat) (acc : List Nat × Option Nat), (scanBank bank i acc).2 = acc.2 := by
  induction bank with
  | nil => intro i acc; rfl
  | cons q qs ih =>
    intro i acc
    rw [scanBank, ih (fun q' hq' => hno q' (List.mem_cons_of_mem _ hq'))]
    simp [hno q (List.mem_cons_self _ _)]

/-- The fill loop leaves in `specialIndex` the index of the last marked entry. -/
theorem scanBank_snd_some (bank : List Question) :
    ∀ (i : Nat) (acc : List Nat × Option Nat) (s : Nat) (q : Question),
      bank[s]? = some q → isSpecial q = true →
      (∀ t q', s < t → bank[t]? = some q' → isSpecial q' = false) →
      (scanBank bank i acc).2 = some (i + s) := by
  induction bank with
  | nil => intro i acc s q hs; simp at hs
  | cons q0 qs ih =>
    intro i acc s q hs hq hlast
    cases s with
    | zero =>
      simp only [List.getElem?_cons_zero, Option.some.injEq] at hs
      subst hs
      rw [scanBank, scanBank_snd_none]
      · simp [hq]
      · intro q' hq'
        obtain ⟨t, ht, hget⟩ := List.getElem_of_mem hq'
        exact hlast (t + 1) q' (by omega) (by simp [List.getElem?_eq_getElem ht, hget])
    | succ s =>
      rw [scanBank, ih (i + 1) _ s q (by simpa using hs) hq]
      · congr 1; omega
      · intro t q' hst hget
        exact hlast (t + 1) q' (by omega) (by simpa using hget)

/-- Whatever the fill loop leaves in `specialIndex` is an index of the bank. -/
theorem scanBank_snd_lt (bank : List Question) :
    ∀ (i : Nat) (acc : List Nat × Option Nat) (s : Nat),
      (scanBank bank i acc).2 = some s → acc.2 = some s ∨ s < i + bank.length := by
  induction bank with
  | nil => intro i acc s h; exact Or.inl h
  | cons q qs ih =>
    intro i acc s h
    rw [scanBank] at h
    rcases ih (i + 1) _ s h with h1 | h1
    · simp only at h1
      split_ifs at h1
      · right
        simp only [Option.some.injEq] at h1
        simp only [List.length_cons]
        omega
      · exact Or.inl h1
    · right
      simp only [List.length_cons]
      omega

/-- Reading position `k` of `0, 1, ..., n-1`. -/
theorem range_getD (n k : Nat) (h : k < n) : (List.range n).getD k 0 = k := by
  simp [List.getElem?_range h]

/-- A shuffle of `0, 1, ..., n-1` whose source positions are all below `n` is the list of its
source positions. -/
theorem stdShuffle_range (order : List Nat) (n : Nat) (h : ∀ k ∈ order, k < n) :
    stdShuffle order (List.range n) = order := by
  unfold stdShuffle
  induction order with
  | nil => rfl
  | cons a as ih =>
    rw [List.map_cons, range_getD n a (h a (List.mem_cons_self _ _)),
      ih (fun k hk => h k (List.mem_cons_of_mem _ hk))]

/-- The search loop returns a position that holds the value. -/
theorem findPos_some (v : Nat) (l : List Nat) :
    ∀ (i p : Nat), findPos v l i = some p → i ≤ p ∧ l[p - i]? = some v := by
  induction l with
  | nil => intro i p h; simp [findPos] at h
  | cons a as ih =>
    intro i p h
    rw [findPos] at h
    split_ifs at h with hav
    · simp only [Option.some.injEq] at h
      subst h
      simp [hav]
    · obtain ⟨h1, h2⟩ := ih (i + 1) p h
      refine ⟨by omega, ?_⟩
      have : p - i = (p - (i + 1)) + 1 := by omega
      rw [this]
      simpa using h2

/-- The search loop finds every value that occurs. -/
theorem findPos_of_mem (v : Nat) (l : List Nat) (hm : v ∈ l) :
    ∀ (i : Nat), ∃ p, findPos v l i = some p := by
  induction l with
  | nil => simp at hm
  | cons a as ih =>
    intro i
    rw [findPos]
    split_ifs with hav
    · exact ⟨i, rfl⟩
    · rcases List.mem_cons.1 hm with h | h
      · exact absurd h.symm hav
      · exact ih h (i + 1)

/-- The exchange keeps the length of the vector. -/
theorem swapAt_length (v : List Nat) (i j : Nat) : (swapAt v i j).length = v.length := by
  simp [swapAt]

/-- After the exchange, position `j` holds what position `i` held. -/
theorem swapAt_get (v : List Nat) (i j : Nat) (hi : i < v.length) (hj : j < v.length) :
    (swapAt v i j)[j]? = v[i]? := by
  unfold swapAt
  rw [List.getElem?_set_self (by simpa using hj)]
  simp [List.getElem?_eq_getElem hi]

/-- The exchange of two positions of a vector rearranges it. -/
theorem swapAt_perm (v : List Nat) (i j : Nat) (hi : i < v.length) (hj : j < v.length) :
    (swapAt v i j).Perm v := by
  rw [List.perm_iff_count]
  intro b
  unfold swapAt
  have hj1 : j < (v.set i (v.getD j 0)).length := by simpa using hj
  rw [List.count_set _ _ _ _ hj1, List.count_set _ _ _ _ hi]
  have hgi : v.getD i 0 = v[i] := by simp [List.getElem?_eq_getElem hi]
  have hgj : v.getD j 0 = v[j] := by simp [List.getElem?_eq_getElem hj]
  have hset : (v.set i (v.getD j 0))[j] = v[j] := by
    rw [List.getElem_set]
    split_ifs with h
    · exact hgj
    · rfl
  rw [hset, hgi, hgj]
  have hci : (if (v[i] == b) = true then 1 else 0) ≤ v.count b := by
    split_ifs with h
    · have : v[i] = b := by simpa using h
      rw [← this]
      exact List.count_pos_iff.2 (List.getElem_mem hi)
    · omega
  by_cases h1 : (v[i] == b) = true <;> by_cases h2 : (v[j] == b) = true <;>
    simp only [h1, h2, if_true, if_false] at hci ⊢ <;> omega

/-- `ShuffleQuestions` on a bank without special question: the shuffled order. -/
theorem ShuffleQuestions_plain (bank : List Question) (order : List Nat) (r : Nat)
    (hsp : (scanBank bank 0 ([], none)).2 = none)
    (hperm : order.Perm (List.range bank.length)) :
    ShuffleQuestions bank order r = order := by
  have hfst : (scanBank bank 0 ([], none)).1 = List.range bank.length := by
    rw [scanBank_fst, List.range_eq_range']; rfl
  have hlt : ∀ k ∈ order, k < bank.length := fun k hk => List.mem_range.1 (hperm.mem_iff.1 hk)
  unfold ShuffleQuestions
  simp only [hsp, hfst, stdShuffle_range order _ hlt]

/-- `ShuffleQuestions` on a bank with special question `s`: the shuffled order with the position
`p` of `s` exchanged with the target position among the last `poolSize`. -/
theorem ShuffleQuestions_special (bank : List Question) (order : List Nat) (r s : Nat)
    (hsp : (scanBank bank 0 ([], none)).2 = some s)
    (hperm : order.Perm (List.range bank.length)) :
    ∃ p, p < bank.length ∧ order[p]? = some s ∧ 0 < bank.length ∧
      ShuffleQuestions bank order r =
        swapAt order p
          (bank.length - 1 - r % (if bank.length < 3 then bank.length else 3)) := by
  have hfst : (scanBank bank 0 ([], none)).1 = List.range bank.length := by
    rw [scanBank_fst, List.range_eq_range']; rfl
  have hlt : ∀ k ∈ order, k < bank.length := fun k hk => List.mem_range.1 (hperm.mem_iff.1 hk)
  have hlen : order.length = bank.length := by simpa using hperm.length_eq
  have hs : s < bank.length := by
    rcases scanBank_snd_lt bank 0 ([], none) s hsp with h | h
    · simp at h
    · omega
  have hmem : s ∈ order := hperm.mem_iff.2 (List.mem_range.2 hs)
  obtain ⟨p, hp⟩ := findPos_of_mem s order hmem 0
  obtain ⟨_, hget⟩ := findPos_some s order 0 p hp
  simp only [Nat.sub_zero] at hget
  have hpl : p < order.length := by
    by_contra hc
    rw [List.getElem?_eq_none (by omega)] at hget
    simp at hget
  refine ⟨p, by omega, hget, by omega, ?_⟩
  unfold ShuffleQuestions
  simp only [hsp, hfst, stdShuffle_range order _ hlt, hp, hlen]

/-- The order left by `ShuffleQuestions` is a rearrangement of all indices of the bank. -/
theorem ShuffleQuestions_perm (bank : List Question) (order : List Nat) (r : Nat)
    (hperm : order.Perm (List.range bank.length)) :
    (ShuffleQuestions bank order r).Perm (List.range bank.length) := by
  have hlen : order.length = bank.length := by simpa using hperm.length_eq
  cases hsp : (scanBank bank 0 ([], none)).2 with
  | none => rw [ShuffleQuestions_plain bank order r hsp hperm]; exact hperm
  | some s =>
    obtain ⟨p, hp, _, hpos, heq⟩ := ShuffleQuestions_special bank order r s hsp hperm
    rw [heq]
    exact (swapAt_perm order p _ (by omega) (by omega)).trans hperm

/-- A draw from a non-empty order takes its last element and does not reshuffle. -/
theorem Draw_concat (bank : List Question) (order : List Nat) (r : Nat) (init : List Nat)
    (a : Nat) : Draw bank order r (init ++ [a]) = (a, init) := by
  unfold Draw
  have hne : (init ++ [a]).isEmpty = false := by simp
  simp only [hne, List.getLastD_concat, List.dropLast_concat]
  simp

/-- As long as the order is long enough, `n` draws return its last `n` elements, last first, and
leave the rest. -/
theorem DrawN_eq (bank : List Question) (orc : Nat → List Nat × Nat) (n : Nat) :
    ∀ (k : Nat) (qi : List Nat), n ≤ qi.length →
      DrawN bank orc n k qi = (qi.reverse.take n, qi.take (qi.length - n)) := by
  induction n with
  | zero => intro k qi _; simp [DrawN]
  | succ n ih =>
    intro k qi hn
    rcases List.eq_nil_or_concat qi with h | ⟨init, a, h⟩
    · subst h; simp at hn
    · subst h
      rw [List.concat_eq_append] at hn ⊢
      have hl : n ≤ init.length := by simp at hn; omega
      rw [DrawN, Draw_concat]
      simp only [ih (k + 1) init hl]
      rw [List.reverse_append]
      simp only [List.reverse_cons, List.reverse_nil, List.nil_append, List.singleton_append,
        List.take_succ_cons, List.length_append, List.length_singleton]
      rw [show init.length + 1 - (n + 1) = init.length - n by omega,
        List.take_append_of_le_length (by omega)]

/-- C6: for every question bank whose pinned entry (the last entry carrying the marker in its
first option) has index `s`, every permutation `order` the shuffle may produce and every value `r`
of `rand()`: after `ShuffleQuestions` the index `s` is at one of the last K positions of the draw
order, K = min(3, bank size), and it is returned by one of the first K draws that follow. -/
theorem C6_pinned_in_last_K (bank : List Question) (order : List Nat) (r s : Nat)
    (q : Question) (orc : Nat → List Nat × Nat)
    (hs : bank[s]? = some q) (hq : isSpecial q = true)
    (hlast : ∀ t q', s < t → bank[t]? = some q' → isSpecial q' = false)
    (hperm : order.Perm (List.range bank.length)) :
    ∃ j, j < min 3 bank.length ∧
      (ShuffleQuestions bank order r)[bank.length - 1 - j]? = some s ∧
      (DrawN bank orc (min 3 bank.length) 0 (ShuffleQuestions bank order r)).1[j]? = some s := by
  have hsp : (scanBank bank 0 ([], none)).2 = some s := by
    have := scanBank_snd_some bank 0 ([], none) s q hs hq hlast
    simpa using this
  have hlen : order.length = bank.length := by simpa using hperm.length_eq
  obtain ⟨p, hp, hget, hpos, heq⟩ := ShuffleQuestions_special bank order r s hsp hperm
  have hpool : (if bank.length < 3 then bank.length else 3) = min 3 bank.length := by
    split_ifs <;> omega
  rw [hpool] at heq
  have hK : 0 < min 3 bank.length := by omega
  have hj : r % min 3 bank.length < min 3 bank.length := Nat.mod_lt _ hK
  have hslen : (ShuffleQuestions bank order r).length = bank.length := by
    rw [heq, swapAt_length, hlen]
  have hat : (ShuffleQuestions bank order r)[bank.length - 1 - r % min 3 bank.length]?
      = some s := by
    rw [heq, swapAt_get order p _ (by omega) (by omega), hget]
  refine ⟨r % min 3 bank.length, hj, hat, ?_⟩
  rw [DrawN_eq bank orc _ 0 _ (by rw [hslen]; omega)]
  simp only
  rw [List.getElem?_take_of_lt hj, List.getElem?_reverse (by rw [hslen]; omega), hslen]
  exact hat

/-- C6, instance: the bank of the game (pinned entry at index 0), the shuffle outcome
`[3, 0, 5, 1, 8, 2, 7, 4, 6]` and `rand()` returning 7. -/
theorem C6_pinned_in_last_K_witness :
    ∃ j, j < min 3 questionBank.length ∧
      (ShuffleQuestions questionBank [3, 0, 5, 1, 8, 2, 7, 4, 6] 7)[questionBank.length - 1 - j]?
        = some 0 ∧
      (DrawN questionBank (fun _ => ([], 0)) (min 3 questionBank.length) 0
        (ShuffleQuestions questionBank [3, 0, 5, 1, 8, 2, 7, 4, 6] 7)).1[j]? = some 0 :=
  C6_pinned_in_last_K questionBank [3, 0, 5, 1, 8, 2, 7, 4, 6] 7 0
    ⟨"Who is the best Computer programing Professor?", "Jaudat Mamoon", "David Malan",
      "Andrew Ng", 0⟩
    (fun _ => ([], 0)) rfl (by decide)
    (by
      intro t q' ht hget
      have hlt : t < 9 := by
        by_contra hc
        rw [List.getElem?_eq_none (by simp [questionBank]; omega)] at hget
        simp at hget
      have h8 : t = 1 ∨ t = 2 ∨ t = 3 ∨ t = 4 ∨ t = 5 ∨ t = 6 ∨ t = 7 ∨ t = 8 := by omega
      rcases h8 with rfl | rfl | rfl | rfl | rfl | rfl | rfl | rfl <;>
        · simp only [questionBank, List.getElem?_cons_succ, List.getElem?_cons_zero,
            Option.some.injEq] at hget
          subst hget
          decide)
    (by decide)

/-- C7: after `ShuffleQuestions` (relocation swap included) the draw order is a rearrangement of
`0, ..., n-1`, so it holds every index of the bank exactly once; the `n` draws that follow return
pairwise distinct indices (all of them, once each) and empty the order; and a draw reshuffles
exactly when the order is empty: from a non-empty order it pops the last element whatever the
shuffle oracle. -/
theorem C7_deck_no_repeat :
    (∀ (bank : List Question) (order : List Nat) (r : Nat),
      order.Perm (List.range bank.length) →
      (ShuffleQuestions bank order r).Perm (List.range bank.length) ∧
      (ShuffleQuestions bank order r).Nodup ∧
      (∀ i, i < bank.length → (ShuffleQuestions bank order r).count i = 1)) ∧
    (∀ (bank : List Question) (order : List Nat) (r : Nat) (orc : Nat → List Nat × Nat),
      order.Perm (List.range bank.length) →
      (DrawN bank orc bank.length 0 (ShuffleQuestions bank order r)).1.Nodup ∧
      (DrawN bank orc bank.length 0 (ShuffleQuestions bank order r)).1.Perm
        (List.range bank.length) ∧
      (DrawN bank orc bank.length 0 (ShuffleQuestions bank order r)).2 = []) ∧
    (∀ (bank : List Question) (order : List Nat) (r : Nat) (qi : List Nat), qi ≠ [] →
      Draw bank order r qi = (qi.getLastD 0, qi.dropLast)) ∧
    (∀ (bank : List Question) (order : List Nat) (r : Nat),
      Draw bank order r [] =
        ((ShuffleQuestions bank order r).getLastD 0, (ShuffleQuestions bank order r).dropLast)) := by
  refine ⟨?_, ?_, ?_, ?_⟩
  · intro bank order r hperm
    have hp := ShuffleQuestions_perm bank order r hperm
    refine ⟨hp, hp.nodup_iff.2 (List.nodup_range _), ?_⟩
    intro i hi
    rw [List.perm_iff_count.1 hp i]
    exact List.count_eq_one_of_mem (List.nodup_range _) (List.mem_range.2 hi)
  · intro bank order r orc hperm
    have hp := ShuffleQuestions_perm bank order r hperm
    have hlen : (ShuffleQuestions bank order r).length = bank.length := by
      simpa using hp.length_eq
    rw [DrawN_eq bank orc _ 0 _ (by rw [hlen])]
    simp only
    have htake : (ShuffleQuestions bank order r).reverse.take bank.length
        = (ShuffleQuestions bank order r).reverse := by
      apply List.take_of_length_le
      rw [List.length_reverse, hlen]
    rw [htake, hlen]
    refine ⟨List.nodup_reverse.2 (hp.nodup_iff.2 (List.nodup_range _)),
      (List.reverse_perm _).trans hp, by simp⟩
  · intro bank order r qi hne
    unfold Draw
    have : qi.isEmpty = false := by simpa using hne
    simp [this]
  · intro bank order r
    rfl

/-- C7, instance: the bank of the game, the shuffle outcome `[3, 0, 5, 1, 8, 2, 7, 4, 6]` and
`rand()` returning 7. -/
theorem C7_deck_no_repeat_witness :
    (ShuffleQuestions questionBank [3, 0, 5, 1, 8, 2, 7, 4, 6] 7).Perm
      (List.range questionBank.length) :=
  (C7_deck_no_repeat.1 questionBank [3, 0, 5, 1, 8, 2, 7, 4, 6] 7 (by decide)).1

/-! ## Player controller -/

/-- The player update of a frozen player: only the freeze timer and the mode change. -/
theorem UpdatePlayer_frozen (bank : List Question) (inp : Input) (w : World)
    (hf : w.player.freezeTimer > 0) :
    UpdatePlayer bank inp w =
      { w with
        player := { w.player with freezeTimer := w.player.freezeTimer - inp.frameTime }
        currentState :=
          if w.player.freezeTimer - inp.frameTime ≤ 0 then GameState.PLAYING
          else w.currentState } := by
  unfold UpdatePlayer
  simp only [if_pos hf]

/-- The player record after the update of a player that is not frozen. -/
theorem UpdatePlayer_player (bank : List Question) (inp : Input) (w : World)
    (hf : ¬ w.player.freezeTimer > 0) :
    (UpdatePlayer bank inp w).player = movePlayer inp w.gameGrid w.player := by
  unfold UpdatePlayer
  simp only [if_neg hf]
  split <;> rfl

/-- The clamp at the end of the movement part keeps the stamina in [0,100]. -/
theorem movePlayer_stamina (inp : Input) (g : Grid) (p : Player) :
    0 ≤ (movePlayer inp g p).stamina ∧ (movePlayer inp g p).stamina ≤ 100 := by
  unfold movePlayer
  simp only
  split_ifs <;> constructor <;> linarith

/-- The stamina after the player update of a player that is not frozen is in [0,100]. -/
theorem UpdatePlayer_stamina_clamped (bank : List Question) (inp : Input) (w : World)
    (hf : ¬ w.player.freezeTimer > 0) :
    0 ≤ (UpdatePlayer bank inp w).player.stamina ∧
      (UpdatePlayer bank inp w).player.stamina ≤ 100 := by
  rw [UpdatePlayer_player bank inp w hf]
  exact movePlayer_stamina inp w.gameGrid w.player

/-- The freeze timer after a player update. -/
theorem UpdatePlayer_freezeTimer (bank : List Question) (inp : Input) (w : World) :
    (UpdatePlayer bank inp w).player.freezeTimer =
      if w.player.freezeTimer > 0 then w.player.freezeTimer - inp.frameTime
      else w.player.freezeTimer := by
  by_cases hf : w.player.freezeTimer > 0
  · rw [UpdatePlayer_frozen bank inp w hf, if_pos hf]
  · rw [if_neg hf, UpdatePlayer_player bank inp w hf]
    rfl

/-- The invisibility timer after a player update. -/
theorem UpdatePlayer_invisibleTimer (bank : List Question) (inp : Input) (w : World) :
    (UpdatePlayer bank inp w).player.invisibleTimer =
      if w.player.freezeTimer > 0 then w.player.invisibleTimer
      else if w.player.invisibleTimer > 0 then w.player.invisibleTimer - inp.frameTime
      else w.player.invisibleTimer := by
  by_cases hf : w.player.freezeTimer > 0
  · rw [UpdatePlayer_frozen bank inp w hf, if_pos hf]
  · rw [if_neg hf, UpdatePlayer_player bank inp w hf]
    rfl

set_option maxRecDepth 100000 in
/-- On `crowdedRands` the reset finishes and yields `crowdedStart`. -/
theorem crowded_reset :
    ResetGame 2147483647 questionBank [0, 1, 2, 3, 4, 5, 6, 7, 8] crowdedRands initWorld
      = some crowdedStart := by
  rfl

/-- C8: player stamina is in [0,100] in every state reachable by level reset, player updates (any
inputs, any elapsed time >= 0), pursuer updates and quiz answers; reset and a correct answer set it
to 100; and every player update maps a stamina in [0,100] to a stamina in [0,100]. -/
theorem C8_stamina_bounds :
    (∀ (RAND_MAX : Nat) (bank : List Question) (w : World), PlayReachable RAND_MAX bank w →
      0 ≤ w.player.stamina ∧ w.player.stamina ≤ 100) ∧
    (∀ (RAND_MAX : Nat) (bank : List Question) (order rands : List Nat) (w w1 : World),
      ResetGame RAND_MAX bank order rands w = some w1 → w1.player.stamina = 100) ∧
    (∀ (choice : Int) (w : World), choice ≠ -1 → choice = w.currentQuestion.correctIndex →
      (answerQuiz choice w).player.stamina = 100) ∧
    (∀ (bank : List Question) (inp : Input) (w : World),
      0 ≤ w.player.stamina → w.player.stamina ≤ 100 →
      0 ≤ (UpdatePlayer bank inp w).player.stamina ∧
        (UpdatePlayer bank inp w).player.stamina ≤ 100) := by
  have hreset : ∀ (RAND_MAX : Nat) (bank : List Question) (order rands : List Nat)
      (w w1 : World), ResetGame RAND_MAX bank order rands w = some w1 →
      w1.player.stamina = 100 := by
    intro R bank order rands w w1 h
    unfold ResetGame at h
    exact (LoadLevel_spec _ _ _ _ _ _ h).2.2.1
  have hupd : ∀ (bank : List Question) (inp : Input) (w : World),
      0 ≤ w.player.stamina → w.player.stamina ≤ 100 →
      0 ≤ (UpdatePlayer bank inp w).player.stamina ∧
        (UpdatePlayer bank inp w).player.stamina ≤ 100 := by
    intro bank inp w h0 h100
    by_cases hf : w.player.freezeTimer > 0
    · rw [UpdatePlayer_frozen bank inp w hf]
      exact ⟨h0, h100⟩
    · exact UpdatePlayer_stamina_clamped bank inp w hf
  refine ⟨?_, hreset, ?_, hupd⟩
  · intro R bank w hr
    induction hr with
    | reset order rands w w1 h =>
      rw [hreset R bank order rands w w1 h]
      constructor <;> norm_num
    | player inp w _ _ ih => exact hupd bank inp w ih.1 ih.2
    | enemies inp w _ ih => exact ih
    | answer choice w _ ih =>
      unfold answerQuiz
      split_ifs
      · constructor <;> norm_num
      · exact ih
      · exact ih
  · intro choice w hne heq
    unfold answerQuiz
    rw [if_pos hne, if_pos heq]

/-- C8, instance: the state reached by a reset on `crowdedRands` followed by an idle player
update of half a second. -/
theorem C8_stamina_bounds_witness :
    0 ≤ (UpdatePlayer questionBank idleInput crowdedStart).player.stamina ∧
      (UpdatePlayer questionBank idleInput crowdedStart).player.stamina ≤ 100 :=
  C8_stamina_bounds.1 2147483647 questionBank _
    (PlayReachable.player idleInput crowdedStart
      (PlayReachable.reset [0, 1, 2, 3, 4, 5, 6, 7, 8] crowdedRands initWorld crowdedStart
        crowded_reset)
      (by norm_num [idleInput]))

/-- C9, as stated, fails: the decrement of the two timers is not clamped at 0.  With a quarter of
a second of invisibility left (freeze 0), a player update of half a second leaves
invisibility-remaining at -1/4; with a quarter of a second of freeze left, it leaves
freeze-remaining at -1/4. -/
theorem C9_timers_go_negative :
    (0 ≤ ghostWorld.player.invisibleTimer ∧ 0 ≤ ghostWorld.player.freezeTimer ∧
      0 ≤ idleInput.frameTime ∧
      (UpdatePlayer questionBank idleInput ghostWorld).player.invisibleTimer = -(1 / 4)) ∧
    (0 ≤ (frozenWorld (1 / 4)).player.invisibleTimer ∧
      0 ≤ (frozenWorld (1 / 4)).player.freezeTimer ∧
      (UpdatePlayer questionBank idleInput (frozenWorld (1 / 4))).player.freezeTimer
        = -(1 / 4)) := by
  refine ⟨⟨?_, ?_, ?_, ?_⟩, ?_, ?_, ?_⟩
  · norm_num [ghostWorld]
  · norm_num [ghostWorld, chaseWorld, playerAt]
  · norm_num [idleInput]
  · rw [UpdatePlayer_invisibleTimer]
    norm_num [ghostWorld, chaseWorld, playerAt, idleInput]
  · norm_num [frozenWorld, chaseWorld, playerAt]
  · norm_num [frozenWorld]
  · rw [UpdatePlayer_freezeTimer]
    norm_num [frozenWorld, idleInput]

/-- C9 (amended): for every state in which invisibility-remaining and freeze-remaining are >= 0
and every elapsed time dt >= 0, after a player update each timer is either unchanged or its old
value minus dt, and is >= -dt; a timer is decreased only while it is > 0 (the decrement is not
clamped at 0), and a timer that is 0 stays 0. -/
theorem C9_timers_lower_bound (bank : List Question) (inp : Input) (w : World)
    (hi : 0 ≤ w.player.invisibleTimer) (hfz : 0 ≤ w.player.freezeTimer)
    (hdt : 0 ≤ inp.frameTime) :
    ((UpdatePlayer bank inp w).player.invisibleTimer = w.player.invisibleTimer ∨
      (0 < w.player.invisibleTimer ∧
        (UpdatePlayer bank inp w).player.invisibleTimer
          = w.player.invisibleTimer - inp.frameTime)) ∧
    ((UpdatePlayer bank inp w).player.freezeTimer = w.player.freezeTimer ∨
      (0 < w.player.freezeTimer ∧
        (UpdatePlayer bank inp w).player.freezeTimer
          = w.player.freezeTimer - inp.frameTime)) ∧
    -inp.frameTime ≤ (UpdatePlayer bank inp w).player.invisibleTimer ∧
    -inp.frameTime ≤ (UpdatePlayer bank inp w).player.freezeTimer ∧
    (w.player.invisibleTimer = 0 → (UpdatePlayer bank inp w).player.invisibleTimer = 0) ∧
    (w.player.freezeTimer = 0 → (UpdatePlayer bank inp w).player.freezeTimer = 0) := by
  rw [UpdatePlayer_invisibleTimer, UpdatePlayer_freezeTimer]
  refine ⟨?_, ?_, ?_, ?_, ?_, ?_⟩
  · split_ifs with h1 h2
    · exact Or.inl rfl
    · exact Or.inr ⟨h2, rfl⟩
    · exact Or.inl rfl
  · split_ifs with h1
    · exact Or.inr ⟨h1, rfl⟩
    · exact Or.inl rfl
  · split_ifs <;> linarith
  · split_ifs <;> linarith
  · intro h0
    split_ifs with h1 h2
    · exact h0
    · linarith
    · exact h0
  · intro h0
    split_ifs with h1
    · linarith
    · exact h0

/-- C9 (amended), instance: `ghostWorld` and an idle update of half a second. -/
theorem C9_timers_lower_bound_witness :
    -idleInput.frameTime ≤ (UpdatePlayer questionBank idleInput ghostWorld).player.invisibleTimer ∧
    -idleInput.frameTime ≤ (UpdatePlayer questionBank idleInput ghostWorld).player.freezeTimer :=
  ⟨(C9_timers_lower_bound questionBank idleInput ghostWorld
      (by norm_num [ghostWorld]) (by norm_num [ghostWorld, chaseWorld, playerAt])
      (by norm_num [idleInput])).2.2.1,
   (C9_timers_lower_bound questionBank idleInput ghostWorld
      (by norm_num [ghostWorld]) (by norm_num [ghostWorld, chaseWorld, playerAt])
      (by norm_num [idleInput])).2.2.2.1⟩

/-- C10: for every state with freeze-remaining > 0, every input and every elapsed time dt, the
player update sets freeze-remaining to its old value minus dt, sets the mode to Playing exactly
when the new value is <= 0 (otherwise leaves the mode as it was), and leaves the player position,
move-cooldown, stamina, invisibility-remaining, collectibles, bonus-triggers, draw order and
current question (as well as the grid and the pursuers) unchanged. -/
theorem C10_frozen_update (bank : List Question) (inp : Input) (w : World)
    (hf : w.player.freezeTimer > 0) :
    (UpdatePlayer bank inp w).player.freezeTimer = w.player.freezeTimer - inp.frameTime ∧
    (w.player.freezeTimer - inp.frameTime ≤ 0 →
      (UpdatePlayer bank inp w).currentState = GameState.PLAYING) ∧
    (¬ w.player.freezeTimer - inp.frameTime ≤ 0 →
      (UpdatePlayer bank inp w).currentState = w.currentState) ∧
    (UpdatePlayer bank inp w).player.pos = w.player.pos ∧
    (UpdatePlayer bank inp w).player.moveTimer = w.player.moveTimer ∧
    (UpdatePlayer bank inp w).player.stamina = w.player.stamina ∧
    (UpdatePlayer bank inp w).player.invisibleTimer = w.player.invisibleTimer ∧
    (UpdatePlayer bank inp w).diamonds = w.diamonds ∧
    (UpdatePlayer bank inp w).nuggets = w.nuggets ∧
    (UpdatePlayer bank inp w).questionIndices = w.questionIndices ∧
    (UpdatePlayer bank inp w).currentQuestion = w.currentQuestion ∧
    (UpdatePlayer bank inp w).gameGrid = w.gameGrid ∧
    (UpdatePlayer bank inp w).enemies = w.enemies := by
  rw [UpdatePlayer_frozen bank inp w hf]
  refine ⟨rfl, ?_, ?_, rfl, rfl, rfl, rfl, rfl, rfl, rfl, rfl, rfl, rfl⟩
  · intro h
    simp only [if_pos h]
  · intro h
    simp only [if_neg h]

/-- C10, instance: three seconds of freeze left (the state after a wrong answer) and an idle
update of half a second: freeze-remaining becomes 3 - 1/2 and the mode stays Frozen. -/
theorem C10_frozen_update_witness :
    (UpdatePlayer questionBank idleInput (frozenWorld 3)).player.freezeTimer
      = (frozenWorld 3).player.freezeTimer - idleInput.frameTime ∧
    (UpdatePlayer questionBank idleInput (frozenWorld 3)).currentState = GameState.FROZEN :=
  ⟨(C10_frozen_update questionBank idleInput (frozenWorld 3) (by norm_num [frozenWorld])).1,
   (C10_frozen_update questionBank idleInput (frozenWorld 3) (by norm_num [frozenWorld])).2.2.1
     (by norm_num [frozenWorld, idleInput])⟩

/-- A horizontal intent is present exactly when the left or the right key is held. -/
theorem inputDx_ne_zero (inp : Input) :
    inputDx inp ≠ 0 ↔ (inp.left = true ∨ inp.right = true) := by
  unfold inputDx
  cases inp.left <;> cases inp.right <;> simp

/-- A vertical intent is present exactly when the up or the down key is held. -/
theorem inputDy_ne_zero (inp : Input) :
    inputDy inp ≠ 0 ↔ (inp.up = true ∨ inp.down = true) := by
  unfold inputDy
  cases inp.up <;> cases inp.down <;> simp

/-- The intents are unit steps. -/
theorem inputDx_cases (inp : Input) : inputDx inp = 0 ∨ inputDx inp = 1 ∨ inputDx inp = -1 := by
  unfold inputDx
  cases inp.left <;> cases inp.right <;> simp

/-- The intents are unit steps. -/
theorem inputDy_cases (inp : Input) : inputDy inp = 0 ∨ inputDy inp = 1 ∨ inputDy inp = -1 := by
  unfold inputDy
  cases inp.up <;> cases inp.down <;> simp

/-- The sprint test of the movement part reads the stamina the update started with: the
regeneration before it only runs while the sprint key is not held. -/
theorem sprint_test (inp : Input) (p : Player) :
    (inp.shift = true ∧
      (if ¬ inp.shift = true ∧ p.stamina < 100 then p.stamina + 40 * inp.frameTime
        else p.stamina) > 0)
      ↔ (inp.shift = true ∧ p.stamina > 0) := by
  cases inp.shift <;> simp

/-- The move cooldown after the movement part. -/
theorem movePlayer_moveTimer (inp : Input) (g : Grid) (p : Player) :
    (movePlayer inp g p).moveTimer =
      if p.moveTimer + inp.frameTime ≥
            (if inp.shift = true ∧ p.stamina > 0 then (3 / 50 : ℚ) else 3 / 25)
          ∧ (inputDx inp ≠ 0 ∨ inputDy inp ≠ 0)
      then 0 else p.moveTimer + inp.frameTime := by
  unfold movePlayer
  simp only [decide_eq_true_eq, sprint_test]

/-- The position after the movement part. -/
theorem movePlayer_pos (inp : Input) (g : Grid) (p : Player) :
    (movePlayer inp g p).pos =
      if p.moveTimer + inp.frameTime ≥
            (if inp.shift = true ∧ p.stamina > 0 then (3 / 50 : ℚ) else 3 / 25)
          ∧ (inputDx inp ≠ 0 ∨ inputDy inp ≠ 0)
      then tryMove g p.pos (inputDx inp) (inputDy inp) else p.pos := by
  unfold movePlayer
  simp only [decide_eq_true_eq, sprint_test]

/-- C11, as stated, fails: in `chaseWorld` (not frozen, cooldown 0) an update of half a second
with no direction key held has an accumulated cooldown of 1/2 >= 0.12, yet the cooldown after the
update is 1/2, not 0: the reset sits inside the test `dx != 0 || dy != 0`. -/
theorem C11_no_intent_keeps_cooldown :
    ¬ chaseWorld.player.freezeTimer > 0 ∧
    chaseWorld.player.moveTimer + idleInput.frameTime ≥
      (if idleInput.shift = true ∧ chaseWorld.player.stamina > 0 then (3 / 50 : ℚ) else 3 / 25) ∧
    (UpdatePlayer questionBank idleInput chaseWorld).player.moveTimer = 1 / 2 ∧
    (UpdatePlayer questionBank idleInput chaseWorld).player.moveTimer ≠ 0 := by
  have hf : ¬ chaseWorld.player.freezeTimer > 0 := by
    norm_num [chaseWorld, playerAt]
  have hm : (UpdatePlayer questionBank idleInput chaseWorld).player.moveTimer = 1 / 2 := by
    rw [UpdatePlayer_player _ _ _ hf, movePlayer_moveTimer]
    norm_num [chaseWorld, playerAt, idleInput, inputDx, inputDy]
  refine ⟨hf, ?_, hm, ?_⟩
  · norm_num [chaseWorld, playerAt, idleInput]
  · rw [hm]; norm_num

/-- C11 (amended): for every non-frozen player update in which the accumulated move-cooldown
(old value plus elapsed time) is >= the move-delay (0.06 when sprint is held and stamina > 0, else
0.12): if at least one direction key is held, the move-cooldown is 0 after the update, whether or
not the player's position changed; if none is held, the cooldown keeps the accumulated value. -/
theorem C11_cooldown_reset (bank : List Question) (inp : Input) (w : World)
    (hf : ¬ w.player.freezeTimer > 0)
    (hcd : w.player.moveTimer + inp.frameTime ≥
      (if inp.shift = true ∧ w.player.stamina > 0 then (3 / 50 : ℚ) else 3 / 25)) :
    ((inp.up = true ∨ inp.down = true ∨ inp.left = true ∨ inp.right = true) →
      (UpdatePlayer bank inp w).player.moveTimer = 0) ∧
    ((inp.up = false ∧ inp.down = false ∧ inp.left = false ∧ inp.right = false) →
      (UpdatePlayer bank inp w).player.moveTimer = w.player.moveTimer + inp.frameTime) := by
  rw [UpdatePlayer_player bank inp w hf, movePlayer_moveTimer]
  constructor
  · intro hk
    rw [if_pos]
    refine ⟨hcd, ?_⟩
    rw [inputDx_ne_zero, inputDy_ne_zero]
    tauto
  · rintro ⟨h1, h2, h3, h4⟩
    rw [if_neg]
    rintro ⟨_, hd⟩
    rw [inputDx_ne_zero, inputDy_ne_zero] at hd
    simp [h1, h2, h3, h4] at hd

/-- C11 (amended), instance: `chaseWorld` and half a second with the up key held. -/
theorem C11_cooldown_reset_witness :
    (UpdatePlayer questionBank upInput chaseWorld).player.moveTimer = 0 :=
  (C11_cooldown_reset questionBank upInput chaseWorld
    (by norm_num [chaseWorld, playerAt])
    (by norm_num [chaseWorld, playerAt, upInput, idleInput])).1 (Or.inl rfl)

/-- The two move attempts: a walkable vertical target is taken; failing that a walkable
horizontal target; failing both the position stays. -/
theorem tryMove_spec (g : Grid) (pos : GridPos) (dx dy : Int) :
    ((dy ≠ 0 ∧ IsValidMove g pos.x (pos.y + dy) = true) →
      tryMove g pos dx dy = ⟨pos.x, pos.y + dy⟩) ∧
    (¬ (dy ≠ 0 ∧ IsValidMove g pos.x (pos.y + dy) = true) →
      (dx ≠ 0 ∧ IsValidMove g (pos.x + dx) pos.y = true) →
      tryMove g pos dx dy = ⟨pos.x + dx, pos.y⟩) ∧
    (¬ (dy ≠ 0 ∧ IsValidMove g pos.x (pos.y + dy) = true) →
      ¬ (dx ≠ 0 ∧ IsValidMove g (pos.x + dx) pos.y = true) →
      tryMove g pos dx dy = pos) := by
  unfold tryMove
  refine ⟨?_, ?_, ?_⟩
  · rintro ⟨h1, h2⟩
    simp [h1, h2]
  · intro hv ⟨h1, h2⟩
    by_cases hdy : dy ≠ 0
    · have hnv : ¬ IsValidMove g pos.x (pos.y + dy) = true := fun h => hv ⟨hdy, h⟩
      simp [hdy, hnv, h1, h2]
    · simp [hdy, h1, h2]
  · intro hv hh
    by_cases hdy : dy ≠ 0
    · have hnv : ¬ IsValidMove g pos.x (pos.y + dy) = true := fun h => hv ⟨hdy, h⟩
      by_cases hdx : dx ≠ 0
      · have hnh : ¬ IsValidMove g (pos.x + dx) pos.y = true := fun h => hh ⟨hdx, h⟩
        simp [hdy, hnv, hdx, hnh]
      · simp [hdy, hnv, hdx]
    · by_cases hdx : dx ≠ 0
      · have hnh : ¬ IsValidMove g (pos.x + dx) pos.y = true := fun h => hh ⟨hdx, h⟩
        simp [hdy, hdx, hnh]
      · simp [hdy, hdx]

/-- Without intents the move attempts leave the position. -/
theorem tryMove_zero (g : Grid) (pos : GridPos) : tryMove g pos 0 0 = pos := by
  simp [tryMove]

/-- The position after a player update whose cooldown has elapsed (player not frozen). -/
theorem UpdatePlayer_pos_permitted (bank : List Question) (inp : Input) (w : World)
    (hf : ¬ w.player.freezeTimer > 0)
    (hcd : w.player.moveTimer + inp.frameTime ≥
      (if inp.shift = true ∧ w.player.stamina > 0 then (3 / 50 : ℚ) else 3 / 25)) :
    (UpdatePlayer bank inp w).player.pos
      = tryMove w.gameGrid w.player.pos (inputDx inp) (inputDy inp) := by
  rw [UpdatePlayer_player bank inp w hf, movePlayer_pos]
  by_cases hd : inputDx inp ≠ 0 ∨ inputDy inp ≠ 0
  · rw [if_pos ⟨hcd, hd⟩]
  · rw [if_neg (fun h => hd h.2)]
    have hx : inputDx inp = 0 := by
      by_contra h; exact hd (Or.inl h)
    have hy : inputDy inp = 0 := by
      by_contra h; exact hd (Or.inr h)
    rw [hx, hy, tryMove_zero]

/-- The position after any player update is the old one or the result of the move attempts. -/
theorem UpdatePlayer_pos_cases (bank : List Question) (inp : Input) (w : World) :
    (UpdatePlayer bank inp w).player.pos = w.player.pos ∨
    (UpdatePlayer bank inp w).player.pos
      = tryMove w.gameGrid w.player.pos (inputDx inp) (inputDy inp) := by
  by_cases hf : w.player.freezeTimer > 0
  · left
    rw [UpdatePlayer_frozen bank inp w hf]
  · rw [UpdatePlayer_player bank inp w hf, movePlayer_pos]
    split_ifs <;> first | exact Or.inr rfl | exact Or.inl rfl

/-- C12: on a permitted player update (not frozen, accumulated cooldown >= move-delay): if a
vertical intent is present and its target cell is walkable, the player moves exactly one cell
vertically and no horizontal move happens; otherwise, if a horizontal intent is present and its
target cell is walkable, the player moves exactly one cell horizontally; otherwise the position
is unchanged.  And for every player update whatsoever the position changes in at most one
coordinate and by at most 1. -/
theorem C12_one_step_vertical_first :
    (∀ (bank : List Question) (inp : Input) (w : World),
      ¬ w.player.freezeTimer > 0 →
      w.player.moveTimer + inp.frameTime ≥
        (if inp.shift = true ∧ w.player.stamina > 0 then (3 / 50 : ℚ) else 3 / 25) →
      (((inp.up = true ∨ inp.down = true) ∧
          IsValidMove w.gameGrid w.player.pos.x (w.player.pos.y + inputDy inp) = true →
        (UpdatePlayer bank inp w).player.pos = ⟨w.player.pos.x, w.player.pos.y + inputDy inp⟩ ∧
          (inputDy inp = 1 ∨ inputDy inp = -1)) ∧
       (¬ ((inp.up = true ∨ inp.down = true) ∧
            IsValidMove w.gameGrid w.player.pos.x (w.player.pos.y + inputDy inp) = true) →
          (inp.left = true ∨ inp.right = true) ∧
            IsValidMove w.gameGrid (w.player.pos.x + inputDx inp) w.player.pos.y = true →
        (UpdatePlayer bank inp w).player.pos = ⟨w.player.pos.x + inputDx inp, w.player.pos.y⟩ ∧
          (inputDx inp = 1 ∨ inputDx inp = -1)) ∧
       (¬ ((inp.up = true ∨ inp.down = true) ∧
            IsValidMove w.gameGrid w.player.pos.x (w.player.pos.y + inputDy inp) = true) →
          ¬ ((inp.left = true ∨ inp.right = true) ∧
            IsValidMove w.gameGrid (w.player.pos.x + inputDx inp) w.player.pos.y = true) →
        (UpdatePlayer bank inp w).player.pos = w.player.pos))) ∧
    (∀ (bank : List Question) (inp : Input) (w : World),
      ((UpdatePlayer bank inp w).player.pos.x = w.player.pos.x ∧
        ((UpdatePlayer bank inp w).player.pos.y = w.player.pos.y ∨
         (UpdatePlayer bank inp w).player.pos.y = w.player.pos.y + 1 ∨
         (UpdatePlayer bank inp w).player.pos.y = w.player.pos.y - 1)) ∨
      ((UpdatePlayer bank inp w).player.pos.y = w.player.pos.y ∧
        ((UpdatePlayer bank inp w).player.pos.x = w.player.pos.x + 1 ∨
         (UpdatePlayer bank inp w).player.pos.x = w.player.pos.x - 1))) := by
  constructor
  · intro bank inp w hf hcd
    rw [UpdatePlayer_pos_permitted bank inp w hf hcd]
    obtain ⟨h1, h2, h3⟩ :=
      tryMove_spec w.gameGrid w.player.pos (inputDx inp) (inputDy inp)
    simp only [inputDx_ne_zero, inputDy_ne_zero] at h1 h2 h3
    refine ⟨?_, ?_, ?_⟩
    · intro hv
      refine ⟨h1 hv, ?_⟩
      have := (inputDy_ne_zero inp).2 hv.1
      rcases inputDy_cases inp with h | h | h
      · exact absurd h this
      · exact Or.inl h
      · exact Or.inr h
    · intro hnv hh
      refine ⟨h2 hnv hh, ?_⟩
      have := (inputDx_ne_zero inp).2 hh.1
      rcases inputDx_cases inp with h | h | h
      · exact absurd h this
      · exact Or.inl h
      · exact Or.inr h
    · intro hnv hnh
      exact h3 hnv hnh
  · intro bank inp w
    rcases UpdatePlayer_pos_cases bank inp w with h | h
    · rw [h]; exact Or.inl ⟨rfl, Or.inl rfl⟩
    · rw [h]
      obtain ⟨h1, h2, h3⟩ :=
        tryMove_spec w.gameGrid w.player.pos (inputDx inp) (inputDy inp)
      by_cases hv : inputDy inp ≠ 0 ∧
          IsValidMove w.gameGrid w.player.pos.x (w.player.pos.y + inputDy inp) = true
      · rw [h1 hv]
        left
        refine ⟨rfl, ?_⟩
        rcases inputDy_cases inp with h | h | h
        · exact absurd h hv.1
        · right; left; simp only [h]
        · right; right; simp only [h]; omega
      · by_cases hh : inputDx inp ≠ 0 ∧
            IsValidMove w.gameGrid (w.player.pos.x + inputDx inp) w.player.pos.y = true
        · rw [h2 hv hh]
          right
          refine ⟨rfl, ?_⟩
          rcases inputDx_cases inp with h | h | h
          · exact absurd h hh.1
          · left; simp only [h]
          · right; simp only [h]; omega
        · rw [h3 hv hh]
          exact Or.inl ⟨rfl, Or.inl rfl⟩

/-- C12, instance: in `chaseWorld` (grid without walls, player at (5,2)) half a second with the
up key held moves the player one cell up, to (5,1). -/
theorem C12_one_step_vertical_first_witness :
    (UpdatePlayer questionBank upInput chaseWorld).player.pos = ⟨5, 1⟩ :=
  ((C12_one_step_vertical_first.1 questionBank upInput chaseWorld
    (by norm_num [chaseWorld, playerAt])
    (by norm_num [chaseWorld, playerAt, upInput, idleInput])).1
    ⟨Or.inl rfl, by decide⟩).1

/-- The scan of the bonus-trigger loop finds a match exactly when the cell is in the list. -/
theorem any_samePos_left (l : List GridPos) (p : GridPos) :
    (l.any (fun n => samePos p n)) = true ↔ p ∈ l := by
  simp only [List.any_eq_true, samePos_iff]
  constructor
  · rintro ⟨x, hx, rfl⟩; exact hx
  · intro h; exact ⟨p, h, rfl⟩

/-- The player update of a player that is not frozen and ends on the cell of a bonus-trigger. -/
theorem UpdatePlayer_pick (bank : List Question) (inp : Input) (w : World)
    (hf : ¬ w.player.freezeTimer > 0)
    (hn : (movePlayer inp w.gameGrid w.player).pos ∈ w.nuggets) :
    UpdatePlayer bank inp w =
      { w with
        player := movePlayer inp w.gameGrid w.player
        diamonds := eraseFirst (movePlayer inp w.gameGrid w.player).pos w.diamonds
        nuggets := eraseFirst (movePlayer inp w.gameGrid w.player).pos w.nuggets
        questionIndices := (Draw bank inp.deckOrder inp.randSample w.questionIndices).2
        currentQuestion :=
          bank.getD (Draw bank inp.deckOrder inp.randSample w.questionIndices).1 w.currentQuestion
        currentState := GameState.QUIZ } := by
  unfold UpdatePlayer
  simp only [if_neg hf]
  rw [if_pos ((any_samePos_left _ _).2 hn)]

/-- The player update of a player that is not frozen and does not end on a bonus-trigger. -/
theorem UpdatePlayer_nopick (bank : List Question) (inp : Input) (w : World)
    (hf : ¬ w.player.freezeTimer > 0)
    (hn : (movePlayer inp w.gameGrid w.player).pos ∉ w.nuggets) :
    UpdatePlayer bank inp w =
      { w with
        player := movePlayer inp w.gameGrid w.player
        diamonds := eraseFirst (movePlayer inp w.gameGrid w.player).pos w.diamonds
        currentState :=
          if tileAt w.gameGrid (movePlayer inp w.gameGrid w.player).pos.x
              (movePlayer inp w.gameGrid w.player).pos.y = TileType.TILE_EXIT then
            if w.diamonds.isEmpty then GameState.VICTORY else w.currentState
          else w.currentState } := by
  unfold UpdatePlayer
  simp only [if_neg hf]
  rw [if_neg (fun h => hn ((any_samePos_left _ _).1 h))]

/-- C13: for every non-frozen player update from mode Playing: if the player's post-movement
cell is the Exit, the collectible set is empty and no bonus-trigger lies on that cell, the mode
after the update is Victory; if at least one collectible remains when the exit test runs, the
update does not set Victory: the mode stays Playing, unless a bonus-trigger lies on the
post-movement cell, in which case it is Quiz. -/
theorem C13_exit_victory (bank : List Question) (inp : Input) (w : World)
    (hf : ¬ w.player.freezeTimer > 0) (hplay : w.currentState = GameState.PLAYING) :
    (tileAt w.gameGrid (UpdatePlayer bank inp w).player.pos.x
          (UpdatePlayer bank inp w).player.pos.y = TileType.TILE_EXIT →
        w.diamonds = [] →
        (UpdatePlayer bank inp w).player.pos ∉ w.nuggets →
        (UpdatePlayer bank inp w).currentState = GameState.VICTORY) ∧
    (w.diamonds ≠ [] →
        (UpdatePlayer bank inp w).currentState ≠ GameState.VICTORY ∧
        ((UpdatePlayer bank inp w).player.pos ∉ w.nuggets →
          (UpdatePlayer bank inp w).currentState = GameState.PLAYING) ∧
        ((UpdatePlayer bank inp w).player.pos ∈ w.nuggets →
          (UpdatePlayer bank inp w).currentState = GameState.QUIZ)) := by
  rw [UpdatePlayer_player bank inp w hf]
  constructor
  · intro hexit hd hn
    rw [UpdatePlayer_nopick bank inp w hf hn]
    simp only [hexit, if_true, hd, List.isEmpty_nil]
  · intro hd
    have hne : w.diamonds.isEmpty = false := by simpa using hd
    have hno : (movePlayer inp w.gameGrid w.player).pos ∉ w.nuggets →
        (UpdatePlayer bank inp w).currentState = GameState.PLAYING := by
      intro hn
      rw [UpdatePlayer_nopick bank inp w hf hn]
      simp [hne, hplay]
    have hyes : (movePlayer inp w.gameGrid w.player).pos ∈ w.nuggets →
        (UpdatePlayer bank inp w).currentState = GameState.QUIZ := by
      intro hn
      rw [UpdatePlayer_pick bank inp w hf hn]
    refine ⟨?_, hno, hyes⟩
    by_cases hn : (movePlayer inp w.gameGrid w.player).pos ∈ w.nuggets
    · rw [hyes hn]; decide
    · rw [hno hn]; decide

/-- Half a second with the right key held takes the player of `exitWorld` onto the Exit. -/
theorem exitWorld_pos (diamonds : List GridPos) :
    (UpdatePlayer questionBank rightInput (exitWorld diamonds)).player.pos = ⟨18, 13⟩ := by
  rw [UpdatePlayer_pos_permitted _ _ _ (by norm_num [exitWorld, playerAt])
    (by norm_num [exitWorld, playerAt, rightInput, idleInput])]
  show tryMove (loadGrid LEVEL_LAYOUT) ⟨17, 13⟩ (inputDx rightInput) (inputDy rightInput) = _
  decide

/-- C13, instance: stepping onto the Exit (18,13) of the loaded grid gives Victory when no
collectible is left, and leaves the mode Playing when the collectible (2,1) is left. -/
theorem C13_exit_victory_witness :
    (UpdatePlayer questionBank rightInput (exitWorld [])).currentState = GameState.VICTORY ∧
    (UpdatePlayer questionBank rightInput (exitWorld [⟨2, 1⟩])).currentState
      = GameState.PLAYING :=
  ⟨(C13_exit_victory questionBank rightInput (exitWorld [])
      (by norm_num [exitWorld, playerAt]) rfl).1
      (by rw [exitWorld_pos]; decide) rfl (List.not_mem_nil _),
   ((C13_exit_victory questionBank rightInput (exitWorld [⟨2, 1⟩])
      (by norm_num [exitWorld, playerAt]) rfl).2 (by decide)).2.1 (List.not_mem_nil _)⟩

/-- The erase loop leaves a list without a match as it is. -/
theorem eraseFirst_not_mem (p : GridPos) (l : List GridPos) (h : p ∉ l) :
    eraseFirst p l = l := by
  induction l with
  | nil => rfl
  | cons d ds ih =>
    have hne : ¬ samePos p d = true := fun hs =>
      h (by rw [(samePos_iff p d).1 hs]; exact List.mem_cons_self _ _)
    rw [eraseFirst, if_neg hne, ih (fun hm => h (List.mem_cons_of_mem _ hm))]

/-- The erase loop removes the first match and nothing else. -/
theorem eraseFirst_mem (p : GridPos) (l : List GridPos) (h : p ∈ l) :
    ∃ l1 l2, l = l1 ++ p :: l2 ∧ p ∉ l1 ∧ eraseFirst p l = l1 ++ l2 := by
  induction l with
  | nil => simp at h
  | cons d ds ih =>
    by_cases hs : samePos p d = true
    · have hpd : p = d := (samePos_iff p d).1 hs
      exact ⟨[], ds, by rw [hpd]; rfl, List.not_mem_nil _, by rw [eraseFirst, if_pos hs]; rfl⟩
    · have hpd : p ≠ d := fun he => hs ((samePos_iff p d).2 he)
      have hm : p ∈ ds := by
        rcases List.mem_cons.1 h with h1 | h1
        · exact absurd h1 hpd
        · exact h1
      obtain ⟨l1, l2, hl, hn1, he⟩ := ih hm
      refine ⟨d :: l1, l2, by rw [hl]; rfl, ?_, by rw [eraseFirst, if_neg hs, he]; rfl⟩
      intro hmem
      rcases List.mem_cons.1 hmem with h1 | h1
      · exact hpd h1
      · exact hn1 h1

/-- The draw from an order (the freshly shuffled one when the order was empty) that ends with
`idx`. -/
theorem Draw_of_concat (bank : List Question) (order : List Nat) (r : Nat) (qi rest : List Nat)
    (idx : Nat)
    (h : (if qi = [] then ShuffleQuestions bank order r else qi) = rest ++ [idx]) :
    Draw bank order r qi = (idx, rest) := by
  unfold Draw
  have hq : (if qi.isEmpty = true then ShuffleQuestions bank order r else qi) = rest ++ [idx] := by
    rw [← h]
    by_cases he : qi = []
    · simp [he]
    · simp [he]
  simp only [hq, List.getLastD_concat, List.dropLast_concat]

/-- C14: for every non-frozen player update in which the player's post-movement cell is the cell
of some active bonus-trigger: the mode becomes Quiz; the first bonus-trigger on that cell is
removed from the active set and the others stay in their order; and when the draw order (the
freshly shuffled order when the order was empty) ends with `idx`, that index is removed from the
draw order and the current question becomes the bank entry of index `idx`. -/
theorem C14_bonus_pickup (bank : List Question) (inp : Input) (w : World)
    (hf : ¬ w.player.freezeTimer > 0)
    (hn : (UpdatePlayer bank inp w).player.pos ∈ w.nuggets) :
    (UpdatePlayer bank inp w).currentState = GameState.QUIZ ∧
    (∃ l1 l2, w.nuggets = l1 ++ (UpdatePlayer bank inp w).player.pos :: l2 ∧
      (UpdatePlayer bank inp w).player.pos ∉ l1 ∧
      (UpdatePlayer bank inp w).nuggets = l1 ++ l2) ∧
    (∀ (rest : List Nat) (idx : Nat),
      (if w.questionIndices = [] then ShuffleQuestions bank inp.deckOrder inp.randSample
        else w.questionIndices) = rest ++ [idx] →
      (UpdatePlayer bank inp w).questionIndices = rest ∧
      (∀ q, bank[idx]? = some q → (UpdatePlayer bank inp w).currentQuestion = q)) := by
  rw [UpdatePlayer_player bank inp w hf] at hn
  rw [UpdatePlayer_pick bank inp w hf hn]
  refine ⟨rfl, eraseFirst_mem _ _ hn, ?_⟩
  intro rest idx hq
  have hD := Draw_of_concat bank inp.deckOrder inp.randSample w.questionIndices rest idx hq
  show (Draw bank inp.deckOrder inp.randSample w.questionIndices).2 = rest ∧
    ∀ q, bank[idx]? = some q →
      bank.getD (Draw bank inp.deckOrder inp.randSample w.questionIndices).1 w.currentQuestion = q
  rw [hD]
  exact ⟨rfl, fun q hget => by simp [hget]⟩

/-- Half a second with the up key held takes the player of `quizWorld` onto (5,1). -/
theorem quizWorld_pos :
    (UpdatePlayer questionBank upInput quizWorld).player.pos = ⟨5, 1⟩ := by
  rw [UpdatePlayer_pos_permitted _ _ _ (by norm_num [quizWorld, playerAt])
    (by norm_num [quizWorld, playerAt, upInput, idleInput])]
  decide

/-- C14, instance: in `quizWorld` the player steps up onto the bonus-trigger (5,1); the mode
becomes Quiz, the draw order `[3, 0]` becomes `[3]` and the current question is entry 0 of the
bank. -/
theorem C14_bonus_pickup_witness :
    (UpdatePlayer questionBank upInput quizWorld).currentState = GameState.QUIZ ∧
    (UpdatePlayer questionBank upInput quizWorld).questionIndices = [3] ∧
    (UpdatePlayer questionBank upInput quizWorld).currentQuestion =
      ⟨"Who is the best Computer programing Professor?", "Jaudat Mamoon", "David Malan",
        "Andrew Ng", 0⟩ :=
  ⟨(C14_bonus_pickup questionBank upInput quizWorld (by norm_num [quizWorld, playerAt])
      (by rw [quizWorld_pos]; decide)).1,
   ((C14_bonus_pickup questionBank upInput quizWorld (by norm_num [quizWorld, playerAt])
      (by rw [quizWorld_pos]; decide)).2.2 [3] 0 rfl).1,
   ((C14_bonus_pickup questionBank upInput quizWorld (by norm_num [quizWorld, playerAt])
      (by rw [quizWorld_pos]; decide)).2.2 [3] 0 rfl).2 _ rfl⟩

/-- The erase loop never adds an element. -/
theorem eraseFirst_sublist (p : GridPos) (l : List GridPos) : (eraseFirst p l).Sublist l := by
  induction l with
  | nil => exact List.Sublist.refl _
  | cons d ds ih =>
    rw [eraseFirst]
    split_ifs
    · exact List.sublist_cons_self d ds
    · exact ih.cons₂ d

/-- After the erase loop a duplicate-free list no longer holds the cell. -/
theorem eraseFirst_not_mem_self (p : GridPos) (l : List GridPos) (h : l.Nodup) :
    p ∉ eraseFirst p l := by
  by_cases hm : p ∈ l
  · obtain ⟨l1, l2, hl, hn1, he⟩ := eraseFirst_mem p l hm
    rw [he]
    rw [hl] at h
    have h2 : p ∉ l2 := (List.nodup_cons.1 (List.nodup_append.1 h).2.1).1
    intro hmem
    rcases List.mem_append.1 hmem with h' | h'
    · exact hn1 h'
    · exact h2 h'
  · rw [eraseFirst_not_mem p l hm]
    exact hm

/-- The two pickup lists after the player update of a player that is not frozen. -/
theorem UpdatePlayer_lists (bank : List Question) (inp : Input) (w : World)
    (hf : ¬ w.player.freezeTimer > 0) :
    (UpdatePlayer bank inp w).diamonds
        = eraseFirst (UpdatePlayer bank inp w).player.pos w.diamonds ∧
    (UpdatePlayer bank inp w).nuggets
        = eraseFirst (UpdatePlayer bank inp w).player.pos w.nuggets := by
  rw [UpdatePlayer_player bank inp w hf]
  by_cases hn : (movePlayer inp w.gameGrid w.player).pos ∈ w.nuggets
  · rw [UpdatePlayer_pick bank inp w hf hn]
    exact ⟨rfl, rfl⟩
  · rw [UpdatePlayer_nopick bank inp w hf hn, eraseFirst_not_mem _ _ hn]
    exact ⟨rfl, rfl⟩

/-- The pursuer update touches neither the player nor the pickup lists. -/
theorem UpdateEnemies_frame (inp : Input) (w : World) :
    (UpdateEnemies inp w).player = w.player ∧ (UpdateEnemies inp w).diamonds = w.diamonds ∧
    (UpdateEnemies inp w).nuggets = w.nuggets ∧ (UpdateEnemies inp w).gameGrid = w.gameGrid :=
  ⟨rfl, rfl, rfl, rfl⟩

/-- The quiz answer touches neither the player's cell nor the pickup lists. -/
theorem answerQuiz_frame (choice : Int) (w : World) :
    (answerQuiz choice w).player.pos = w.player.pos ∧
    (answerQuiz choice w).diamonds = w.diamonds ∧
    (answerQuiz choice w).nuggets = w.nuggets := by
  unfold answerQuiz
  split_ifs <;> exact ⟨rfl, rfl, rfl⟩

/-- In every reachable state the pickup lists are duplicate-free and the player stands on none of
their cells: a pickup on the player's cell is taken by the very update that moved the player
there. -/
theorem reachable_pickups_clear (RAND_MAX : Nat) (bank : List Question) (w : World)
    (hr : PlayReachable RAND_MAX bank w) :
    w.diamonds.Nodup ∧ w.nuggets.Nodup ∧ w.player.pos ∉ w.diamonds ∧
      w.player.pos ∉ w.nuggets := by
  induction hr with
  | reset order rands w w1 h =>
    unfold ResetGame at h
    obtain ⟨_, _, _, _, _, _, _, hnd, hne, _⟩ := LoadLevel_spec _ _ _ _ _ _ h
    have hnd2 := List.nodup_append.1 hnd
    refine ⟨hnd2.1, hnd2.2.1, ?_, ?_⟩
    · intro hm
      exact (hne _ (List.mem_append_left _ hm)).1 rfl
    · intro hm
      exact (hne _ (List.mem_append_right _ hm)).1 rfl
  | player inp w _ _ ih =>
    obtain ⟨hd, hn, hpd, hpn⟩ := ih
    by_cases hf : w.player.freezeTimer > 0
    · rw [UpdatePlayer_frozen bank inp w hf]
      exact ⟨hd, hn, hpd, hpn⟩
    · obtain ⟨h1, h2⟩ := UpdatePlayer_lists bank inp w hf
      rw [h1, h2]
      exact ⟨hd.sublist (eraseFirst_sublist _ _), hn.sublist (eraseFirst_sublist _ _),
        eraseFirst_not_mem_self _ _ hd, eraseFirst_not_mem_self _ _ hn⟩
  | enemies inp w _ ih => exact ih
  | answer choice w _ ih =>
    obtain ⟨h1, h2, h3⟩ := answerQuiz_frame choice w
    rw [h1, h2, h3]
    exact ih

/-- C15: every player update removes from the collectible list exactly the first element equal
to the player's post-movement cell (nothing when there is none) and from the bonus-trigger list
exactly the first such element (nothing when there is none), all other elements remaining in
their order: this holds for every update of a player that is not frozen, and for every update
(frozen or not) in a state reachable by reset, player updates, pursuer updates and quiz answers.
Neither the player update nor the pursuer update ever adds an element to either list. -/
theorem C15_single_removal :
    (∀ (bank : List Question) (inp : Input) (w : World), ¬ w.player.freezeTimer > 0 →
      (UpdatePlayer bank inp w).diamonds
          = eraseFirst (UpdatePlayer bank inp w).player.pos w.diamonds ∧
      (UpdatePlayer bank inp w).nuggets
          = eraseFirst (UpdatePlayer bank inp w).player.pos w.nuggets) ∧
    (∀ (RAND_MAX : Nat) (bank : List Question) (inp : Input) (w : World),
      PlayReachable RAND_MAX bank w →
      (UpdatePlayer bank inp w).diamonds
          = eraseFirst (UpdatePlayer bank inp w).player.pos w.diamonds ∧
      (UpdatePlayer bank inp w).nuggets
          = eraseFirst (UpdatePlayer bank inp w).player.pos w.nuggets) ∧
    (∀ (p : GridPos) (l : List GridPos),
      (p ∉ l → eraseFirst p l = l) ∧
      (p ∈ l → ∃ l1 l2, l = l1 ++ p :: l2 ∧ p ∉ l1 ∧ eraseFirst p l = l1 ++ l2)) ∧
    (∀ (bank : List Question) (inp : Input) (w : World),
      (UpdatePlayer bank inp w).diamonds.Sublist w.diamonds ∧
      (UpdatePlayer bank inp w).nuggets.Sublist w.nuggets) ∧
    (∀ (inp : Input) (w : World),
      (UpdateEnemies inp w).diamonds = w.diamonds ∧
      (UpdateEnemies inp w).nuggets = w.nuggets) := by
  refine ⟨UpdatePlayer_lists, ?_, ?_, ?_, ?_⟩
  · intro R bank inp w hr
    by_cases hf : w.player.freezeTimer > 0
    · obtain ⟨_, _, hpd, hpn⟩ := reachable_pickups_clear R bank w hr
      rw [UpdatePlayer_frozen bank inp w hf]
      exact ⟨(eraseFirst_not_mem _ _ hpd).symm, (eraseFirst_not_mem _ _ hpn).symm⟩
    · exact UpdatePlayer_lists bank inp w hf
  · intro p l
    exact ⟨eraseFirst_not_mem p l, eraseFirst_mem p l⟩
  · intro bank inp w
    by_cases hf : w.player.freezeTimer > 0
    · rw [UpdatePlayer_frozen bank inp w hf]
      exact ⟨List.Sublist.refl _, List.Sublist.refl _⟩
    · obtain ⟨h1, h2⟩ := UpdatePlayer_lists bank inp w hf
      rw [h1, h2]
      exact ⟨eraseFirst_sublist _ _, eraseFirst_sublist _ _⟩
  · intro inp w
    exact ⟨rfl, rfl⟩

/-- C15, instance: in `quizWorld` the step up onto (5,1) removes the second bonus-trigger, the
first one on that cell, and leaves (9,9). -/
theorem C15_single_removal_witness :
    (UpdatePlayer questionBank upInput quizWorld).nuggets
      = eraseFirst (UpdatePlayer questionBank upInput quizWorld).player.pos quizWorld.nuggets ∧
    eraseFirst ⟨5, 1⟩ quizWorld.nuggets = [⟨9, 9⟩] :=
  ⟨(C15_single_removal.1 questionBank upInput quizWorld (by norm_num [quizWorld, playerAt])).2,
   by decide⟩

/-- One iteration of the pursuer loop in which the step fires or not. -/
theorem updateEnemy_step (g : Grid) (player : Player) (dt : ℚ) (order : List Nat)
    (st : GameState) (enemy : Enemy) :
    (enemy.moveTimer + dt ≥
        (if st = GameState.FROZEN then enemy.speed * (1 / 2) else enemy.speed) →
      (updateEnemy g player dt order st enemy).1 =
        { pos := enemyMove g player order enemy.pos, moveTimer := 0, speed := enemy.speed }) ∧
    (¬ enemy.moveTimer + dt ≥
        (if st = GameState.FROZEN then enemy.speed * (1 / 2) else enemy.speed) →
      (updateEnemy g player dt order st enemy).1 =
        { pos := enemy.pos, moveTimer := enemy.moveTimer + dt, speed := enemy.speed }) := by
  constructor
  · intro h
    exact updateEnemy_fires g player dt order st enemy h
  · intro h
    unfold updateEnemy
    simp only [if_neg h]

/-- Loop invariant of the direction loop when the player is invisible: the loop breaks on the
first walkable candidate, and ends without a move when there is none. -/
theorem scanMoves_invisible (g : Grid) (player : Player) (epos : GridPos)
    (hinv : player.invisibleTimer > 0) (l : List Nat) :
    ∀ (best : GridPos) (md : Int),
      ((∀ i ∈ l, walkable g (neighbour epos i) = false) ∧
        (scanMoves g player epos l best md).1 = none) ∨
      (∃ l1 i l2, l = l1 ++ i :: l2 ∧ walkable g (neighbour epos i) = true ∧
        (∀ j ∈ l1, walkable g (neighbour epos j) = false) ∧
        (scanMoves g player epos l best md).1 = some (neighbour epos i)) := by
  induction l with
  | nil =>
    intro best md
    exact Or.inl ⟨by simp, rfl⟩
  | cons i rest ih =>
    intro best md
    by_cases hw : walkable g (neighbour epos i) = true
    · right
      refine ⟨[], i, rest, rfl, hw, by simp, ?_⟩
      rw [scanMoves]
      simp only [hw, if_true, if_pos hinv]
    · have hwf : walkable g (neighbour epos i) = false := by simpa using hw
      have hstep : scanMoves g player epos (i :: rest) best md
          = scanMoves g player epos rest best md := by
        rw [scanMoves]
        simp only [hw]
        rfl
      rw [hstep]
      rcases ih best md with ⟨hall, hnone⟩ | ⟨l1, k, l2, hl, hwk, hl1, hs⟩
      · left
        refine ⟨?_, hnone⟩
        intro j hj
        rcases List.mem_cons.1 hj with rfl | hj
        · exact hwf
        · exact hall j hj
      · right
        refine ⟨i :: l1, k, l2, by rw [hl]; rfl, hwk, ?_, hs⟩
        intro j hj
        rcases List.mem_cons.1 hj with rfl | hj
        · exact hwf
        · exact hl1 j hj

/-- A shuffle of the four direction indices is the list of its source positions. -/
theorem stdShuffle_indices (order : List Nat) (hperm : order.Perm [0, 1, 2, 3]) :
    stdShuffle order [0, 1, 2, 3] = order := by
  have h4 : ([0, 1, 2, 3] : List Nat) = List.range 4 := by decide
  rw [h4] at hperm ⊢
  exact stdShuffle_range order 4 (fun k hk => List.mem_range.1 (hperm.mem_iff.1 hk))

/-- In evasion-blind mode the pursuer goes to the first walkable neighbour in the shuffled order,
or stays when there is none. -/
theorem enemyMove_invisible (g : Grid) (player : Player) (order : List Nat) (epos : GridPos)
    (hinv : player.invisibleTimer > 0) (hperm : order.Perm [0, 1, 2, 3]) :
    ((∀ i, i < 4 → walkable g (neighbour epos i) = false) ∧
      enemyMove g player order epos = epos) ∨
    (∃ l1 i l2, order = l1 ++ i :: l2 ∧ i < 4 ∧ walkable g (neighbour epos i) = true ∧
      (∀ j ∈ l1, walkable g (neighbour epos j) = false) ∧
      enemyMove g player order epos = neighbour epos i) := by
  have hmem : ∀ i, i ∈ order ↔ i < 4 := by
    intro i
    rw [hperm.mem_iff]
    simp only [List.mem_cons, List.mem_singleton, List.mem_nil_iff, or_false]
    constructor
    · rintro (h | h | h | h) <;> omega
    · intro h
      omega
  unfold enemyMove
  simp only [if_pos hinv, stdShuffle_indices order hperm]
  rcases scanMoves_invisible g player epos hinv order epos 9999 with
    ⟨hall, hnone⟩ | ⟨l1, i, l2, hl, hwi, hl1, hs⟩
  · left
    refine ⟨fun i hi => hall i ((hmem i).2 hi), ?_⟩
    rw [hnone]
    simp only [if_neg (not_le.2 hinv)]
  · right
    refine ⟨l1, i, l2, hl, (hmem i).1 (by rw [hl]; simp), hwi, hl1, ?_⟩
    rw [hs]

/-- C17: in evasion-blind mode (invisibility-remaining > 0), for every grid, every pursuer whose
step fires and every permutation `order` of the four directions the shuffle may produce: the
pursuer moves to the first walkable neighbour in that order (whatever the distances to the
player), and stays where it is when no neighbour is walkable; so its new cell is a walkable
neighbour or its old cell, and is walkable whenever the old cell was. -/
theorem C17_blind_first_walkable (g : Grid) (player : Player) (dt : ℚ) (order : List Nat)
    (st : GameState) (enemy : Enemy)
    (hinv : player.invisibleTimer > 0) (hperm : order.Perm [0, 1, 2, 3])
    (hfire : enemy.moveTimer + dt ≥
      (if st = GameState.FROZEN then enemy.speed * (1 / 2) else enemy.speed)) :
    (((∀ i, i < 4 → walkable g (neighbour enemy.pos i) = false) ∧
        (updateEnemy g player dt order st enemy).1.pos = enemy.pos) ∨
      (∃ l1 i l2, order = l1 ++ i :: l2 ∧ i < 4 ∧
        walkable g (neighbour enemy.pos i) = true ∧
        (∀ j ∈ l1, walkable g (neighbour enemy.pos j) = false) ∧
        (updateEnemy g player dt order st enemy).1.pos = neighbour enemy.pos i)) ∧
    (walkable g enemy.pos = true →
      walkable g (updateEnemy g player dt order st enemy).1.pos = true) := by
  rw [updateEnemy_fires g player dt order st enemy hfire]
  have h := enemyMove_invisible g player order enemy.pos hinv hperm
  refine ⟨h, ?_⟩
  intro hw
  rcases h with ⟨_, he⟩ | ⟨l1, i, l2, _, _, hwi, _, he⟩
  · show walkable g (enemyMove g player order enemy.pos) = true
    rw [he]; exact hw
  · show walkable g (enemyMove g player order enemy.pos) = true
    rw [he]; exact hwi

/-- C17, instance: in the loaded level a pursuer at (8,1) whose step fires while the player is
invisible, with the shuffled order left, up, right, down: its new cell is walkable. -/
theorem C17_blind_first_walkable_witness :
    walkable (loadGrid LEVEL_LAYOUT)
      (updateEnemy (loadGrid LEVEL_LAYOUT) (ghostAt ⟨1, 1⟩) (1 / 2) [2, 0, 3, 1]
        GameState.PLAYING ⟨⟨8, 1⟩, 0, 1 / 2⟩).1.pos = true :=
  (C17_blind_first_walkable (loadGrid LEVEL_LAYOUT) (ghostAt ⟨1, 1⟩) (1 / 2) [2, 0, 3, 1]
    GameState.PLAYING ⟨⟨8, 1⟩, 0, 1 / 2⟩ (by norm_num [ghostAt]) (by decide)
    (by rw [if_neg (by decide)]; norm_num)).2 (by decide)

/-! ## Ticks of the main loop -/

/-- In mode Playing or Frozen an iteration of the main loop is one tick. -/
theorem mainStep_tick (RAND_MAX : Nat) (bank : List Question) (inp : Input) (w : World)
    (h : w.currentState = GameState.PLAYING ∨ w.currentState = GameState.FROZEN) :
    mainStep RAND_MAX bank inp w = some (tick bank inp w) := by
  unfold mainStep tick
  rcases h with h | h <;> rw [h]

/-- The player record after a tick is the one the player update left. -/
theorem tick_player (bank : List Question) (inp : Input) (w : World) :
    (tick bank inp w).player = (UpdatePlayer bank inp w).player := rfl

/-- The mode after a tick at whose end no pursuer is on the player's cell is the mode the player
update left. -/
theorem tick_state_of_clear (bank : List Question) (inp : Input) (w : World)
    (hc : (tick bank inp w).enemies.all
      (fun e => !samePos e.pos (tick bank inp w).player.pos) = true) :
    (tick bank inp w).currentState = (UpdatePlayer bank inp w).currentState := by
  have h := enemiesLoop_state (UpdatePlayer bank inp w).gameGrid (UpdatePlayer bank inp w).player
    inp.frameTime inp.enemyOrder (UpdatePlayer bank inp w).enemies 0
    (UpdatePlayer bank inp w).currentState
  show (enemiesLoop _ _ _ _ 0 _ _).2 = _
  rw [h, if_neg]
  rintro ⟨⟨e, he, hp⟩, _⟩
  rw [List.all_eq_true] at hc
  have hce := hc e he
  have hs : samePos e.pos (tick bank inp w).player.pos = true := (samePos_iff _ _).2 hp
  rw [hs] at hce
  exact absurd hce (by decide)

/-- The player update touches neither the pursuers nor the grid. -/
theorem UpdatePlayer_frame (bank : List Question) (inp : Input) (w : World) :
    (UpdatePlayer bank inp w).enemies = w.enemies ∧
    (UpdatePlayer bank inp w).gameGrid = w.gameGrid := by
  by_cases hf : w.player.freezeTimer > 0
  · rw [UpdatePlayer_frozen bank inp w hf]
    exact ⟨rfl, rfl⟩
  · by_cases hn : (movePlayer inp w.gameGrid w.player).pos ∈ w.nuggets
    · rw [UpdatePlayer_pick bank inp w hf hn]
      exact ⟨rfl, rfl⟩
    · rw [UpdatePlayer_nopick bank inp w hf hn]
      exact ⟨rfl, rfl⟩

/-- The level loader leaves the timers of the player as they are. -/
theorem LoadLevel_timers (R : Nat) (bank : List Question) (order rands : List Nat) (w w1 : World)
    (h : LoadLevel R bank order rands w = some w1) :
    w1.player.invisibleTimer = w.player.invisibleTimer ∧
    w1.player.freezeTimer = w.player.freezeTimer := by
  unfold LoadLevel at h
  simp only at h
  generalize loadGrid LEVEL_LAYOUT = g at h
  generalize spawnOf LEVEL_LAYOUT 0 w.player.pos = pp at h
  split at h
  · exact absurd h (by simp)
  · split at h
    · exact absurd h (by simp)
    · split at h
      · exact absurd h (by simp)
      · split at h
        · exact absurd h (by simp)
        · simp only [Option.some.injEq] at h
          subst h
          exact ⟨rfl, rfl⟩

/-- The reset sets both timers of the player to 0. -/
theorem ResetGame_timers (R : Nat) (bank : List Question) (order rands : List Nat) (w w1 : World)
    (h : ResetGame R bank order rands w = some w1) :
    w1.player.invisibleTimer = 0 ∧ w1.player.freezeTimer = 0 := by
  unfold ResetGame at h
  exact LoadLevel_timers _ _ _ _ _ _ h

set_option maxRecDepth 100000 in
/-- On `crowdedRands` the reset finishes from every state. -/
theorem ResetGame_crowded (w : World) :
    ResetGame 2147483647 questionBank [0, 1, 2, 3, 4, 5, 6, 7, 8] crowdedRands w =
      some { crowdedLevel with
        player := { pos := ⟨1, 1⟩, moveTimer := 0, invisibleTimer := 0, freezeTimer := 0,
                    stamina := 100 }
        currentState := GameState.PLAYING
        currentQuestion := w.currentQuestion } := by
  rfl

/-- Neither timer of the player increases over a tick of elapsed time >= 0. -/
theorem tick_timers_le (bank : List Question) (inp : Input) (w : World)
    (hdt : 0 ≤ inp.frameTime) :
    (tick bank inp w).player.invisibleTimer ≤ w.player.invisibleTimer ∧
    (tick bank inp w).player.freezeTimer ≤ w.player.freezeTimer := by
  rw [tick_player, UpdatePlayer_invisibleTimer, UpdatePlayer_freezeTimer]
  constructor
  · split_ifs <;> linarith
  · split_ifs <;> linarith

/-- A tick creates no pursuer. -/
theorem tick_enemies_nil (bank : List Question) (inp : Input) (w : World)
    (hw : w.enemies = []) : (tick bank inp w).enemies = [] := by
  show (enemiesLoop _ _ _ _ 0 _ (UpdatePlayer bank inp w).enemies).1 = []
  rw [(UpdatePlayer_frame bank inp w).1, hw]
  rfl

/-- The first tick of the run from `ghostExit`: the player steps onto the Exit, the mode becomes
Victory and invisibility-remaining is left at -1/4. -/
theorem ghostExit_tick :
    (tick questionBank rightInput ghostExit).currentState = GameState.VICTORY ∧
    (tick questionBank rightInput ghostExit).player.invisibleTimer = -(1 / 4) := by
  have hf : ¬ ghostExit.player.freezeTimer > 0 := by norm_num [ghostExit, ghostAt]
  have hpos : (movePlayer rightInput ghostExit.gameGrid ghostExit.player).pos = ⟨18, 13⟩ := by
    rw [← UpdatePlayer_player questionBank rightInput ghostExit hf,
      UpdatePlayer_pos_permitted _ _ _ hf
        (by norm_num [ghostExit, ghostAt, rightInput, idleInput])]
    show tryMove (loadGrid LEVEL_LAYOUT) ⟨17, 13⟩ (inputDx rightInput) (inputDy rightInput) = _
    decide
  have hn : (movePlayer rightInput ghostExit.gameGrid ghostExit.player).pos ∉ ghostExit.nuggets :=
    List.not_mem_nil _
  constructor
  · have hc : (tick questionBank rightInput ghostExit).enemies.all
        (fun e => !samePos e.pos (tick questionBank rightInput ghostExit).player.pos) = true := by
      rw [tick_enemies_nil questionBank rightInput ghostExit rfl]
      rfl
    rw [tick_state_of_clear _ _ _ hc, UpdatePlayer_nopick _ _ _ hf hn]
    simp only [hpos]
    decide
  · rw [tick_player, UpdatePlayer_invisibleTimer]
    norm_num [ghostExit, ghostAt, exitWorld, rightInput, idleInput]

/-- C19, as stated, fails on its last clause: the level reset raises a timer too.  From
`ghostExit` (invisible for another 1/4 s) a tick of half a second takes the player onto the Exit:
the mode is Victory and invisibility-remaining is -1/4 (the decrement is not clamped).  Enter
leads to the menu, Enter again runs `ResetGame`, and invisibility-remaining is 0 > -1/4, with no
quiz answer involved. -/
theorem C19_reset_raises_timer :
    ∃ w1 w3,
      mainStep 2147483647 questionBank rightInput ghostExit = some w1 ∧
      w1.player.invisibleTimer = -(1 / 4) ∧
      runMain 2147483647 questionBank [resetInput, resetInput] w1 = some w3 ∧
      w3.player.invisibleTimer = 0 ∧
      w1.player.invisibleTimer < w3.player.invisibleTimer := by
  obtain ⟨hv, hi⟩ := ghostExit_tick
  have h2 : mainStep 2147483647 questionBank resetInput
      (tick questionBank rightInput ghostExit)
      = some { tick questionBank rightInput ghostExit with currentState := GameState.MENU } := by
    unfold mainStep
    rw [hv]
    rfl
  have h3 : mainStep 2147483647 questionBank resetInput
      { tick questionBank rightInput ghostExit with currentState := GameState.MENU }
      = some { crowdedLevel with
          player := { pos := ⟨1, 1⟩, moveTimer := 0, invisibleTimer := 0, freezeTimer := 0,
                      stamina := 100 }
          currentState := GameState.PLAYING
          currentQuestion := (tick questionBank rightInput ghostExit).currentQuestion } := by
    unfold mainStep
    simp only
    have hr := ResetGame_crowded
      { tick questionBank rightInput ghostExit with currentState := GameState.MENU }
    have he : resetInput.enter = true := rfl
    have hk : resetInput.keyH = false := rfl
    have hd : resetInput.deckOrder = [0, 1, 2, 3, 4, 5, 6, 7, 8] := rfl
    have hra : resetInput.rands = crowdedRands := rfl
    rw [he, hd, hra, hk]
    simp only [if_true, hr]
    rfl
  have hrun : runMain 2147483647 questionBank [resetInput, resetInput]
      (tick questionBank rightInput ghostExit)
      = some { crowdedLevel with
          player := { pos := ⟨1, 1⟩, moveTimer := 0, invisibleTimer := 0, freezeTimer := 0,
                      stamina := 100 }
          currentState := GameState.PLAYING
          currentQuestion := (tick questionBank rightInput ghostExit).currentQuestion } := by
    rw [runMain, h2]
    simp only
    rw [runMain, h3]
    rfl
  have hlt : (tick questionBank rightInput ghostExit).player.invisibleTimer < 0 := by
    rw [hi]
    norm_num
  exact ⟨_, _, mainStep_tick _ _ _ _ (Or.inl rfl), hi, hrun, rfl, hlt⟩

/-- C19 (amended): for every elapsed time >= 0 and every input, one Playing or Frozen tick
(player update followed by pursuer update, which is what the main loop runs in these two modes)
never increases invisibility-remaining and never increases freeze-remaining.  A correct quiz
answer sets invisibility-remaining to 5 and a wrong one sets freeze-remaining to 3, each leaving
the other timer as it is; the level reset sets both timers to 0 (which raises a timer that a tick
had left negative); every other iteration of the main loop leaves the player record as it is. -/
theorem C19_timers_monotone :
    (∀ (bank : List Question) (inp : Input) (w : World), 0 ≤ inp.frameTime →
      (tick bank inp w).player.invisibleTimer ≤ w.player.invisibleTimer ∧
      (tick bank inp w).player.freezeTimer ≤ w.player.freezeTimer) ∧
    (∀ (RAND_MAX : Nat) (bank : List Question) (inp : Input) (w : World),
      (w.currentState = GameState.PLAYING ∨ w.currentState = GameState.FROZEN) →
      mainStep RAND_MAX bank inp w = some (tick bank inp w)) ∧
    (∀ (choice : Int) (w : World), choice ≠ -1 →
      (choice = w.currentQuestion.correctIndex →
        (answerQuiz choice w).player.invisibleTimer = 5 ∧
        (answerQuiz choice w).player.freezeTimer = w.player.freezeTimer) ∧
      (choice ≠ w.currentQuestion.correctIndex →
        (answerQuiz choice w).player.freezeTimer = 3 ∧
        (answerQuiz choice w).player.invisibleTimer = w.player.invisibleTimer)) ∧
    (∀ (w : World), answerQuiz (-1) w = w) ∧
    (∀ (RAND_MAX : Nat) (bank : List Question) (order rands : List Nat) (w w1 : World),
      ResetGame RAND_MAX bank order rands w = some w1 →
      w1.player.invisibleTimer = 0 ∧ w1.player.freezeTimer = 0) ∧
    (∀ (RAND_MAX : Nat) (bank : List Question) (inp : Input) (w w1 : World),
      mainStep RAND_MAX bank inp w = some w1 →
      (w.currentState = GameState.HELP ∨ w.currentState = GameState.GAME_OVER ∨
        w.currentState = GameState.VICTORY ∨
        (w.currentState = GameState.MENU ∧ inp.enter = false)) →
      w1.player = w.player) := by
  refine ⟨tick_timers_le, mainStep_tick, ?_, ?_, ResetGame_timers, ?_⟩
  · intro choice w hne
    constructor
    · intro heq
      unfold answerQuiz
      rw [if_pos hne, if_pos heq]
      exact ⟨rfl, rfl⟩
    · intro hneq
      unfold answerQuiz
      rw [if_pos hne, if_neg hneq]
      exact ⟨rfl, rfl⟩
  · intro w
    unfold answerQuiz
    simp
  · intro R bank inp w w1 h hst
    unfold mainStep at h
    rcases hst with hs | hs | hs | ⟨hs, he⟩
    · rw [hs] at h
      simp only [Option.some.injEq] at h
      rw [← h]
      split_ifs <;> rfl
    · rw [hs] at h
      simp only [Option.some.injEq] at h
      rw [← h]
      split_ifs <;> rfl
    · rw [hs] at h
      simp only [Option.some.injEq] at h
      rw [← h]
      split_ifs <;> rfl
    · rw [hs] at h
      simp only [he, Bool.false_eq_true, if_false, Option.some.injEq] at h
      rw [← h]
      split_ifs <;> rfl

/-- C19 (amended), instance: `ghostWorld` and an idle tick of half a second. -/
theorem C19_timers_monotone_witness :
    (tick questionBank idleInput ghostWorld).player.invisibleTimer
        ≤ ghostWorld.player.invisibleTimer ∧
    (tick questionBank idleInput ghostWorld).player.freezeTimer
        ≤ ghostWorld.player.freezeTimer :=
  C19_timers_monotone.1 questionBank idleInput ghostWorld (by norm_num [idleInput])

/-- C20: for every sequence of random samples on which `LoadLevel` finishes, it yields exactly 5
collectibles, exactly 3 bonus-triggers and exactly 6 pursuers on the grid loaded from the layout,
each on a cell of kind Empty (so never Wall or Exit), the collectibles and bonus-triggers never on
the spawn cell, and every pursuer at Manhattan distance > 8 from the spawn cell. -/
theorem C20_spawn_counts_and_cells (RAND_MAX : Nat) (bank : List Question)
    (order rands : List Nat) (w w1 : World)
    (h : LoadLevel RAND_MAX bank order rands w = some w1) :
    w1.gameGrid = loadGrid LEVEL_LAYOUT ∧
    w1.player.pos = spawnOf LEVEL_LAYOUT 0 w.player.pos ∧
    w1.diamonds.length = 5 ∧ w1.nuggets.length = 3 ∧ w1.enemies.length = 6 ∧
    (∀ d ∈ w1.diamonds,
      tileAt w1.gameGrid d.x d.y = TileType.TILE_EMPTY ∧ d ≠ w1.player.pos) ∧
    (∀ n ∈ w1.nuggets,
      tileAt w1.gameGrid n.x n.y = TileType.TILE_EMPTY ∧ n ≠ w1.player.pos) ∧
    (∀ e ∈ w1.enemies,
      tileAt w1.gameGrid e.pos.x e.pos.y = TileType.TILE_EMPTY ∧
      manhattan e.pos w1.player.pos > 8) := by
  obtain ⟨hg, hp, _, _, hd, hn, he, _, hdn, hen⟩ := LoadLevel_spec _ _ _ _ _ _ h
  refine ⟨hg, hp, hd, hn, he, ?_, ?_, ?_⟩
  · intro d hm
    exact ⟨(hdn d (List.mem_append_left _ hm)).2, (hdn d (List.mem_append_left _ hm)).1⟩
  · intro n hm
    exact ⟨(hdn n (List.mem_append_right _ hm)).2, (hdn n (List.mem_append_right _ hm)).1⟩
  · intro e hm
    exact ⟨(hen e hm).2, (hen e hm).1⟩

/-- C20, instance: the level loaded from `crowdedRands`. -/
theorem C20_spawn_counts_and_cells_witness :
    crowdedLevel.diamonds.length = 5 ∧ crowdedLevel.nuggets.length = 3 ∧
    crowdedLevel.enemies.length = 6 ∧
    (∀ e ∈ crowdedLevel.enemies,
      tileAt crowdedLevel.gameGrid e.pos.x e.pos.y = TileType.TILE_EMPTY ∧
      manhattan e.pos crowdedLevel.player.pos > 8) :=
  ⟨(C20_spawn_counts_and_cells _ _ _ _ _ _ crowded_eval).2.2.1,
   (C20_spawn_counts_and_cells _ _ _ _ _ _ crowded_eval).2.2.2.1,
   (C20_spawn_counts_and_cells _ _ _ _ _ _ crowded_eval).2.2.2.2.1,
   (C20_spawn_counts_and_cells _ _ _ _ _ _ crowded_eval).2.2.2.2.2.2.2⟩

/-! ## Invariants of the main loop -/

/-- The reset ends in mode `PLAYING`. -/
theorem ResetGame_state (R : Nat) (bank : List Question) (order rands : List Nat) (w w1 : World)
    (h : ResetGame R bank order rands w = some w1) :
    w1.currentState = GameState.PLAYING := by
  unfold ResetGame at h
  exact (LoadLevel_spec _ _ _ _ _ _ h).2.2.2.1

/-- The pursuer update leaves the mode as the player update left it, or sets `GAME_OVER`. -/
theorem tick_state_cases (bank : List Question) (inp : Input) (w : World) :
    (tick bank inp w).currentState = (UpdatePlayer bank inp w).currentState ∨
    (tick bank inp w).currentState = GameState.GAME_OVER := by
  have h := enemiesLoop_state (UpdatePlayer bank inp w).gameGrid (UpdatePlayer bank inp w).player
    inp.frameTime inp.enemyOrder (UpdatePlayer bank inp w).enemies 0
    (UpdatePlayer bank inp w).currentState
  show (enemiesLoop _ _ _ _ 0 _ _).2 = _ ∨ (enemiesLoop _ _ _ _ 0 _ _).2 = _
  rw [h]
  split_ifs
  · exact Or.inr rfl
  · exact Or.inl rfl

/-- The mode after the player update of a player that is not frozen: Quiz, Victory or the old
mode. -/
theorem UpdatePlayer_state_cases (bank : List Question) (inp : Input) (w : World)
    (hf : ¬ w.player.freezeTimer > 0) :
    (UpdatePlayer bank inp w).currentState = GameState.QUIZ ∨
    (UpdatePlayer bank inp w).currentState = GameState.VICTORY ∨
    (UpdatePlayer bank inp w).currentState = w.currentState := by
  by_cases hn : (movePlayer inp w.gameGrid w.player).pos ∈ w.nuggets
  · rw [UpdatePlayer_pick bank inp w hf hn]
    exact Or.inl rfl
  · rw [UpdatePlayer_nopick bank inp w hf hn]
    simp only
    split_ifs
    · exact Or.inr (Or.inl rfl)
    · exact Or.inr (Or.inr rfl)
    · exact Or.inr (Or.inr rfl)

/-- Invariant of the main loop: in mode Frozen the freeze timer is > 0, in modes Playing and Quiz
it is <= 0. -/
theorem main_freeze_inv (RAND_MAX : Nat) (bank : List Question) (w : World)
    (hr : MainReachable RAND_MAX bank w) :
    (w.currentState = GameState.FROZEN → w.player.freezeTimer > 0) ∧
    (w.currentState = GameState.PLAYING → w.player.freezeTimer ≤ 0) ∧
    (w.currentState = GameState.QUIZ → w.player.freezeTimer ≤ 0) := by
  induction hr with
  | menu w hm =>
    rw [hm]
    exact ⟨fun h => absurd h (by decide), fun h => absurd h (by decide),
      fun h => absurd h (by decide)⟩
  | step inp w w1 _ hstep ih =>
    obtain ⟨ihF, ihP, ihQ⟩ := ih
    cases hs : w.currentState with
    | MENU =>
      unfold mainStep at hstep
      rw [hs] at hstep
      simp only at hstep
      by_cases he : inp.enter = true
      · rw [if_pos he] at hstep
        cases hreset : ResetGame RAND_MAX bank inp.deckOrder inp.rands w with
        | none => rw [hreset] at hstep; exact absurd hstep (by simp)
        | some w2 =>
          rw [hreset] at hstep
          simp only [Option.some.injEq] at hstep
          have hst := ResetGame_state _ _ _ _ _ _ hreset
          have htm := (ResetGame_timers _ _ _ _ _ _ hreset).2
          rw [← hstep]
          split_ifs
          · exact ⟨fun h => absurd h (by decide), fun h => absurd h (by decide),
              fun h => absurd h (by decide)⟩
          · rw [hst, htm]
            exact ⟨fun h => absurd h (by decide), fun _ => le_refl _,
              fun h => absurd h (by decide)⟩
      · rw [if_neg he] at hstep
        simp only [Option.some.injEq] at hstep
        rw [← hstep]
        split_ifs
        · exact ⟨fun h => absurd h (by decide), fun h => absurd h (by decide),
            fun h => absurd h (by decide)⟩
        · rw [hs]
          exact ⟨fun h => absurd h (by decide), fun h => absurd h (by decide),
            fun h => absurd h (by decide)⟩
    | HELP =>
      unfold mainStep at hstep
      rw [hs] at hstep
      simp only [Option.some.injEq] at hstep
      rw [← hstep]
      split_ifs
      · exact ⟨fun h => absurd h (by decide), fun h => absurd h (by decide),
          fun h => absurd h (by decide)⟩
      · rw [hs]
        exact ⟨fun h => absurd h (by decide), fun h => absurd h (by decide),
          fun h => absurd h (by decide)⟩
    | GAME_OVER =>
      unfold mainStep at hstep
      rw [hs] at hstep
      simp only [Option.some.injEq] at hstep
      rw [← hstep]
      split_ifs
      · exact ⟨fun h => absurd h (by decide), fun h => absurd h (by decide),
          fun h => absurd h (by decide)⟩
      · rw [hs]
        exact ⟨fun h => absurd h (by decide), fun h => absurd h (by decide),
          fun h => absurd h (by decide)⟩
    | VICTORY =>
      unfold mainStep at hstep
      rw [hs] at hstep
      simp only [Option.some.injEq] at hstep
      rw [← hstep]
      split_ifs
      · exact ⟨fun h => absurd h (by decide), fun h => absurd h (by decide),
          fun h => absurd h (by decide)⟩
      · rw [hs]
        exact ⟨fun h => absurd h (by decide), fun h => absurd h (by decide),
          fun h => absurd h (by decide)⟩
    | QUIZ =>
      unfold mainStep at hstep
      rw [hs] at hstep
      simp only [Option.some.injEq] at hstep
      have hq := ihQ hs
      rw [← hstep]
      unfold answerQuiz
      split_ifs
      · refine ⟨fun h => absurd h (by decide), fun _ => hq, fun h => absurd h (by decide)⟩
      · refine ⟨fun _ => by norm_num, fun h => absurd h (by decide),
          fun h => absurd h (by decide)⟩
      · rw [hs]
        exact ⟨fun h => absurd h (by decide), fun h => absurd h (by decide), fun _ => hq⟩
    | PLAYING =>
      rw [mainStep_tick RAND_MAX bank inp w (Or.inl hs)] at hstep
      simp only [Option.some.injEq] at hstep
      have hf : ¬ w.player.freezeTimer > 0 := not_lt.2 (ihP hs)
      have hfz : (tick bank inp w).player.freezeTimer = w.player.freezeTimer := by
        rw [tick_player, UpdatePlayer_freezeTimer, if_neg hf]
      have hle : (tick bank inp w).player.freezeTimer ≤ 0 := by rw [hfz]; exact ihP hs
      rw [← hstep]
      refine ⟨?_, fun _ => hle, fun _ => hle⟩
      intro hfro
      rcases tick_state_cases bank inp w with h1 | h1
      · rw [h1] at hfro
        rcases UpdatePlayer_state_cases bank inp w hf with h2 | h2 | h2
        · rw [h2] at hfro; exact absurd hfro (by decide)
        · rw [h2] at hfro; exact absurd hfro (by decide)
        · rw [h2, hs] at hfro; exact absurd hfro (by decide)
      · rw [h1] at hfro; exact absurd hfro (by decide)
    | FROZEN =>
      rw [mainStep_tick RAND_MAX bank inp w (Or.inr hs)] at hstep
      simp only [Option.some.injEq] at hstep
      have hf : w.player.freezeTimer > 0 := ihF hs
      have hfz : (tick bank inp w).player.freezeTimer
          = w.player.freezeTimer - inp.frameTime := by
        rw [tick_player, UpdatePlayer_freezeTimer, if_pos hf]
      have hst : (UpdatePlayer bank inp w).currentState =
          (if w.player.freezeTimer - inp.frameTime ≤ 0 then GameState.PLAYING
            else GameState.FROZEN) := by
        rw [UpdatePlayer_frozen bank inp w hf, hs]
      rw [← hstep, hfz]
      rcases tick_state_cases bank inp w with h1 | h1
      · rw [h1, hst]
        split_ifs with hle
        · exact ⟨fun h => absurd h (by decide), fun _ => hle, fun h => absurd h (by decide)⟩
        · exact ⟨fun _ => not_le.1 hle, fun h => absurd h (by decide),
            fun h => absurd h (by decide)⟩
      · rw [h1]
        exact ⟨fun h => absurd h (by decide), fun h => absurd h (by decide),
          fun h => absurd h (by decide)⟩

/-- C21: in every state reachable from a Menu state through the iterations of the main loop
(reset, Playing and Frozen ticks, quiz answers, confirm), whatever the inputs and elapsed times,
mode Frozen implies freeze-remaining > 0 and mode Playing implies freeze-remaining <= 0.  Hence in
a reachable state in mode Frozen the player update takes the early-exit branch (only the freeze
timer and the mode change), the main loop runs one tick, and the tick ends in mode Frozen, Playing
or GameOver. -/
theorem C21_frozen_mode_invariant :
    (∀ (RAND_MAX : Nat) (bank : List Question) (w : World), MainReachable RAND_MAX bank w →
      (w.currentState = GameState.FROZEN → w.player.freezeTimer > 0) ∧
      (w.currentState = GameState.PLAYING → w.player.freezeTimer ≤ 0)) ∧
    (∀ (RAND_MAX : Nat) (bank : List Question) (inp : Input) (w : World),
      MainReachable RAND_MAX bank w → w.currentState = GameState.FROZEN →
      UpdatePlayer bank inp w =
        { w with
          player := { w.player with freezeTimer := w.player.freezeTimer - inp.frameTime }
          currentState :=
            if w.player.freezeTimer - inp.frameTime ≤ 0 then GameState.PLAYING
            else w.currentState } ∧
      mainStep RAND_MAX bank inp w = some (tick bank inp w) ∧
      ((tick bank inp w).currentState = GameState.FROZEN ∨
        (tick bank inp w).currentState = GameState.PLAYING ∨
        (tick bank inp w).currentState = GameState.GAME_OVER)) := by
  constructor
  · intro R bank w hr
    exact ⟨(main_freeze_inv R bank w hr).1, (main_freeze_inv R bank w hr).2.1⟩
  · intro R bank inp w hr hs
    have hf : w.player.freezeTimer > 0 := (main_freeze_inv R bank w hr).1 hs
    refine ⟨UpdatePlayer_frozen bank inp w hf, mainStep_tick R bank inp w (Or.inr hs), ?_⟩
    rcases tick_state_cases bank inp w with h1 | h1
    · rw [h1, UpdatePlayer_frozen bank inp w hf]
      simp only
      split_ifs
      · exact Or.inr (Or.inl rfl)
      · exact Or.inl hs
    · exact Or.inr (Or.inr h1)

set_option maxRecDepth 100000 in
/-- From the initial state, Enter with the samples `crowdedRands` starts the game. -/
theorem initWorld_start :
    mainStep 2147483647 questionBank resetInput initWorld =
      some { crowdedStart with currentQuestion := initWorld.currentQuestion } := by
  rfl

/-- C21, instance: the state reached from the initial Menu state by pressing Enter (samples
`crowdedRands`) is in mode Playing and has freeze-remaining <= 0. -/
theorem C21_frozen_mode_invariant_witness :
    ({ crowdedStart with currentQuestion := initWorld.currentQuestion } : World).player.freezeTimer
      ≤ 0 :=
  (C21_frozen_mode_invariant.1 2147483647 questionBank _
    (MainReachable.step resetInput initWorld _ (MainReachable.menu initWorld rfl)
      initWorld_start)).2 rfl

/-! ## The level -/

/-- The flood fill only collects cells reachable from `s`, provided its work list holds only
cells that are reachable when valid. -/
theorem fill_sound (g : Grid) (s : GridPos) (n : Nat) :
    ∀ (stack seen : List GridPos),
      (∀ c ∈ stack, IsValidMove g c.x c.y = true → Reach g s c) →
      (∀ c ∈ seen, Reach g s c) →
      ∀ c ∈ fill g n stack seen, Reach g s c := by
  induction n with
  | zero => intro stack seen _ hseen c hc; exact hseen c hc
  | succ n ih =>
    intro stack seen hstack hseen
    cases stack with
    | nil => intro c hc; exact hseen c hc
    | cons d stack =>
      rw [fill]
      split_ifs with hcond
      · have hv : IsValidMove g d.x d.y = true := by
          rw [Bool.and_eq_true] at hcond
          exact hcond.1
        have hd : Reach g s d := hstack d (List.mem_cons_self _ _) hv
        apply ih
        · intro c hc hvc
          rcases List.mem_append.1 hc with h | h
          · exact Reach.step d c hd h hvc
          · exact hstack c (List.mem_cons_of_mem _ h) hvc
        · intro c hc
          rcases List.mem_cons.1 hc with h | h
          · rw [h]; exact hd
          · exact hseen c h
      · apply ih
        · intro c hc hvc
          exact hstack c (List.mem_cons_of_mem _ hc) hvc
        · exact hseen

/-- Every in-bounds cell is listed in `allCells`. -/
theorem mem_allCells (c : GridPos) (hx0 : 0 ≤ c.x) (hx : c.x < COLS) (hy0 : 0 ≤ c.y)
    (hy : c.y < ROWS) : c ∈ allCells := by
  unfold allCells
  simp only [COLS, ROWS] at hx hy
  simp only [List.mem_flatMap, List.mem_map, List.mem_range]
  have hym : c.y.toNat < 15 := by omega
  have hxm : c.x.toNat < 20 := by omega
  refine ⟨c.y.toNat, hym, c.x.toNat, hxm, ?_⟩
  cases c with
  | mk x y =>
    simp only at hx0 hy0 ⊢
    rw [Int.toNat_of_nonneg hx0, Int.toNat_of_nonneg hy0]

/-- The cells for which `IsValidMove` is true are in bounds and not Wall. -/
theorem IsValidMove_iff (g : Grid) (x y : Int) :
    IsValidMove g x y = true ↔
      (0 ≤ x ∧ x < COLS ∧ 0 ≤ y ∧ y < ROWS ∧ tileAt g x y ≠ TileType.TILE_WALL) := by
  unfold IsValidMove
  constructor
  · intro h
    split_ifs at h with h1 h2
    · refine ⟨?_, ?_, ?_, ?_, h2⟩ <;> omega
  · rintro ⟨h1, h2, h3, h4, h5⟩
    rw [if_neg (by omega), if_neg h5]

/-- A region that covers the grid holds every cell for which `IsValidMove` is true. -/
theorem mem_of_covers (g : Grid) (region : List GridPos) (h : covers g region = true)
    (c : GridPos) (hv : IsValidMove g c.x c.y = true) : c ∈ region := by
  obtain ⟨hx0, hx, hy0, hy, _⟩ := (IsValidMove_iff g c.x c.y).1 hv
  unfold covers at h
  rw [List.all_eq_true] at h
  have hc := h c (mem_allCells c hx0 hx hy0 hy)
  rw [hv] at hc
  simpa using hc

set_option maxRecDepth 1000000 in
/-- The flood fill from (1,1) covers the loaded level. -/
theorem covers_level :
    covers (loadGrid LEVEL_LAYOUT) (fill (loadGrid LEVEL_LAYOUT) 600 [⟨1, 1⟩] []) = true := by
  decide

/-- In the loaded level every cell for which `IsValidMove` is true is reachable from (1,1). -/
theorem level_reach (c : GridPos) (hv : IsValidMove (loadGrid LEVEL_LAYOUT) c.x c.y = true) :
    Reach (loadGrid LEVEL_LAYOUT) ⟨1, 1⟩ c := by
  apply fill_sound (loadGrid LEVEL_LAYOUT) ⟨1, 1⟩ 600 [⟨1, 1⟩] []
  · intro d hd hvd
    rw [List.mem_singleton] at hd
    rw [hd] at hvd ⊢
    exact Reach.start hvd
  · intro d hd
    exact absurd hd (List.not_mem_nil _)
  · exact mem_of_covers _ _ covers_level c hv

set_option maxRecDepth 100000 in
/-- The layout scan finds the spawn character at (1,1), whatever the position held before. -/
theorem spawnOf_level (p : GridPos) : spawnOf LEVEL_LAYOUT 0 p = ⟨1, 1⟩ := by
  rfl

/-- A lookup that does not read Wall reads inside the grid. -/
theorem tileAt_bounds (g : Grid) (rows cols : Nat) (hl : g.length = rows)
    (hr : ∀ row ∈ g, row.length = cols) (x y : Int)
    (h : tileAt g x y ≠ TileType.TILE_WALL) :
    0 ≤ x ∧ x < cols ∧ 0 ≤ y ∧ y < rows := by
  unfold tileAt at h
  split_ifs at h with hneg
  · exact absurd rfl h
  · have hx0 : 0 ≤ x := by omega
    have hy0 : 0 ≤ y := by omega
    by_cases hy : y.toNat < g.length
    · have hrow : g.getD y.toNat [] = g[y.toNat] := by
        simp [List.getElem?_eq_getElem hy]
      rw [hrow] at h
      have hlen := hr _ (List.getElem_mem hy)
      by_cases hx : x.toNat < (g[y.toNat]).length
      · refine ⟨hx0, ?_, hy0, ?_⟩ <;> omega
      · exfalso
        apply h
        simp [List.getElem?_eq_none (not_lt.1 hx)]
    · exfalso
      apply h
      simp [List.getElem?_eq_none (not_lt.1 hy)]

/-- The loaded level has 15 rows of 20 cells. -/
theorem level_dims :
    (loadGrid LEVEL_LAYOUT).length = 15 ∧ ∀ row ∈ loadGrid LEVEL_LAYOUT, row.length = 20 := by
  decide

/-- In the loaded level a cell that is not Wall is a cell for which `IsValidMove` is true. -/
theorem level_valid_of_tile (x y : Int)
    (h : tileAt (loadGrid LEVEL_LAYOUT) x y ≠ TileType.TILE_WALL) :
    IsValidMove (loadGrid LEVEL_LAYOUT) x y = true := by
  obtain ⟨h1, h2, h3, h4⟩ := tileAt_bounds _ 15 20 level_dims.1 level_dims.2 x y h
  rw [IsValidMove_iff]
  simp only [COLS, ROWS]
  exact ⟨h1, by exact_mod_cast h2, h3, by exact_mod_cast h4, h⟩

/-- C22: in the grid loaded from the fixed `LEVEL_LAYOUT` the spawn cell is (1,1), the cell
(18,13) is the Exit, and every in-bounds non-Wall cell, in particular the Exit, is reachable from
the spawn cell by a path of 4-neighbour steps through in-bounds non-Wall cells; so whenever
`LoadLevel` finishes, the player is on (1,1) and every cell it placed a collectible, a
bonus-trigger or a pursuer on is reachable from the player's cell, as is the Exit. -/
theorem C22_level_connected :
    (∀ p : GridPos, spawnOf LEVEL_LAYOUT 0 p = ⟨1, 1⟩) ∧
    tileAt (loadGrid LEVEL_LAYOUT) 18 13 = TileType.TILE_EXIT ∧
    (∀ x y : Int, 0 ≤ x → x < COLS → 0 ≤ y → y < ROWS →
      tileAt (loadGrid LEVEL_LAYOUT) x y ≠ TileType.TILE_WALL →
      Reach (loadGrid LEVEL_LAYOUT) ⟨1, 1⟩ ⟨x, y⟩) ∧
    Reach (loadGrid LEVEL_LAYOUT) ⟨1, 1⟩ ⟨18, 13⟩ ∧
    (∀ (RAND_MAX : Nat) (bank : List Question) (order rands : List Nat) (w w1 : World),
      LoadLevel RAND_MAX bank order rands w = some w1 →
      w1.player.pos = ⟨1, 1⟩ ∧
      (∀ c ∈ placedCells w1, Reach w1.gameGrid w1.player.pos c) ∧
      Reach w1.gameGrid w1.player.pos ⟨18, 13⟩) := by
  have hexit : Reach (loadGrid LEVEL_LAYOUT) ⟨1, 1⟩ ⟨18, 13⟩ := level_reach ⟨18, 13⟩ (by decide)
  refine ⟨spawnOf_level, by decide, ?_, hexit, ?_⟩
  · intro x y hx0 hx hy0 hy ht
    exact level_reach ⟨x, y⟩ ((IsValidMove_iff _ x y).2 ⟨hx0, hx, hy0, hy, ht⟩)
  · intro R bank order rands w w1 h
    obtain ⟨hg, hp, _, _, _, _, _, _, hdn, hen⟩ := LoadLevel_spec _ _ _ _ _ _ h
    rw [spawnOf_level] at hp
    rw [hg, hp]
    rw [hg] at hdn hen
    refine ⟨rfl, ?_, hexit⟩
    intro c hc
    apply level_reach
    apply level_valid_of_tile
    unfold placedCells at hc
    rcases List.mem_append.1 hc with h1 | h1
    · rw [(hdn c h1).2]; decide
    · obtain ⟨e, he, rfl⟩ := List.mem_map.1 h1
      rw [(hen e he).2]; decide

/-- C22, instance: the level loaded from `crowdedRands`: the pursuers' cell (17,13) is reachable
from the player's cell. -/
theorem C22_level_connected_witness :
    Reach crowdedLevel.gameGrid crowdedLevel.player.pos ⟨17, 13⟩ :=
  (C22_level_connected.2.2.2.2 _ _ _ _ _ _ crowded_eval).2.1 ⟨17, 13⟩ (by decide)

/-! ## Valid cells -/

/-- The walkability test of the pursuer loop is the test of `IsValidMove`. -/
theorem walkable_eq (g : Grid) (n : GridPos) : walkable g n = IsValidMove g n.x n.y := by
  rw [Bool.eq_iff_iff, IsValidMove_iff]
  unfold walkable
  simp only [decide_eq_true_eq, ge_iff_le]

/-- The player and the pursuers are on valid cells: unfolded form. -/
theorem onValidCells_iff (w : World) :
    onValidCells w = true ↔
      (IsValidMove w.gameGrid w.player.pos.x w.player.pos.y = true ∧
        ∀ e ∈ w.enemies, IsValidMove w.gameGrid e.pos.x e.pos.y = true) := by
  unfold onValidCells
  rw [Bool.and_eq_true, List.all_eq_true]

/-- The move attempts of the player end on a valid cell when they start on one. -/
theorem tryMove_valid (g : Grid) (pos : GridPos) (dx dy : Int)
    (h : IsValidMove g pos.x pos.y = true) :
    IsValidMove g (tryMove g pos dx dy).x (tryMove g pos dx dy).y = true := by
  obtain ⟨h1, h2, h3⟩ := tryMove_spec g pos dx dy
  by_cases hv : dy ≠ 0 ∧ IsValidMove g pos.x (pos.y + dy) = true
  · rw [h1 hv]; exact hv.2
  · by_cases hh : dx ≠ 0 ∧ IsValidMove g (pos.x + dx) pos.y = true
    · rw [h2 hv hh]; exact hh.2
    · rw [h3 hv hh]; exact h

/-- The direction loop ends on a valid cell when the pursuer starts on one, whatever the player's
state and whatever the shuffle outcome. -/
theorem enemyMove_valid (g : Grid) (player : Player) (order : List Nat) (epos : GridPos)
    (h : IsValidMove g epos.x epos.y = true) :
    IsValidMove g (enemyMove g player order epos).x (enemyMove g player order epos).y = true := by
  by_cases hinv : player.invisibleTimer > 0
  · unfold enemyMove
    simp only [if_pos hinv]
    rcases scanMoves_invisible g player epos hinv (stdShuffle order [0, 1, 2, 3]) epos 9999 with
      ⟨_, hnone⟩ | ⟨l1, i, l2, _, hwi, _, hs⟩
    · rw [hnone]
      simp only [if_neg (not_le.2 hinv)]
      exact h
    · rw [hs]
      simp only
      rw [← walkable_eq]
      exact hwi
  · rw [enemyMove_visible g player order epos (not_lt.1 hinv)]
    rcases (scanMoves_visible g player epos hinv [0, 1, 2, 3] epos 9999).2 with
      ⟨hb, _, _⟩ | ⟨l1, i, l2, _, hwi, hb, _⟩
    · rw [hb]; exact h
    · rw [hb, ← walkable_eq]; exact hwi

/-- One iteration of the pursuer loop keeps the pursuer on a valid cell. -/
theorem updateEnemy_valid (g : Grid) (player : Player) (dt : ℚ) (order : List Nat)
    (st : GameState) (enemy : Enemy) (h : IsValidMove g enemy.pos.x enemy.pos.y = true) :
    IsValidMove g (updateEnemy g player dt order st enemy).1.pos.x
      (updateEnemy g player dt order st enemy).1.pos.y = true := by
  obtain ⟨h1, h2⟩ := updateEnemy_step g player dt order st enemy
  by_cases hfire : enemy.moveTimer + dt ≥
      (if st = GameState.FROZEN then enemy.speed * (1 / 2) else enemy.speed)
  · rw [h1 hfire]
    exact enemyMove_valid g player order enemy.pos h
  · rw [h2 hfire]
    exact h

/-- The pursuer loop keeps every pursuer on a valid cell. -/
theorem enemiesLoop_valid (g : Grid) (player : Player) (dt : ℚ) (orders : Nat → List Nat)
    (es : List Enemy) :
    ∀ (k : Nat) (st : GameState),
      (∀ e ∈ es, IsValidMove g e.pos.x e.pos.y = true) →
      ∀ e ∈ (enemiesLoop g player dt orders k st es).1,
        IsValidMove g e.pos.x e.pos.y = true := by
  induction es with
  | nil => intro k st _ e he; simp [enemiesLoop] at he
  | cons e0 rest ih =>
    intro k st hall e he
    simp only [enemiesLoop, List.mem_cons] at he
    rcases he with he | he
    · rw [he]
      exact updateEnemy_valid g player dt (orders k) st e0 (hall e0 (List.mem_cons_self _ _))
    · exact ih (k + 1) _ (fun e' he' => hall e' (List.mem_cons_of_mem _ he')) e he

/-- The player update keeps the player and the pursuers on valid cells. -/
theorem UpdatePlayer_valid (bank : List Question) (inp : Input) (w : World)
    (h : onValidCells w = true) : onValidCells (UpdatePlayer bank inp w) = true := by
  rw [onValidCells_iff] at h ⊢
  obtain ⟨hp, he⟩ := h
  rw [(UpdatePlayer_frame bank inp w).1, (UpdatePlayer_frame bank inp w).2]
  refine ⟨?_, he⟩
  rcases UpdatePlayer_pos_cases bank inp w with h1 | h1
  · rw [h1]; exact hp
  · rw [h1]; exact tryMove_valid _ _ _ _ hp

/-- The pursuer update keeps the player and the pursuers on valid cells. -/
theorem UpdateEnemies_valid (inp : Input) (w : World)
    (h : onValidCells w = true) : onValidCells (UpdateEnemies inp w) = true := by
  rw [onValidCells_iff] at h ⊢
  obtain ⟨hp, he⟩ := h
  exact ⟨hp, enemiesLoop_valid w.gameGrid w.player inp.frameTime inp.enemyOrder w.enemies 0
    w.currentState he⟩

/-- After `LoadLevel` the player and the pursuers are on valid cells of the loaded grid. -/
theorem LoadLevel_valid (R : Nat) (bank : List Question) (order rands : List Nat) (w w1 : World)
    (h : LoadLevel R bank order rands w = some w1) :
    onValidCells w1 = true ∧ w1.gameGrid = loadGrid LEVEL_LAYOUT := by
  obtain ⟨hg, hp, _, _, _, _, _, _, _, hen⟩ := LoadLevel_spec _ _ _ _ _ _ h
  refine ⟨?_, hg⟩
  rw [onValidCells_iff, hg, hp, spawnOf_level]
  rw [hg] at hen
  refine ⟨by decide, ?_⟩
  intro e he
  apply level_valid_of_tile
  rw [(hen e he).2]
  decide

/-- A quiz answer moves neither the player nor the pursuers and keeps the grid. -/
theorem answerQuiz_valid (choice : Int) (w : World) :
    onValidCells (answerQuiz choice w) = onValidCells w ∧
    (answerQuiz choice w).gameGrid = w.gameGrid := by
  unfold answerQuiz
  split_ifs <;> exact ⟨rfl, rfl⟩

/-- A tick keeps the player and the pursuers on valid cells and keeps the grid. -/
theorem tick_valid (bank : List Question) (inp : Input) (w : World)
    (h : onValidCells w = true) :
    onValidCells (tick bank inp w) = true ∧ (tick bank inp w).gameGrid = w.gameGrid :=
  ⟨UpdateEnemies_valid inp _ (UpdatePlayer_valid bank inp w h),
    (UpdatePlayer_frame bank inp w).2⟩

/-- Invariant of the main loop: outside the modes Menu and Help the grid is the loaded level and
the player and the pursuers are on valid cells. -/
theorem main_valid_inv (RAND_MAX : Nat) (bank : List Question) (w : World)
    (hr : MainReachable RAND_MAX bank w) :
    w.currentState ≠ GameState.MENU → w.currentState ≠ GameState.HELP →
    onValidCells w = true ∧ w.gameGrid = loadGrid LEVEL_LAYOUT := by
  induction hr with
  | menu w hm => intro h; exact absurd hm h
  | step inp w w1 _ hstep ih =>
    intro hnm hnh
    cases hs : w.currentState with
    | MENU =>
      unfold mainStep at hstep
      rw [hs] at hstep
      simp only at hstep
      by_cases he : inp.enter = true
      · rw [if_pos he] at hstep
        cases hreset : ResetGame RAND_MAX bank inp.deckOrder inp.rands w with
        | none => rw [hreset] at hstep; exact absurd hstep (by simp)
        | some w2 =>
          rw [hreset] at hstep
          simp only [Option.some.injEq] at hstep
          unfold ResetGame at hreset
          have hv := LoadLevel_valid _ _ _ _ _ _ hreset
          by_cases hk : inp.keyH = true
          · rw [if_pos hk] at hstep
            rw [← hstep] at hnh
            exact absurd rfl hnh
          · rw [if_neg hk] at hstep
            rw [← hstep]
            exact hv
      · rw [if_neg he] at hstep
        simp only [Option.some.injEq] at hstep
        by_cases hk : inp.keyH = true
        · rw [if_pos hk] at hstep
          rw [← hstep] at hnh
          exact absurd rfl hnh
        · rw [if_neg hk] at hstep
          rw [← hstep] at hnm
          exact absurd hs hnm
    | HELP =>
      unfold mainStep at hstep
      rw [hs] at hstep
      simp only [Option.some.injEq] at hstep
      by_cases hk : inp.keyH = true ∨ inp.enter = true ∨ inp.escape = true
      · rw [if_pos hk] at hstep
        rw [← hstep] at hnm
        exact absurd rfl hnm
      · rw [if_neg hk] at hstep
        rw [← hstep] at hnh
        exact absurd hs hnh
    | GAME_OVER =>
      have hw := ih (by rw [hs]; decide) (by rw [hs]; decide)
      unfold mainStep at hstep
      rw [hs] at hstep
      simp only [Option.some.injEq] at hstep
      by_cases he : inp.enter = true
      · rw [if_pos he] at hstep
        rw [← hstep] at hnm
        exact absurd rfl hnm
      · rw [if_neg he] at hstep
        rw [← hstep]
        exact hw
    | VICTORY =>
      have hw := ih (by rw [hs]; decide) (by rw [hs]; decide)
      unfold mainStep at hstep
      rw [hs] at hstep
      simp only [Option.some.injEq] at hstep
      by_cases he : inp.enter = true
      · rw [if_pos he] at hstep
        rw [← hstep] at hnm
        exact absurd rfl hnm
      · rw [if_neg he] at hstep
        rw [← hstep]
        exact hw
    | QUIZ =>
      have hw := ih (by rw [hs]; decide) (by rw [hs]; decide)
      unfold mainStep at hstep
      rw [hs] at hstep
      simp only [Option.some.injEq] at hstep
      rw [← hstep, (answerQuiz_valid _ w).1, (answerQuiz_valid _ w).2]
      exact hw
    | PLAYING =>
      have hw := ih (by rw [hs]; decide) (by rw [hs]; decide)
      rw [mainStep_tick RAND_MAX bank inp w (Or.inl hs)] at hstep
      simp only [Option.some.injEq] at hstep
      rw [← hstep, (tick_valid bank inp w hw.1).2]
      exact ⟨(tick_valid bank inp w hw.1).1, hw.2⟩
    | FROZEN =>
      have hw := ih (by rw [hs]; decide) (by rw [hs]; decide)
      rw [mainStep_tick RAND_MAX bank inp w (Or.inr hs)] at hstep
      simp only [Option.some.injEq] at hstep
      rw [← hstep, (tick_valid bank inp w hw.1).2]
      exact ⟨(tick_valid bank inp w hw.1).1, hw.2⟩

/-- C23: the player and every pursuer always occupy a cell for which `IsValidMove` is true
(in-bounds and not Wall): this holds after `LoadLevel`, is preserved by the player update and by
the pursuer update for every input, elapsed time and shuffle outcome, and so holds in every state
reachable through the main loop outside the modes Menu and Help, where the grid is the loaded
level of 15 rows of 20 cells.  Hence in every reachable state in which the player update runs
(mode Playing or Frozen) the player's post-movement cell, at which the exit test reads the grid,
has 0 <= x < 20 and 0 <= y < 15. -/
theorem C23_always_on_valid_cells :
    (∀ (RAND_MAX : Nat) (bank : List Question) (order rands : List Nat) (w w1 : World),
      LoadLevel RAND_MAX bank order rands w = some w1 → onValidCells w1 = true) ∧
    (∀ (bank : List Question) (inp : Input) (w : World),
      onValidCells w = true → onValidCells (UpdatePlayer bank inp w) = true) ∧
    (∀ (inp : Input) (w : World),
      onValidCells w = true → onValidCells (UpdateEnemies inp w) = true) ∧
    (∀ (RAND_MAX : Nat) (bank : List Question) (w : World), MainReachable RAND_MAX bank w →
      w.currentState ≠ GameState.MENU → w.currentState ≠ GameState.HELP →
      (IsValidMove w.gameGrid w.player.pos.x w.player.pos.y = true ∧
        ∀ e ∈ w.enemies, IsValidMove w.gameGrid e.pos.x e.pos.y = true) ∧
      w.gameGrid.length = 15 ∧ (∀ row ∈ w.gameGrid, row.length = 20)) ∧
    (∀ (RAND_MAX : Nat) (bank : List Question) (inp : Input) (w : World),
      MainReachable RAND_MAX bank w →
      (w.currentState = GameState.PLAYING ∨ w.currentState = GameState.FROZEN) →
      0 ≤ (UpdatePlayer bank inp w).player.pos.x ∧
      (UpdatePlayer bank inp w).player.pos.x < COLS ∧
      0 ≤ (UpdatePlayer bank inp w).player.pos.y ∧
      (UpdatePlayer bank inp w).player.pos.y < ROWS ∧
      (UpdatePlayer bank inp w).gameGrid.length = 15 ∧
      (∀ row ∈ (UpdatePlayer bank inp w).gameGrid, row.length = 20)) := by
  refine ⟨?_, UpdatePlayer_valid, UpdateEnemies_valid, ?_, ?_⟩
  · intro R bank order rands w w1 h
    exact (LoadLevel_valid _ _ _ _ _ _ h).1
  · intro R bank w hr hnm hnh
    obtain ⟨hv, hg⟩ := main_valid_inv R bank w hr hnm hnh
    have hv1 := (onValidCells_iff w).1 hv
    rw [hg] at hv1 ⊢
    exact ⟨hv1, level_dims.1, level_dims.2⟩
  · intro R bank inp w hr hs
    have hnm : w.currentState ≠ GameState.MENU := by
      rcases hs with h | h <;> rw [h] <;> decide
    have hnh : w.currentState ≠ GameState.HELP := by
      rcases hs with h | h <;> rw [h] <;> decide
    obtain ⟨hv, hg⟩ := main_valid_inv R bank w hr hnm hnh
    have hv1 := (onValidCells_iff _).1 (UpdatePlayer_valid bank inp w hv)
    obtain ⟨h1, h2, h3, h4, _⟩ := (IsValidMove_iff _ _ _).1 hv1.1
    rw [(UpdatePlayer_frame bank inp w).2, hg]
    exact ⟨h1, h2, h3, h4, level_dims.1, level_dims.2⟩

/-- C23, instance: in the level loaded from `crowdedRands` the player and the six pursuers are on
valid cells. -/
theorem C23_always_on_valid_cells_witness : onValidCells crowdedLevel = true :=
  C23_always_on_valid_cells.1 _ _ _ _ _ _ crowded_eval

/-! ## Pursuit mode: when a pursuer stays -/

/-- A neighbour of a cell is another cell. -/
theorem neighbour_ne (p : GridPos) (i : Nat) (hi : i < 4) : neighbour p i ≠ p := by
  have h4 : i = 0 ∨ i = 1 ∨ i = 2 ∨ i = 3 := by omega
  cases p with
  | mk x y =>
    rcases h4 with rfl | rfl | rfl | rfl <;>
      · intro h
        simp only [neighbour, moves, List.getD_cons_zero, List.getD_cons_succ,
          GridPos.mk.injEq] at h
        omega

set_option maxRecDepth 1000000 in
/-- In the loaded level every cell for which `IsValidMove` is true is checked to have a walkable
neighbour. -/
theorem level_neighbour_check :
    allCells.all (fun c => !IsValidMove (loadGrid LEVEL_LAYOUT) c.x c.y ||
      (neighbours4 c).any (fun n => walkable (loadGrid LEVEL_LAYOUT) n)) = true := by
  decide

/-- In the loaded level every in-bounds non-Wall cell has a walkable neighbour. -/
theorem level_has_walkable_neighbour (c : GridPos)
    (hv : IsValidMove (loadGrid LEVEL_LAYOUT) c.x c.y = true) :
    ∃ i, i < 4 ∧ walkable (loadGrid LEVEL_LAYOUT) (neighbour c i) = true := by
  obtain ⟨hx0, hx, hy0, hy, _⟩ := (IsValidMove_iff _ c.x c.y).1 hv
  have h := level_neighbour_check
  rw [List.all_eq_true] at h
  have hc := h c (mem_allCells c hx0 hx hy0 hy)
  rw [hv] at hc
  simp only [Bool.not_true, Bool.false_or, List.any_eq_true, neighbours4, List.mem_cons,
    List.mem_singleton, List.mem_nil_iff, or_false] at hc
  obtain ⟨n, hn, hw⟩ := hc
  rcases hn with rfl | rfl | rfl | rfl
  · exact ⟨0, by omega, hw⟩
  · exact ⟨1, by omega, hw⟩
  · exact ⟨2, by omega, hw⟩
  · exact ⟨3, by omega, hw⟩

/-- C3 (amended): in pursuit mode (player visible), when a pursuer's step fires: if none of its
four neighbours is walkable, its position is unchanged by that step; if some neighbour is walkable
(the player being on the grid), it moves to the walkable neighbour nearest to the player, the
earliest in the order up, down, left, right on ties, so its position changes, whether or not that
neighbour is closer to the player than its current cell.  In the loaded level every in-bounds
non-Wall cell has a walkable neighbour, so there a pursuer standing on such a cell always moves
when its step fires in pursuit mode. -/
theorem C3_stays_only_when_boxed_in :
    (∀ (g : Grid) (player : Player) (dt : ℚ) (order : List Nat) (st : GameState)
        (enemy : Enemy),
      player.invisibleTimer ≤ 0 →
      enemy.moveTimer + dt ≥
        (if st = GameState.FROZEN then enemy.speed * (1 / 2) else enemy.speed) →
      ((∀ i, i < 4 → walkable g (neighbour enemy.pos i) = false) →
        (updateEnemy g player dt order st enemy).1.pos = enemy.pos) ∧
      ((0 ≤ player.pos.x ∧ player.pos.x < COLS ∧ 0 ≤ player.pos.y ∧ player.pos.y < ROWS) →
        (∃ i, i < 4 ∧ walkable g (neighbour enemy.pos i) = true) →
        (updateEnemy g player dt order st enemy).1.pos ≠ enemy.pos ∧
        ∃ i, i < 4 ∧
          (updateEnemy g player dt order st enemy).1.pos = neighbour enemy.pos i ∧
          walkable g (neighbour enemy.pos i) = true ∧
          (∀ j, j < 4 → walkable g (neighbour enemy.pos j) = true →
            manhattan (neighbour enemy.pos i) player.pos
              ≤ manhattan (neighbour enemy.pos j) player.pos) ∧
          (∀ j, j < i → walkable g (neighbour enemy.pos j) = true →
            manhattan (neighbour enemy.pos i) player.pos
              < manhattan (neighbour enemy.pos j) player.pos))) ∧
    (∀ (player : Player) (dt : ℚ) (order : List Nat) (st : GameState) (enemy : Enemy),
      player.invisibleTimer ≤ 0 →
      (0 ≤ player.pos.x ∧ player.pos.x < COLS ∧ 0 ≤ player.pos.y ∧ player.pos.y < ROWS) →
      enemy.moveTimer + dt ≥
        (if st = GameState.FROZEN then enemy.speed * (1 / 2) else enemy.speed) →
      IsValidMove (loadGrid LEVEL_LAYOUT) enemy.pos.x enemy.pos.y = true →
      (updateEnemy (loadGrid LEVEL_LAYOUT) player dt order st enemy).1.pos ≠ enemy.pos) := by
  have hmove : ∀ (g : Grid) (player : Player) (dt : ℚ) (order : List Nat) (st : GameState)
      (enemy : Enemy), player.invisibleTimer ≤ 0 →
      enemy.moveTimer + dt ≥
        (if st = GameState.FROZEN then enemy.speed * (1 / 2) else enemy.speed) →
      (0 ≤ player.pos.x ∧ player.pos.x < COLS ∧ 0 ≤ player.pos.y ∧ player.pos.y < ROWS) →
      (∃ i, i < 4 ∧ walkable g (neighbour enemy.pos i) = true) →
      (updateEnemy g player dt order st enemy).1.pos ≠ enemy.pos ∧
      ∃ i, i < 4 ∧
        (updateEnemy g player dt order st enemy).1.pos = neighbour enemy.pos i ∧
        walkable g (neighbour enemy.pos i) = true ∧
        (∀ j, j < 4 → walkable g (neighbour enemy.pos j) = true →
          manhattan (neighbour enemy.pos i) player.pos
            ≤ manhattan (neighbour enemy.pos j) player.pos) ∧
        (∀ j, j < i → walkable g (neighbour enemy.pos j) = true →
          manhattan (neighbour enemy.pos i) player.pos
            < manhattan (neighbour enemy.pos j) player.pos) := by
    intro g player dt order st enemy hvis hfire hp hex
    rw [updateEnemy_fires g player dt order st enemy hfire]
    obtain ⟨i, hi, hm, hw, hmin, hfirst⟩ :=
      enemyMove_greedy g player order enemy.pos hvis hp hex
    refine ⟨?_, i, hi, hm, hw, hmin, hfirst⟩
    show enemyMove g player order enemy.pos ≠ enemy.pos
    rw [hm]
    exact neighbour_ne enemy.pos i hi
  constructor
  · intro g player dt order st enemy hvis hfire
    constructor
    · intro hbox
      have hv : ¬ player.invisibleTimer > 0 := not_lt.2 hvis
      rw [updateEnemy_fires g player dt order st enemy hfire]
      show enemyMove g player order enemy.pos = enemy.pos
      rw [enemyMove_visible g player order enemy.pos hvis]
      rcases (scanMoves_visible g player enemy.pos hv [0, 1, 2, 3] enemy.pos 9999).2 with
        ⟨hb, _, _⟩ | ⟨l1, i, l2, hl, hwi, _⟩
      · exact hb
      · have hi := (split_indices l1 l2 i hl).1
        rw [hbox i hi] at hwi
        exact absurd hwi (by decide)
    · intro hp hex
      exact hmove g player dt order st enemy hvis hfire hp hex
  · intro player dt order st enemy hvis hp hfire hvalid
    exact (hmove _ player dt order st enemy hvis hfire hp
      (level_has_walkable_neighbour enemy.pos hvalid)).1

/-- C3 (amended), instances: in the loaded level, with the player visible at (1,1), the pursuer
at (8,1) has the walkable neighbours (8,2) and (9,1), none closer to the player than (8,1); its
step fires and its position changes.  On the grid whose only non-Wall cell is (5,5), a pursuer
on that cell has no walkable neighbour and stays. -/
theorem C3_stays_only_when_boxed_in_witness :
    (updateEnemy (loadGrid LEVEL_LAYOUT) (playerAt ⟨1, 1⟩) (1 / 2) [0, 1, 2, 3]
      GameState.PLAYING ⟨⟨8, 1⟩, 0, 1 / 2⟩).1.pos ≠ ⟨8, 1⟩ ∧
    (updateEnemy pitGrid (playerAt ⟨5, 2⟩) (1 / 2) [0, 1, 2, 3]
      GameState.PLAYING ⟨⟨5, 5⟩, 0, 1 / 2⟩).1.pos = ⟨5, 5⟩ :=
  ⟨((C3_stays_only_when_boxed_in.1 (loadGrid LEVEL_LAYOUT) (playerAt ⟨1, 1⟩) (1 / 2)
      [0, 1, 2, 3] GameState.PLAYING ⟨⟨8, 1⟩, 0, 1 / 2⟩ (le_refl _)
      (by rw [if_neg (by decide)]; norm_num)).2
    (by decide) ⟨1, by omega, by decide⟩).1,
   (C3_stays_only_when_boxed_in.1 pitGrid (playerAt ⟨5, 2⟩) (1 / 2)
      [0, 1, 2, 3] GameState.PLAYING ⟨⟨5, 5⟩, 0, 1 / 2⟩ (le_refl _)
      (by rw [if_neg (by decide)]; norm_num)).1
    (by intro i hi; have h4 : i = 0 ∨ i = 1 ∨ i = 2 ∨ i = 3 := by omega
        rcases h4 with rfl | rfl | rfl | rfl <;> decide)⟩

end TriviaStealth
